import Mathlib

/-! Atmospheric-refraction correction (`refraction.c`): embedding and verified properties.

The C program works on `double`s.  A `double` is modelled by the type `Dbl`:
a finite value is a real number, and the three special values `+inf`, `-inf`
and `NaN` are kept, because the program reaches them by dividing by an exact
zero.  Zero is unsigned: a zero divisor is taken as `+0`, which is what every
zero divisor of this program is (a `sqrt` result, or a difference of two equal
numbers under round-to-nearest).

The functions `satProjection`, `zenithAngle`, `refractiveIndex`, `deltaAngle`,
the body of the `for` loop of `main` and the fixture generator
`generate-test-cases.c` are transcribed statement by statement.  The diagnostic
`printf` calls have no effect on the computed values and are left out.

The program is embedded twice.  In the first embedding the arithmetic of finite
values is exact (rounding, overflow and underflow are left out); it carries the
properties about the formulas and the geometry.  In the second embedding,
namespace `Rounded`, every operation and every library call is followed by the
rounding `Dbl.rn` to the nearest `double` (IEEE 754 binary64, ties to even,
subnormal numbers included; overflow is left out); it carries the properties
that depend on the rounding: the value of `PI - (PI - w)`, the test
`linearDisplacement == 0.0` and the per-axis translation of `main`.
-/

namespace Refraction

/-! ## The model of `double` -/

/-- A `double`: a finite value (idealised as a real), an infinity, or NaN. -/
inductive Dbl where
  | fin (r : ℝ)
  | pinf
  | ninf
  | nan

namespace Dbl

/-- Conversion of a C `int` to `double` (exact). -/
def ofInt (n : ℤ) : Dbl := fin (n : ℝ)

/-- Unary minus. -/
noncomputable def neg : Dbl → Dbl
  | fin a => fin (-a)
  | pinf => ninf
  | ninf => pinf
  | nan => nan

/-- Addition: `inf + -inf` is NaN. -/
noncomputable def add : Dbl → Dbl → Dbl
  | fin a, fin b => fin (a + b)
  | fin _, pinf => pinf
  | fin _, ninf => ninf
  | pinf, fin _ => pinf
  | pinf, pinf => pinf
  | ninf, fin _ => ninf
  | ninf, ninf => ninf
  | _, _ => nan

/-- Subtraction, `a - b = a + (-b)`. -/
noncomputable def sub (a b : Dbl) : Dbl := add a (neg b)

/-- Multiplication: `inf * 0` is NaN. -/
noncomputable def mul : Dbl → Dbl → Dbl
  | fin a, fin b => fin (a * b)
  | fin a, pinf => if 0 < a then pinf else if a < 0 then ninf else nan
  | fin a, ninf => if 0 < a then ninf else if a < 0 then pinf else nan
  | pinf, fin b => if 0 < b then pinf else if b < 0 then ninf else nan
  | ninf, fin b => if 0 < b then ninf else if b < 0 then pinf else nan
  | pinf, pinf => pinf
  | pinf, ninf => ninf
  | ninf, pinf => ninf
  | ninf, ninf => pinf
  | _, _ => nan

/-- Division: a nonzero finite value over zero is an infinity of its sign,
`0 / 0` and `inf / inf` are NaN, a finite value over an infinity is zero. -/
noncomputable def div : Dbl → Dbl → Dbl
  | fin a, fin b =>
      if b = 0 then (if 0 < a then pinf else if a < 0 then ninf else nan) else fin (a / b)
  | fin _, pinf => fin 0
  | fin _, ninf => fin 0
  | pinf, fin b => if b < 0 then ninf else pinf
  | ninf, fin b => if b < 0 then pinf else ninf
  | _, _ => nan

noncomputable instance : Neg Dbl := ⟨neg⟩
noncomputable instance : Add Dbl := ⟨add⟩
noncomputable instance : Sub Dbl := ⟨sub⟩
noncomputable instance : Mul Dbl := ⟨mul⟩
noncomputable instance : Div Dbl := ⟨div⟩

/-- C `sqrt`: NaN on a negative argument. -/
noncomputable def sqrt : Dbl → Dbl
  | fin a => if a < 0 then nan else fin (Real.sqrt a)
  | pinf => pinf
  | _ => nan

/-- C `pow(b, e)` for a finite exponent `e` (every exponent in the program is a
finite constant).  A negative base with a non-integer exponent is NaN; for a
negative base and an integer exponent `Real.rpow` has the value and sign of the
integer power. -/
noncomputable def pow : Dbl → ℝ → Dbl
  | fin b, e =>
      if e = 0 then fin 1
      else if 0 < b then fin (b ^ e)
      else if b = 0 then (if 0 < e then fin 0 else pinf)
      else if ((⌊e⌋ : ℤ) : ℝ) = e then fin (b ^ e) else nan
  | pinf, e => if e = 0 then fin 1 else if 0 < e then pinf else fin 0
  | ninf, e =>
      if e = 0 then fin 1
      else if e < 0 then fin 0
      else if ((⌊e⌋ : ℤ) : ℝ) = e ∧ ⌊e⌋ % 2 = 1 then ninf else pinf
  | nan, e => if e = 0 then fin 1 else nan

/-- C `atan`: `atan(±inf) = ±π/2`. -/
noncomputable def atan : Dbl → Dbl
  | fin a => fin (Real.arctan a)
  | pinf => fin (Real.pi / 2)
  | ninf => fin (-(Real.pi / 2))
  | nan => nan

/-- C `sin`: NaN at an infinity. -/
noncomputable def sin : Dbl → Dbl
  | fin a => fin (Real.sin a)
  | _ => nan

/-- C `asin`: NaN outside `[-1, 1]`. -/
noncomputable def asin : Dbl → Dbl
  | fin a => if -1 ≤ a ∧ a ≤ 1 then fin (Real.arcsin a) else nan
  | _ => nan

/-- C `a > b`: false as soon as one side is NaN. -/
noncomputable def gt : Dbl → Dbl → Bool
  | fin a, fin b => decide (b < a)
  | fin _, ninf => true
  | pinf, fin _ => true
  | pinf, ninf => true
  | _, _ => false

/-- C `a < b`: false as soon as one side is NaN. -/
noncomputable def lt (a b : Dbl) : Bool := gt b a

/-- C `tan`: NaN at an infinity.  A finite argument at which the cosine is
exactly zero has no tangent; no value the generator passes is such a point. -/
noncomputable def tan : Dbl → Dbl
  | fin a => if Real.cos a = 0 then nan else fin (Real.tan a)
  | _ => nan

/-- C `a == b`: false as soon as one side is NaN. -/
noncomputable def beq : Dbl → Dbl → Bool
  | fin a, fin b => decide (a = b)
  | pinf, pinf => true
  | ninf, ninf => true
  | _, _ => false

/-- Conversion of a `double` to `int`, as done implicitly when a `double` is
passed to a function declared with an `int` parameter: the value is truncated
toward zero; the behaviour is undefined (`none`) when the truncated value is not
an `int` (of 32 bits), and for an infinity or NaN. -/
noncomputable def toInt : Dbl → Option ℤ
  | fin a =>
      let n : ℤ := if 0 ≤ a then ⌊a⌋ else ⌈a⌉
      if -2147483648 ≤ n ∧ n ≤ 2147483647 then some n else none
  | _ => none

end Dbl

/-- The `abs` of `<stdlib.h>`, `int abs(int)`; undefined on `INT_MIN`. -/
def intAbs (n : ℤ) : Option ℤ :=
  if n = -2147483648 then none else some |n|

/-- The call `abs(v)` with a `double` argument, assigned to a `double`: the
argument is converted to `int`, and the `int` result back to `double`. -/
noncomputable def abs (v : Dbl) : Option Dbl :=
  (Dbl.toInt v).bind fun n => (intAbs n).map Dbl.ofInt

/-! ## Constants -/

/-- `#define EARTHRAD 6371000` (an `int` constant). -/
def EARTHRAD : ℤ := 6371000

/-- `#define PI 3.14159265359` in `refraction.h`. -/
noncomputable def PI : Dbl := Dbl.fin 3.14159265359

/-! ## The functions of `refraction.c` -/

open Dbl in
/-- `satProjection(x, y, z, &satProj_x, &satProj_y, &satProj_z)`; the three
output arguments are returned as a triple. -/
noncomputable def satProjection (x y z : Dbl) : Dbl × Dbl × Dbl :=
  let alt_sat := sqrt (pow x 2 + pow y 2 + pow z 2)
  let t := ofInt EARTHRAD / alt_sat
  (t * x, t * y, t * z)

open Dbl in
/-- `zenithAngle(x, y, z, a, b, c, &distGS2satProj)`; returns the pair
`(zenAng, distGS2satProj)`. -/
noncomputable def zenithAngle (x y z a b c : Dbl) : Dbl × Dbl :=
  let (satProj_x, satProj_y, satProj_z) := satProjection x y z
  let distGS2satProj :=
    sqrt (pow (satProj_x - a) 2 + pow (satProj_y - b) 2 + pow (satProj_z - c) 2)
  let alt_sat := sqrt (pow x 2 + pow y 2 + pow z 2)
  let height_sat := alt_sat - ofInt EARTHRAD
  let zenAng := atan (distGS2satProj / height_sat)
  (zenAng, distGS2satProj)

open Dbl in
/-- `deltaAngle(x, y, z, a, b, c)`. -/
noncomputable def deltaAngle (x y z a b c : Dbl) : Dbl :=
  let (zenAng, distGS2satProj) := zenithAngle x y z a b c
  let theta := distGS2satProj / ofInt EARTHRAD
  let z_0 := PI - (PI - (zenAng + theta))
  let zed := asin ((sin z_0 * ofInt EARTHRAD) / ofInt (EARTHRAD + 15))
  let dAng := z_0 - zed
  dAng

open Dbl in
/-- The value of the local `z_0` in the call `deltaAngle(x, y, z, a, b, c)`. -/
noncomputable def closureAngle (x y z a b c : Dbl) : Dbl :=
  let (zenAng, distGS2satProj) := zenithAngle x y z a b c
  let theta := distGS2satProj / ofInt EARTHRAD
  PI - (PI - (zenAng + theta))

open Dbl in
/-- The argument that `deltaAngle` passes to `asin`, as a function of the local
`z_0`. -/
noncomputable def asinArg (z_0 : Dbl) : Dbl :=
  (sin z_0 * ofInt EARTHRAD) / ofInt (EARTHRAD + 15)

open Dbl in
/-- `refractiveIndex(q, r, s)`.  The locals that hold physical constants are
finite numbers and `Gamma` is computed from them with a nonzero divisor, so they
are kept as reals; the locals `alt_tropop` and `T_tropop` are assigned and never
read. -/
noncomputable def refractiveIndex (q r s : Dbl) : Dbl :=
  let Molec_mean : ℝ := 28.825
  let g_0 : ℝ := 9.805
  let R_gas : ℝ := 8314.3
  let r_Ltrop : ℝ := 0.0065
  let T_sealevel : ℝ := 273.15
  let alt_observer := sqrt (pow q 2 + pow r 2 + pow s 2)
  let tempFac := fin 1.0 - fin r_Ltrop * (alt_observer - ofInt EARTHRAD) / fin T_sealevel
  let Gamma : ℝ := (Molec_mean * g_0) / (R_gas * r_Ltrop) - 1
  let densFac := pow tempFac Gamma
  let mu := fin 1.0 + (fin 0.0002905 * densFac)
  mu

open Dbl in
/-- One iteration of the `for` loop of `main` on the fixture
`(x[j], y[j], z[j])`, `(a[j], b[j], c[j])`: the result is `(d[j], e[j], f[j])`,
or `none` when one of the three `abs` calls has undefined behaviour. -/
noncomputable def mainBody (x y z a b c : Dbl) : Option (Dbl × Dbl × Dbl) :=
  let (satProj_x, satProj_y, satProj_z) := satProjection x y z
  (abs (a - satProj_x)).bind fun projSatGSDiff_x =>
  (abs (b - satProj_y)).bind fun projSatGSDiff_y =>
  (abs (c - satProj_z)).bind fun projSatGSDiff_z =>
  let distProjSat2GS :=
    sqrt (pow (satProj_x - a) 2 + pow (satProj_y - b) 2 + pow (satProj_z - c) 2)
  let dAng := deltaAngle x y z a b c
  let linearDisplacement := ofInt 6371000 * dAng
  if beq linearDisplacement (fin 0.0) then
    some (a, b, c)
  else
    let d :=
      if gt satProj_x a then a + ((linearDisplacement / distProjSat2GS) * projSatGSDiff_x)
      else a - ((linearDisplacement / distProjSat2GS) * projSatGSDiff_x)
    let e :=
      if gt satProj_y b then b + ((linearDisplacement / distProjSat2GS) * projSatGSDiff_y)
      else b - ((linearDisplacement / distProjSat2GS) * projSatGSDiff_y)
    let f :=
      if gt satProj_z c then c + ((linearDisplacement / distProjSat2GS) * projSatGSDiff_z)
      else c - ((linearDisplacement / distProjSat2GS) * projSatGSDiff_z)
    some (d, e, f)

/-- The value `main` prints as "Distance from refracted to unrefracted GS". -/
noncomputable def printedDistance (d e f a b c : Dbl) : Dbl :=
  Dbl.sqrt (Dbl.pow (d - a) 2 + Dbl.pow (e - b) 2 + Dbl.pow (f - c) 2)

/-! ## The fixture arrays of `main`

Each array is declared with 88 elements.  The initialiser lists of `a`, `b` and
`c` have 87 values, so the element of index 87 is zero-initialised; reading an
element with `getD _ 0` gives that value. -/

namespace main

/-- The initialiser of the local array `a[88]` of `main`:
x coordinates of the unrefracted ground station. -/
def a : List ℝ :=
  [6371000.0, 6371000.0, 6371000.0, 6371000.0, 6371000.0, 6371000.0, 6371000.0, 6371000.0,
   6371000.0, 6371000.0, 6371000.0, 6371000.0, 6371000.0, 6371000.0, 6371000.0, -6371000.0,
   -6371000.0, -6371000.0, -6371000.0, -6371000.0, -6371000.0, -6371000.0, -6371000.0,
   -6371000.0, -6371000.0, -6371000.0, -6371000.0, -6371000.0, -6371000.0, -6371000.0, 0.0,
   0.0, 0.0, 0.0, 0.0, 0.0, 0.0, 0.0, 0.0, 0.0, 0.0, 0.0, 0.0, 0.0, 0.0, 0.0, 0.0, 0.0, 0.0,
   0.0, 0.0, 0.0, 0.0, 0.0, 0.0, 0.0, 0.0, 0.0, 0.0, 0.0, 0.0, 0.0, 0.0, 0.0, 0.0, 0.0, 0.0,
   0.0, 0.0, 0.0, 0.0, 0.0, 0.0, 0.0, 0.0, 0.0, 0.0, 0.0, 0.0, 0.0, 0.0, 0.0, 0.0, 0.0, 0.0,
   0.0, 0.0]

/-- The initialiser of the local array `b[88]` of `main`:
y coordinates of the unrefracted ground station. -/
def b : List ℝ :=
  [0.0, 0.0, 0.0, 0.0, 0.0, 0.0, 0.0, 0.0, 0.0, 0.0, 0.0, 0.0, 0.0, 0.0, 0.0, 0.0, 0.0, 0.0,
   0.0, 0.0, 0.0, 0.0, 0.0, 0.0, 0.0, 0.0, 0.0, 0.0, 0.0, 0.0, 6371000.0, 6371000.0, 6371000.0,
   6371000.0, 6371000.0, 6371000.0, 6371000.0, 6371000.0, 6371000.0, 6371000.0, 6371000.0,
   6371000.0, 6371000.0, 6371000.0, 6371000.0, -6371000.0, -6371000.0, -6371000.0, -6371000.0,
   -6371000.0, -6371000.0, -6371000.0, -6371000.0, -6371000.0, -6371000.0, -6371000.0,
   -6371000.0, -6371000.0, -6371000.0, -6371000.0, 0.0, 0.0, 0.0, 0.0, 0.0, 0.0, 0.0, 0.0, 0.0,
   0.0, 0.0, 0.0, 0.0, 0.0, 0.0, 0.0, 0.0, 0.0, 0.0, 0.0, 0.0, 0.0, 0.0, 0.0, 0.0, 0.0, 0.0]

/-- The initialiser of the local array `c[88]` of `main`:
z coordinates of the unrefracted ground station. -/
def c : List ℝ :=
  [0.0, 0.0, 0.0, 0.0, 0.0, 0.0, 0.0, 0.0, 0.0, 0.0, 0.0, 0.0, 0.0, 0.0, 0.0, 0.0, 0.0, 0.0,
   0.0, 0.0, 0.0, 0.0, 0.0, 0.0, 0.0, 0.0, 0.0, 0.0, 0.0, 0.0, 0.0, 0.0, 0.0, 0.0, 0.0, 0.0,
   0.0, 0.0, 0.0, 0.0, 0.0, 0.0, 0.0, 0.0, 0.0, 0.0, 0.0, 0.0, 0.0, 0.0, 0.0, 0.0, 0.0, 0.0,
   0.0, 0.0, 0.0, 0.0, 0.0, 0.0, 6371000.0, 6371000.0, 6371000.0, 6371000.0, 6371000.0,
   6371000.0, 6371000.0, 6371000.0, 6371000.0, 6371000.0, 6371000.0, 6371000.0, 6371000.0,
   6371000.0, 6371000.0, -6371000.0, -6371000.0, -6371000.0, -6371000.0, -6371000.0,
   -6371000.0, -6371000.0, -6371000.0, -6371000.0, -6371000.0, -6371000.0, -6371000.0]

/-- The initialiser of the local array `x[88]` of `main`:
x coordinates of the spacecraft. -/
def x : List ℝ :=
  [6871000.000013, 6870993.553012, 6870974.196290, 6870941.882601, 6870896.532929,
   6870838.036079, 6870766.248094, 6870680.991498, 6870582.054363, 6870469.189177,
   6870342.111515, 6870200.498503, 6870043.987043, 6869872.171806, 6869684.602949,
   -6869480.783555, -6869260.166758, -6869022.152525, -6868766.084065, -6868491.243829,
   -6868196.849046, -6867882.046759, -6867545.908301, -6867187.423138, -6866805.492021,
   -6866398.919348, -6865966.404653, -6865506.533102, -6865017.764874, -6864498.423286,
   311250.628638, 323918.191201, 336853.432073, 350073.029579, 363594.754864, 377437.574291,
   391621.762976, 406169.030930, 421102.663498, 436447.678054, 452230.999223, 468481.655254,
   485230.998617, 502512.954403, 520364.300738, 538824.986122, 557938.489556, 577752.230309,
   598318.035558, 619692.675633, 641938.478586, 665124.038139, 689325.031973, 714625.170951,
   741117.304358, 768904.711852, 798102.619942, 828839.989739, 861261.634214, 895530.737832,
   931831.870399, 970374.611627, 1011397.935241, 1055175.544192, 1102022.405500,
   1152302.809919, 1206440.385636, 1264930.638105, 1328356.786073, 1397409.941697,
   1472915.076927, 1555864.785189, 1647463.673013, 1749187.435399, 1862862.493821,
   1990774.845461, 2135821.027604, 2301720.699561, 2493320.599776, 2717035.354516,
   2981493.407760, 3298483.483822, 3684301.907601, 4161443.039518, 4759550.200962,
   5508812.580476, 6382848.336317, 6820303.968142]

/-- The initialiser of the local array `y[88]` of `main`:
y coordinates of the spacecraft. -/
def y : List ℝ :=
  [0.000000, 9412.472374, 18830.668804, 28260.327264, 37707.213631, 47177.135817, 56675.958123,
   66209.615883, 75784.130476, 85405.624802, 95080.339290, 104814.648539, 114615.078688,
   124488.325614, 134441.274074, 144481.017908, 154614.881441, 164850.442215, 175195.555221,
   185658.378791, 196247.402351, 206971.476238, 217839.843814, 228862.176142, 240048.609505,
   251409.786101, 262956.898266, 274701.736638, 286656.742715, 298835.066335, 6863946.681491,
   6863360.547544, 6862737.847643, 6862076.207252, 6861373.029825, 6860625.472775,
   6859830.420275, 6858984.452416, 6858083.810145, 6857124.355333, 6856101.525176,
   6855010.279997, 6853845.043343, 6852599.633047, 6851267.181675, -6849840.044447,
   -6848309.692329, -6846666.587511, -6844900.037875, -6842998.026300, -6840947.009726,
   -6838731.681684, -6836334.690495, -6833736.303459, -6830914.004828, -6827842.012251,
   -6824490.692221, -6820825.849674, -6816807.859813, -6812390.600793, 0.000000, 0.000000,
   0.000000, 0.000000, 0.000000, 0.000000, 0.000000, 0.000000, 0.000000, 0.000000, 0.000000,
   0.000000, 0.000000, 0.000000, 0.000000, 0.000000, 0.000000, 0.000000, 0.000000, 0.000000,
   0.000000, 0.000000, 0.000000, 0.000000, 0.000000, 0.000000, 0.000000, 0.000000]

/-- The initialiser of the local array `z[88]` of `main`:
z coordinates of the spacecraft. -/
def z : List ℝ :=
  [0.000000, 0.000000, 0.000000, 0.000000, 0.000000, 0.000000, 0.000000, 0.000000, 0.000000,
   0.000000, 0.000000, 0.000000, 0.000000, 0.000000, 0.000000, 0.000000, 0.000000, 0.000000,
   0.000000, 0.000000, 0.000000, 0.000000, 0.000000, 0.000000, 0.000000, 0.000000, 0.000000,
   0.000000, 0.000000, 0.000000, 0.000000, 0.000000, 0.000000, 0.000000, 0.000000, 0.000000,
   0.000000, 0.000000, 0.000000, 0.000000, 0.000000, 0.000000, 0.000000, 0.000000, 0.000000,
   0.000000, 0.000000, 0.000000, 0.000000, 0.000000, 0.000000, 0.000000, 0.000000, 0.000000,
   0.000000, 0.000000, 0.000000, 0.000000, 0.000000, 0.000000, 6807520.133314, 6802133.056129,
   6796154.443269, 6789495.236843, 6782048.924768, 6773687.270197, 6764254.770193,
   6753561.392403, 6741372.949857, 6727398.193583, 6711271.278702, 6692527.606994,
   6670570.024089, 6644620.705203, 6613651.361335, -6576279.838545, -6530613.258969,
   -6474003.616109, -6402655.182571, -6310971.389769, -6190423.092136, -6027490.996022,
   -5799703.479819, -5467452.133217, -4955534.571032, -4106534.421306, -2543597.475182,
   833123.509645]

end main

/-- Iteration `j` of the `for` loop of `main` (`j < 88`): the loop body on the
fixture of index `j`. -/
noncomputable def mainIter (j : ℕ) : Option (Dbl × Dbl × Dbl) :=
  mainBody (Dbl.fin (main.x.getD j 0)) (Dbl.fin (main.y.getD j 0)) (Dbl.fin (main.z.getD j 0))
    (Dbl.fin (main.a.getD j 0)) (Dbl.fin (main.b.getD j 0)) (Dbl.fin (main.c.getD j 0))

/-! ## The functions with their `static` locals as explicit state -/

/-- The `static` locals of `satProjection` (`alt_sat`, `t`) and of `zenithAngle`
(`alt_sat`, `height_sat`, `satProj_x`, `satProj_y`, `satProj_z`): they keep
their value from one call to the next. -/
structure Statics where
  satProjection_alt_sat : Dbl
  satProjection_t : Dbl
  zenithAngle_alt_sat : Dbl
  zenithAngle_height_sat : Dbl
  zenithAngle_satProj_x : Dbl
  zenithAngle_satProj_y : Dbl
  zenithAngle_satProj_z : Dbl

namespace Stateful

open Dbl in
/-- `satProjection` as a state transformer: every assignment to a `static` is a
state update and every use of a `static` reads the state. -/
noncomputable def satProjection (σ : Statics) (x y z : Dbl) : (Dbl × Dbl × Dbl) × Statics :=
  let σ1 := { σ with satProjection_alt_sat := sqrt (pow x 2 + pow y 2 + pow z 2) }
  let σ2 := { σ1 with satProjection_t := ofInt EARTHRAD / σ1.satProjection_alt_sat }
  ((σ2.satProjection_t * x, σ2.satProjection_t * y, σ2.satProjection_t * z), σ2)

open Dbl in
/-- `zenithAngle` as a state transformer; the call of `satProjection` writes its
three outputs into the `static`s `satProj_x`, `satProj_y`, `satProj_z`. -/
noncomputable def zenithAngle (σ : Statics) (x y z a b c : Dbl) : (Dbl × Dbl) × Statics :=
  let ((out_x, out_y, out_z), σ0) := satProjection σ x y z
  let σ1 : Statics :=
    { satProjection_alt_sat := σ0.satProjection_alt_sat
      satProjection_t := σ0.satProjection_t
      zenithAngle_alt_sat := σ0.zenithAngle_alt_sat
      zenithAngle_height_sat := σ0.zenithAngle_height_sat
      zenithAngle_satProj_x := out_x
      zenithAngle_satProj_y := out_y
      zenithAngle_satProj_z := out_z }
  let distGS2satProj :=
    sqrt (pow (σ1.zenithAngle_satProj_x - a) 2 + pow (σ1.zenithAngle_satProj_y - b) 2
      + pow (σ1.zenithAngle_satProj_z - c) 2)
  let σ2 := { σ1 with zenithAngle_alt_sat := sqrt (pow x 2 + pow y 2 + pow z 2) }
  let σ3 := { σ2 with zenithAngle_height_sat := σ2.zenithAngle_alt_sat - ofInt EARTHRAD }
  let zenAng := atan (distGS2satProj / σ3.zenithAngle_height_sat)
  ((zenAng, distGS2satProj), σ3)

open Dbl in
/-- `deltaAngle` as a state transformer (it has no `static` of its own and
reaches the state through `zenithAngle`). -/
noncomputable def deltaAngle (σ : Statics) (x y z a b c : Dbl) : Dbl × Statics :=
  let ((zenAng, distGS2satProj), σ1) := zenithAngle σ x y z a b c
  let theta := distGS2satProj / ofInt EARTHRAD
  let z_0 := PI - (PI - (zenAng + theta))
  let zed := asin ((sin z_0 * ofInt EARTHRAD) / ofInt (EARTHRAD + 15))
  let dAng := z_0 - zed
  (dAng, σ1)

end Stateful

/-! ## The fixture generator `generate-test-cases.c`

The arrays `a`, `b`, `c` are declared with 91 elements and initialised with 90
integer constants, so the element of index 90 is zero-initialised; reading an
element with `getD _ 0` gives that value. -/

namespace generate

/-- `#define PI 3.14159265359` in `generate-test-cases.c`. -/
noncomputable def PI : Dbl := Dbl.fin 3.14159265359

/-- The initialiser of `zenAngDeg[91]`. -/
def zenAngDeg : List ℤ :=
  [0, 1, 2, 3, 4, 5, 6, 7, 8, 9, 10, 11, 12, 13, 14, 15, 16, 17, 18, 19, 20, 21, 22, 23, 24,
   25, 26, 27, 28, 29, 30, 31, 32, 33, 34, 35, 36, 37, 38, 39, 40, 41, 42, 43, 44, 45, 46, 47,
   48, 49, 50, 51, 52, 53, 54, 55, 56, 57, 58, 59, 60, 61, 62, 63, 64, 65, 66, 67, 68, 69, 70,
   71, 72, 73, 74, 75, 76, 77, 78, 79, 80, 81, 82, 83, 84, 85, 86, 87, 88, 89, 90]

/-- The initialiser of `a[91]`. -/
def a : List ℤ :=
  [6371000, 6371000, 6371000, 6371000, 6371000, 6371000, 6371000, 6371000, 6371000, 6371000,
   6371000, 6371000, 6371000, 6371000, 6371000, -6371000, -6371000, -6371000, -6371000,
   -6371000, -6371000, -6371000, -6371000, -6371000, -6371000, -6371000, -6371000, -6371000,
   -6371000, -6371000, 0, 0, 0, 0, 0, 0, 0, 0, 0, 0, 0, 0, 0, 0, 0, 0, 0, 0, 0, 0, 0, 0, 0, 0,
   0, 0, 0, 0, 0, 0, 0, 0, 0, 0, 0, 0, 0, 0, 0, 0, 0, 0, 0, 0, 0, 0, 0, 0, 0, 0, 0, 0, 0, 0, 0,
   0, 0, 0, 0, 0]

/-- The initialiser of `b[91]`. -/
def b : List ℤ :=
  [0, 0, 0, 0, 0, 0, 0, 0, 0, 0, 0, 0, 0, 0, 0, 0, 0, 0, 0, 0, 0, 0, 0, 0, 0, 0, 0, 0, 0, 0,
   6371000, 6371000, 6371000, 6371000, 6371000, 6371000, 6371000, 6371000, 6371000, 6371000,
   6371000, 6371000, 6371000, 6371000, 6371000, -6371000, -6371000, -6371000, -6371000,
   -6371000, -6371000, -6371000, -6371000, -6371000, -6371000, -6371000, -6371000, -6371000,
   -6371000, -6371000, 0, 0, 0, 0, 0, 0, 0, 0, 0, 0, 0, 0, 0, 0, 0, 0, 0, 0, 0, 0, 0, 0, 0, 0,
   0, 0, 0, 0, 0, 0]

/-- The initialiser of `c[91]`. -/
def c : List ℤ :=
  [0, 0, 0, 0, 0, 0, 0, 0, 0, 0, 0, 0, 0, 0, 0, 0, 0, 0, 0, 0, 0, 0, 0, 0, 0, 0, 0, 0, 0, 0, 0,
   0, 0, 0, 0, 0, 0, 0, 0, 0, 0, 0, 0, 0, 0, 0, 0, 0, 0, 0, 0, 0, 0, 0, 0, 0, 0, 0, 0, 0,
   6371000, 6371000, 6371000, 6371000, 6371000, 6371000, 6371000, 6371000, 6371000, 6371000,
   6371000, 6371000, 6371000, 6371000, 6371000, -6371000, -6371000, -6371000, -6371000,
   -6371000, -6371000, -6371000, -6371000, -6371000, -6371000, -6371000, -6371000, -6371000,
   -6371000, -6371000]

/-- The element `zenAng[p]` computed by the first loop,
`zenAngDeg[p] * (PI / 180)`. -/
noncomputable def zenAng (p : ℕ) : Dbl :=
  Dbl.ofInt (zenAngDeg.getD p 0) * (PI / Dbl.ofInt 180)

open Dbl in
/-- The body of the second loop for the zenith angle `zenAng_j` and the ground
station `(a_j, b_j, c_j)`: the result is `(x[j], y[j], z[j])`, or `none` when none
of the three branches is taken and the elements stay uninitialised. -/
noncomputable def body (zenAng_j a_j b_j c_j : Dbl) : Option (Dbl × Dbl × Dbl) :=
  let distABCsatProj := tan zenAng_j * ofInt 500000
  if beq b_j (ofInt 0) && beq c_j (ofInt 0) then
    let satProj_z := ofInt 0
    let satProj_x :=
      ((ofInt 2 * pow (ofInt 6371000) 2) - pow distABCsatProj 2) / ofInt (2 * 6371000)
    let satProj_y := sqrt (pow (ofInt 6371000) 2 - pow satProj_x 2)
    let x :=
      if lt a_j (ofInt 0) then fin (-1.07848061529) * satProj_x
      else fin 1.07848061529 * satProj_x
    let y := fin 1.07848061529 * satProj_y
    let z := fin 1.07848061529 * satProj_z
    some (x, y, z)
  else if beq a_j (ofInt 0) && beq c_j (ofInt 0) then
    let satProj_z := ofInt 0
    let satProj_y :=
      ((ofInt 2 * pow (ofInt 6371000) 2) - pow distABCsatProj 2) / ofInt (2 * 6371000)
    let satProj_x := sqrt (pow (ofInt 6371000) 2 - pow satProj_y 2)
    let x := fin 1.07848061529 * satProj_x
    let y :=
      if lt b_j (ofInt 0) then fin (-1.07848061529) * satProj_y
      else fin (-1.07848061529) * satProj_y
    let z := fin 1.07848061529 * satProj_z
    some (x, y, z)
  else if beq a_j (ofInt 0) && beq b_j (ofInt 0) then
    let satProj_y := ofInt 0
    let satProj_z :=
      ((ofInt 2 * pow (ofInt 6371000) 2) - pow distABCsatProj 2) / ofInt (2 * 6371000)
    let satProj_x := sqrt (pow (ofInt 6371000) 2 - pow satProj_z 2)
    let x := fin 1.07848061529 * satProj_x
    let y := fin 1.07848061529 * satProj_y
    let z :=
      if lt c_j (ofInt 0) then fin (-1.07848061529) * satProj_z
      else fin 1.07848061529 * satProj_z
    some (x, y, z)
  else
    none

/-- Iteration `j` of the second loop (`j < 91`). -/
noncomputable def iter (j : ℕ) : Option (Dbl × Dbl × Dbl) :=
  body (zenAng j) (Dbl.ofInt (a.getD j 0)) (Dbl.ofInt (b.getD j 0)) (Dbl.ofInt (c.getD j 0))

end generate

/-! ## Rounding to `double`

The second embedding keeps the rounding of the program: every arithmetic
operation and every library call returns the `double` nearest to the exact
result (IEEE 754 binary64, round to nearest, ties to even; the library
functions are taken as correctly rounded).  Overflow to an infinity is not
modelled, and neither are fused or extended-precision evaluations. -/

namespace Dbl

/-- Exponent of the unit in the last place at `x`: `⌊log₂ |x|⌋ - 52`, and
`-1074` in the subnormal range. -/
noncomputable def ulpExp (x : ℝ) : ℤ := max (Int.log 2 |x|) (-1022) - 52

/-- Rounding of a real to the nearest integer, ties to the even one. -/
noncomputable def roundHalfEven (m : ℝ) : ℤ :=
  if 2 * (m - ⌊m⌋) < 1 then ⌊m⌋
  else if 1 < 2 * (m - ⌊m⌋) then ⌊m⌋ + 1
  else if ⌊m⌋ % 2 = 0 then ⌊m⌋ else ⌊m⌋ + 1

/-- The `double` nearest to the real `x` (ties to even). -/
noncomputable def rnd (x : ℝ) : ℝ :=
  (roundHalfEven (x / (2 : ℝ) ^ ulpExp x) : ℝ) * (2 : ℝ) ^ ulpExp x

/-- Rounding of the exact result of an operation; infinities and NaN are kept. -/
noncomputable def rn : Dbl → Dbl
  | fin a => fin (rnd a)
  | pinf => pinf
  | ninf => ninf
  | nan => nan

end Dbl

/-! ## The functions of `refraction.c` with the rounding of every operation -/

namespace Rounded

/-- `#define PI 3.14159265359`: the `double` nearest to the decimal constant. -/
noncomputable def PI : Dbl := Dbl.rn Refraction.PI

open Dbl in
/-- `satProjection(x, y, z, &satProj_x, &satProj_y, &satProj_z)`. -/
noncomputable def satProjection (x y z : Dbl) : Dbl × Dbl × Dbl :=
  let alt_sat := rn (sqrt (rn (rn (rn (pow x 2) + rn (pow y 2)) + rn (pow z 2))))
  let t := rn (ofInt EARTHRAD / alt_sat)
  (rn (t * x), rn (t * y), rn (t * z))

open Dbl in
/-- `zenithAngle(x, y, z, a, b, c, &distGS2satProj)`; returns the pair
`(zenAng, distGS2satProj)`. -/
noncomputable def zenithAngle (x y z a b c : Dbl) : Dbl × Dbl :=
  let (satProj_x, satProj_y, satProj_z) := satProjection x y z
  let distGS2satProj :=
    rn (sqrt (rn (rn (rn (pow (rn (satProj_x - a)) 2) + rn (pow (rn (satProj_y - b)) 2))
      + rn (pow (rn (satProj_z - c)) 2))))
  let alt_sat := rn (sqrt (rn (rn (rn (pow x 2) + rn (pow y 2)) + rn (pow z 2))))
  let height_sat := rn (alt_sat - ofInt EARTHRAD)
  let zenAng := rn (atan (rn (distGS2satProj / height_sat)))
  (zenAng, distGS2satProj)

open Dbl in
/-- `deltaAngle(x, y, z, a, b, c)`. -/
noncomputable def deltaAngle (x y z a b c : Dbl) : Dbl :=
  let (zenAng, distGS2satProj) := zenithAngle x y z a b c
  let theta := rn (distGS2satProj / ofInt EARTHRAD)
  let z_0 := rn (PI - rn (PI - rn (zenAng + theta)))
  let zed := rn (asin (rn (rn (rn (sin z_0) * ofInt EARTHRAD) / ofInt (EARTHRAD + 15))))
  let dAng := rn (z_0 - zed)
  dAng

open Dbl in
/-- The value of the local `alt_sat` of `satProjection` and of `zenithAngle`. -/
noncomputable def altSat (x y z : Dbl) : Dbl :=
  rn (sqrt (rn (rn (rn (pow x 2) + rn (pow y 2)) + rn (pow z 2))))

open Dbl in
/-- The value of the sum `zenAng + theta` in the call `deltaAngle(x, y, z, a, b, c)`. -/
noncomputable def angleSum (x y z a b c : Dbl) : Dbl :=
  let (zenAng, distGS2satProj) := zenithAngle x y z a b c
  let theta := rn (distGS2satProj / ofInt EARTHRAD)
  rn (zenAng + theta)

open Dbl in
/-- The expression `PI - (PI - w)` that `deltaAngle` assigns to `z_0`, as a
function of the sum `w = zenAng + theta`. -/
noncomputable def closure (w : Dbl) : Dbl := rn (PI - rn (PI - w))

open Dbl in
/-- The expression `z_0 - asin((sin(z_0) * EARTHRAD) / (EARTHRAD + 15))` that
`deltaAngle` returns, as a function of `z_0`. -/
noncomputable def shell (z_0 : Dbl) : Dbl :=
  rn (z_0 - rn (asin (rn (rn (rn (sin z_0) * ofInt EARTHRAD) / ofInt (EARTHRAD + 15)))))

open Dbl in
/-- The value of the local `linearDisplacement` of `main`. -/
noncomputable def linearDisplacement (x y z a b c : Dbl) : Dbl :=
  rn (ofInt 6371000 * deltaAngle x y z a b c)

open Dbl in
/-- The value of the local `distProjSat2GS` of `main`. -/
noncomputable def distProjSat2GS (x y z a b c : Dbl) : Dbl :=
  let (satProj_x, satProj_y, satProj_z) := satProjection x y z
  rn (sqrt (rn (rn (rn (pow (rn (satProj_x - a)) 2) + rn (pow (rn (satProj_y - b)) 2))
    + rn (pow (rn (satProj_z - c)) 2))))

open Dbl in
/-- One iteration of the `for` loop of `main`. -/
noncomputable def mainBody (x y z a b c : Dbl) : Option (Dbl × Dbl × Dbl) :=
  let (satProj_x, satProj_y, satProj_z) := satProjection x y z
  (abs (rn (a - satProj_x))).bind fun projSatGSDiff_x =>
  (abs (rn (b - satProj_y))).bind fun projSatGSDiff_y =>
  (abs (rn (c - satProj_z))).bind fun projSatGSDiff_z =>
  let distProjSat2GS :=
    rn (sqrt (rn (rn (rn (pow (rn (satProj_x - a)) 2) + rn (pow (rn (satProj_y - b)) 2))
      + rn (pow (rn (satProj_z - c)) 2))))
  let dAng := deltaAngle x y z a b c
  let linearDisplacement := rn (ofInt 6371000 * dAng)
  if beq linearDisplacement (fin 0.0) then
    some (a, b, c)
  else
    let d :=
      if gt satProj_x a then
        rn (a + rn (rn (linearDisplacement / distProjSat2GS) * projSatGSDiff_x))
      else rn (a - rn (rn (linearDisplacement / distProjSat2GS) * projSatGSDiff_x))
    let e :=
      if gt satProj_y b then
        rn (b + rn (rn (linearDisplacement / distProjSat2GS) * projSatGSDiff_y))
      else rn (b - rn (rn (linearDisplacement / distProjSat2GS) * projSatGSDiff_y))
    let f :=
      if gt satProj_z c then
        rn (c + rn (rn (linearDisplacement / distProjSat2GS) * projSatGSDiff_z))
      else rn (c - rn (rn (linearDisplacement / distProjSat2GS) * projSatGSDiff_z))
    some (d, e, f)

open Dbl in
/-- One coordinate of the general translation of the specification,
`g + (L / D) * (p - g)`, where `g` is the coordinate of the ground station,
`p` that of the projection, `L` the linear displacement and `D` the distance
`|proj - g|`; every operation is rounded.  It is not code of the program: the
per-axis branches of `main` are compared with it. -/
noncomputable def translate (g L D p : Dbl) : Dbl :=
  rn (g + rn (rn (L / D) * rn (p - g)))

end Rounded

/-! ## Notions used to state the properties -/

/-- Euclidean norm `|(x, y, z)|` of a point given by real coordinates. -/
noncomputable def norm3 (x y z : ℝ) : ℝ := Real.sqrt (x ^ 2 + y ^ 2 + z ^ 2)

/-- Euclidean distance `|proj - g|` between the surface projection
`proj = (EARTHRAD / |s|) * s` of the point `s = (x, y, z)` and `g = (a, b, c)`. -/
noncomputable def chord (x y z a b c : ℝ) : ℝ :=
  norm3 (6371000 / norm3 x y z * x - a) (6371000 / norm3 x y z * y - b)
    (6371000 / norm3 x y z * z - c)

/-- The coordinate, along the axis of the ground station, of the surface point
that the fixture generator places at the chord distance `d` from the ground
station: `(2 * 6371000^2 - d^2) / (2 * 6371000)`. -/
noncomputable def genAxial (d : ℝ) : ℝ := (2 * 6371000 ^ 2 - d ^ 2) / (2 * 6371000)

/-- The other nonzero coordinate of that surface point,
`sqrt(6371000^2 - genAxial(d)^2)`. -/
noncomputable def genLateral (d : ℝ) : ℝ := Real.sqrt (6371000 ^ 2 - genAxial d ^ 2)

/-- The chord `tan(j * (PI / 180)) * 500000` that the fixture generator uses for
the fixture of index `j`, as a real number. -/
noncomputable def genChord (j : ℕ) : ℝ := Real.tan (j * (3.14159265359 / 180)) * 500000

/-- The angular displacement as a function of a real closure angle `z0`:
`z0 - asin(sin(z0) * EARTHRAD / (EARTHRAD + 15))`. -/
noncomputable def shellDisp (z0 : ℝ) : ℝ :=
  z0 - Real.arcsin (Real.sin z0 * 6371000 / 6371015)


/-! ## Arithmetic of finite values -/

namespace Dbl

@[simp] theorem fin_add_fin (a b : ℝ) : fin a + fin b = fin (a + b) := rfl

@[simp] theorem fin_sub_fin (a b : ℝ) : fin a - fin b = fin (a - b) := by
  show fin (a + -b) = fin (a - b)
  rw [sub_eq_add_neg]

@[simp] theorem fin_mul_fin (a b : ℝ) : fin a * fin b = fin (a * b) := rfl

theorem fin_div_fin (a : ℝ) {b : ℝ} (hb : b ≠ 0) : fin a / fin b = fin (a / b) := by
  show (if b = 0 then (if 0 < a then pinf else if a < 0 then ninf else nan) else fin (a / b))
    = fin (a / b)
  rw [if_neg hb]

@[simp] theorem pow_fin_two (a : ℝ) : pow (fin a) 2 = fin (a ^ 2) := by
  have h2 : ((⌊(2 : ℝ)⌋ : ℤ) : ℝ) = 2 := by
    have : ⌊(2 : ℝ)⌋ = 2 := by
      rw [Int.floor_eq_iff]; norm_num
    rw [this]; norm_num
  unfold pow
  rcases lt_trichotomy a 0 with h | h | h
  · have h1 : ¬ (0 < a) := not_lt.mpr h.le
    simp [h1, h.ne, h2, Real.rpow_two]
  · subst h; simp
  · simp [h, Real.rpow_two]

theorem sqrt_fin {a : ℝ} (ha : 0 ≤ a) : sqrt (fin a) = fin (Real.sqrt a) := by
  show (if a < 0 then nan else fin (Real.sqrt a)) = fin (Real.sqrt a)
  rw [if_neg (not_lt.mpr ha)]

@[simp] theorem atan_fin (a : ℝ) : atan (fin a) = fin (Real.arctan a) := rfl

@[simp] theorem sin_fin (a : ℝ) : sin (fin a) = fin (Real.sin a) := rfl

theorem asin_fin {a : ℝ} (h1 : -1 ≤ a) (h2 : a ≤ 1) : asin (fin a) = fin (Real.arcsin a) := by
  show (if -1 ≤ a ∧ a ≤ 1 then fin (Real.arcsin a) else nan) = fin (Real.arcsin a)
  rw [if_pos ⟨h1, h2⟩]

@[simp] theorem ofInt_eq (n : ℤ) : ofInt n = fin (n : ℝ) := rfl

end Dbl

/-! ## Euclidean norm of a real triple -/

theorem norm3_nonneg (x y z : ℝ) : 0 ≤ norm3 x y z := Real.sqrt_nonneg _

theorem sumsq_nonneg (x y z : ℝ) : 0 ≤ x ^ 2 + y ^ 2 + z ^ 2 := by positivity

theorem norm3_sq (x y z : ℝ) : norm3 x y z ^ 2 = x ^ 2 + y ^ 2 + z ^ 2 :=
  Real.sq_sqrt (sumsq_nonneg x y z)

theorem norm3_eq_zero_iff (x y z : ℝ) : norm3 x y z = 0 ↔ x = 0 ∧ y = 0 ∧ z = 0 := by
  unfold norm3
  rw [Real.sqrt_eq_zero (sumsq_nonneg x y z)]
  constructor
  · intro h
    have hx := sq_nonneg x
    have hy := sq_nonneg y
    have hz := sq_nonneg z
    refine ⟨?_, ?_, ?_⟩ <;> nlinarith
  · rintro ⟨rfl, rfl, rfl⟩; norm_num

theorem norm3_pos {x y z : ℝ} (h : ¬ (x = 0 ∧ y = 0 ∧ z = 0)) : 0 < norm3 x y z :=
  lt_of_le_of_ne (norm3_nonneg x y z) fun h0 => h ((norm3_eq_zero_iff x y z).mp h0.symm)

theorem norm3_smul {t : ℝ} (ht : 0 ≤ t) (x y z : ℝ) :
    norm3 (t * x) (t * y) (t * z) = t * norm3 x y z := by
  unfold norm3
  rw [show (t * x) ^ 2 + (t * y) ^ 2 + (t * z) ^ 2 = t ^ 2 * (x ^ 2 + y ^ 2 + z ^ 2) by ring,
    Real.sqrt_mul (sq_nonneg t), Real.sqrt_sq ht]

/-- The sum of squares that `satProjection`, `zenithAngle` and `main` pass to
`sqrt` evaluates, on finite values, to the finite norm. -/
theorem sqrt_sumsq_fin (x y z : ℝ) :
    Dbl.sqrt (Dbl.pow (Dbl.fin x) 2 + Dbl.pow (Dbl.fin y) 2 + Dbl.pow (Dbl.fin z) 2)
      = Dbl.fin (norm3 x y z) := by
  simp only [Dbl.pow_fin_two, Dbl.fin_add_fin]
  exact Dbl.sqrt_fin (sumsq_nonneg x y z)

/-- Value of `satProjection` at a finite point other than the origin. -/
theorem satProjection_fin {x y z : ℝ} (h : ¬ (x = 0 ∧ y = 0 ∧ z = 0)) :
    satProjection (Dbl.fin x) (Dbl.fin y) (Dbl.fin z)
      = (Dbl.fin (6371000 / norm3 x y z * x), Dbl.fin (6371000 / norm3 x y z * y),
         Dbl.fin (6371000 / norm3 x y z * z)) := by
  have hn : norm3 x y z ≠ 0 := (norm3_pos h).ne'
  unfold satProjection
  simp only [sqrt_sumsq_fin, Dbl.ofInt_eq, EARTHRAD, Dbl.fin_div_fin _ hn, Dbl.fin_mul_fin]
  norm_num


/-! ## Values of `zenithAngle` and `deltaAngle` on finite points -/

theorem chord_nonneg (x y z a b c : ℝ) : 0 ≤ chord x y z a b c := norm3_nonneg _ _ _

/-- The chord computed by `zenithAngle` (and again by `main`) from the output of
`satProjection`, at a finite satellite position other than the origin. -/
theorem chord_fin (x y z a b c : ℝ) :
    Dbl.sqrt (Dbl.pow (Dbl.fin (6371000 / norm3 x y z * x) - Dbl.fin a) 2
        + Dbl.pow (Dbl.fin (6371000 / norm3 x y z * y) - Dbl.fin b) 2
        + Dbl.pow (Dbl.fin (6371000 / norm3 x y z * z) - Dbl.fin c) 2)
      = Dbl.fin (chord x y z a b c) := by
  simp only [Dbl.fin_sub_fin]
  exact sqrt_sumsq_fin _ _ _

/-- Value of `zenithAngle` for a satellite that is neither at the origin nor on
the reference sphere. -/
theorem zenithAngle_fin {x y z : ℝ} (h : ¬ (x = 0 ∧ y = 0 ∧ z = 0))
    (hR : norm3 x y z ≠ 6371000) (a b c : ℝ) :
    zenithAngle (Dbl.fin x) (Dbl.fin y) (Dbl.fin z) (Dbl.fin a) (Dbl.fin b) (Dbl.fin c)
      = (Dbl.fin (Real.arctan (chord x y z a b c / (norm3 x y z - 6371000))),
         Dbl.fin (chord x y z a b c)) := by
  have hh : norm3 x y z - 6371000 ≠ 0 := sub_ne_zero.mpr hR
  have hE : ((6371000 : ℤ) : ℝ) = 6371000 := by norm_num
  unfold zenithAngle
  rw [satProjection_fin h]
  dsimp only
  rw [chord_fin, sqrt_sumsq_fin, Dbl.ofInt_eq, EARTHRAD, hE, Dbl.fin_sub_fin,
    Dbl.fin_div_fin _ hh, Dbl.atan_fin]

/-- Value of `zenithAngle` for a satellite on the reference sphere whose
projection is not the ground station: the quotient is `+inf` and `atan` gives
`π/2`. -/
theorem zenithAngle_surface {x y z : ℝ} (hR : norm3 x y z = 6371000) (a b c : ℝ)
    (hd : chord x y z a b c ≠ 0) :
    zenithAngle (Dbl.fin x) (Dbl.fin y) (Dbl.fin z) (Dbl.fin a) (Dbl.fin b) (Dbl.fin c)
      = (Dbl.fin (Real.pi / 2), Dbl.fin (chord x y z a b c)) := by
  have h : ¬ (x = 0 ∧ y = 0 ∧ z = 0) := by
    intro h0
    rw [(norm3_eq_zero_iff x y z).mpr h0] at hR
    norm_num at hR
  have hpos : 0 < chord x y z a b c := lt_of_le_of_ne (chord_nonneg _ _ _ _ _ _) (Ne.symm hd)
  have hdiv : Dbl.fin (chord x y z a b c) / Dbl.fin 0 = Dbl.pinf := by
    show (if (0 : ℝ) = 0 then
        (if 0 < chord x y z a b c then Dbl.pinf
          else if chord x y z a b c < 0 then Dbl.ninf else Dbl.nan)
        else Dbl.fin (chord x y z a b c / 0)) = Dbl.pinf
    rw [if_pos rfl, if_pos hpos]
  have hE : ((6371000 : ℤ) : ℝ) = 6371000 := by norm_num
  unfold zenithAngle
  rw [satProjection_fin h]
  dsimp only
  rw [chord_fin, sqrt_sumsq_fin, Dbl.ofInt_eq, EARTHRAD, hE, Dbl.fin_sub_fin, hR, sub_self,
    hdiv]
  rfl

/-- The double negation `PI - (PI - w)` gives back `w`, for every `double`. -/
theorem pi_sub_pi_sub (w : Dbl) : PI - (PI - w) = w := by
  cases w with
  | fin r =>
      show Dbl.fin (3.14159265359 + -(3.14159265359 + -r)) = Dbl.fin r
      congr 1; ring
  | pinf => rfl
  | ninf => rfl
  | nan => rfl

theorem asinArg_fin (z0 : ℝ) :
    asinArg (Dbl.fin z0) = Dbl.fin (Real.sin z0 * 6371000 / 6371015) := by
  unfold asinArg
  simp only [Dbl.sin_fin, Dbl.ofInt_eq, EARTHRAD, Dbl.fin_mul_fin]
  norm_num [Dbl.fin_div_fin]

theorem asinArg_bounds (z0 : ℝ) :
    -1 < Real.sin z0 * 6371000 / 6371015 ∧ Real.sin z0 * 6371000 / 6371015 < 1 := by
  have h1 := Real.neg_one_le_sin z0
  have h2 := Real.sin_le_one z0
  constructor
  · rw [lt_div_iff₀ (by norm_num)]; linarith
  · rw [div_lt_iff₀ (by norm_num)]; linarith

/-- The function `deltaAngle` in terms of its local `z_0` and its `asin` argument. -/
theorem deltaAngle_eq (x y z a b c : Dbl) :
    deltaAngle x y z a b c
      = closureAngle x y z a b c - Dbl.asin (asinArg (closureAngle x y z a b c)) := rfl

/-- Values of `closureAngle` and `deltaAngle` once `zenithAngle` returns finite
values `(θ, d)`. -/
theorem closure_delta_of_zenith {x y z a b c : Dbl} {θ d : ℝ}
    (hz : zenithAngle x y z a b c = (Dbl.fin θ, Dbl.fin d)) :
    closureAngle x y z a b c = Dbl.fin (θ + d / 6371000) ∧
      deltaAngle x y z a b c = Dbl.fin (shellDisp (θ + d / 6371000)) := by
  have hc : closureAngle x y z a b c = Dbl.fin (θ + d / 6371000) := by
    unfold closureAngle
    rw [hz]
    simp only [pi_sub_pi_sub, Dbl.ofInt_eq, EARTHRAD]
    norm_num [Dbl.fin_div_fin]
  refine ⟨hc, ?_⟩
  rw [deltaAngle_eq, hc, asinArg_fin,
    Dbl.asin_fin (asinArg_bounds _).1.le (asinArg_bounds _).2.le]
  rfl


/-! ## The displacement as a function of the closure angle -/

theorem shellDisp_zero : shellDisp 0 = 0 := by
  unfold shellDisp
  simp

theorem shellDisp_pos {z0 : ℝ} (h : 0 < z0) : 0 < shellDisp z0 := by
  unfold shellDisp
  rcases le_or_lt z0 (Real.pi / 2) with hle | hgt
  · have hpi : z0 < Real.pi := by linarith [Real.pi_pos]
    have hs : 0 < Real.sin z0 := Real.sin_pos_of_pos_of_lt_pi h hpi
    have hlt : Real.sin z0 * 6371000 / 6371015 < Real.sin z0 := by
      rw [div_lt_iff₀ (by norm_num)]; linarith
    have h1 := Real.strictMonoOn_arcsin ⟨(asinArg_bounds z0).1.le, (asinArg_bounds z0).2.le⟩
      ⟨Real.neg_one_le_sin z0, Real.sin_le_one z0⟩ hlt
    rw [Real.arcsin_sin (by linarith) hle] at h1
    linarith
  · have := Real.arcsin_le_pi_div_two (Real.sin z0 * 6371000 / 6371015)
    linarith

theorem shellDisp_hasDerivAt (w : ℝ) :
    HasDerivAt shellDisp
      (1 - 1 / Real.sqrt (1 - (Real.sin w * 6371000 / 6371015) ^ 2)
        * (Real.cos w * 6371000 / 6371015)) w := by
  have hb := asinArg_bounds w
  have hin : HasDerivAt (fun v : ℝ => Real.sin v * 6371000 / 6371015)
      (Real.cos w * 6371000 / 6371015) w :=
    ((Real.hasDerivAt_sin w).mul_const 6371000).div_const 6371015
  have ha := (Real.hasDerivAt_arcsin hb.1.ne' hb.2.ne).comp w hin
  exact (hasDerivAt_id w).sub ha

theorem shellDisp_monotone : Monotone shellDisp := by
  apply monotone_of_deriv_nonneg
  · exact fun w => (shellDisp_hasDerivAt w).differentiableAt
  · intro w
    rw [(shellDisp_hasDerivAt w).deriv]
    have hb := asinArg_bounds w
    set u := Real.sin w * 6371000 / 6371015 with hu
    have hu2 : u ^ 2 < 1 := by
      have : |u| < 1 := abs_lt.mpr ⟨hb.1, hb.2⟩
      calc u ^ 2 = |u| ^ 2 := (sq_abs u).symm
        _ < 1 ^ 2 := by gcongr
        _ = 1 := by norm_num
    have hpos : 0 < Real.sqrt (1 - u ^ 2) := Real.sqrt_pos.mpr (by linarith)
    have hle : Real.cos w * 6371000 / 6371015 ≤ Real.sqrt (1 - u ^ 2) := by
      apply le_trans (le_abs_self _)
      apply Real.abs_le_sqrt
      have hsc := Real.sin_sq_add_cos_sq w
      have hc := sq_nonneg (Real.cos w)
      have hs := sq_nonneg (Real.sin w)
      rw [hu]
      have e : (Real.cos w * 6371000 / 6371015) ^ 2 + (Real.sin w * 6371000 / 6371015) ^ 2
          = (6371000 / 6371015) ^ 2 * (Real.sin w ^ 2 + Real.cos w ^ 2) := by ring
      have : (Real.cos w * 6371000 / 6371015) ^ 2 + (Real.sin w * 6371000 / 6371015) ^ 2 ≤ 1 := by
        rw [e, hsc]; norm_num
      linarith
    rw [sub_nonneg, one_div, inv_mul_le_iff₀ hpos]
    linarith

theorem shellDisp_nonneg {z0 : ℝ} (h : 0 ≤ z0) : 0 ≤ shellDisp z0 := by
  rw [← shellDisp_zero]
  exact shellDisp_monotone h


/-! ## The overhead case -/

theorem abs_fin_zero : abs (Dbl.fin 0) = some (Dbl.fin 0) := by
  simp [abs, Dbl.toInt, intAbs, Dbl.ofInt]

/-- The projection of a satellite directly above a point `g` of the reference
sphere is `g`, and its chord to `g` is zero. -/
theorem overhead_proj {a b c k : ℝ} (hg : norm3 a b c = 6371000) (hk : 1 < k) :
    norm3 (k * a) (k * b) (k * c) = k * 6371000 ∧
    6371000 / norm3 (k * a) (k * b) (k * c) * (k * a) = a ∧
    6371000 / norm3 (k * a) (k * b) (k * c) * (k * b) = b ∧
    6371000 / norm3 (k * a) (k * b) (k * c) * (k * c) = c ∧
    chord (k * a) (k * b) (k * c) a b c = 0 := by
  have hk0 : 0 < k := by linarith
  have hn : norm3 (k * a) (k * b) (k * c) = k * 6371000 := by
    rw [norm3_smul hk0.le, hg]
  have e : ∀ v : ℝ, 6371000 / (k * 6371000) * (k * v) = v := by
    intro v; field_simp; ring
  refine ⟨hn, by rw [hn]; exact e a, by rw [hn]; exact e b, by rw [hn]; exact e c, ?_⟩
  unfold chord
  rw [hn, e a, e b, e c]
  simp [norm3]


/-! ## The loop body of `main` on finite points -/

/-- The call `abs(v)` on a finite `double` within the `int` range yields the
integer part of `|v|`. -/
theorem abs_fin {v : ℝ} (hv : |v| < 2147483648) :
    abs (Dbl.fin v) = some (Dbl.fin ((⌊|v|⌋ : ℤ) : ℝ)) := by
  obtain ⟨hlo, hhi⟩ := abs_lt.mp hv
  by_cases h : 0 ≤ v
  · have hn0 : (0 : ℤ) ≤ ⌊v⌋ := Int.floor_nonneg.mpr h
    have hn1 : ⌊v⌋ < (2147483648 : ℤ) := Int.floor_lt.mpr (by exact_mod_cast hhi)
    have hne : ⌊v⌋ ≠ -2147483648 := by omega
    have hr : (-2147483648 : ℤ) ≤ ⌊v⌋ ∧ ⌊v⌋ ≤ 2147483647 := ⟨by omega, by omega⟩
    simp only [abs, Dbl.toInt, if_pos h, if_pos hr, Option.some_bind, intAbs, if_neg hne,
      Option.map_some', Dbl.ofInt, abs_of_nonneg h, abs_of_nonneg hn0]
  · have hv0 : v < 0 := not_le.mp h
    have hn0 : ⌈v⌉ ≤ (0 : ℤ) := Int.ceil_le.mpr (by exact_mod_cast hv0.le)
    have hn1 : (-2147483648 : ℤ) < ⌈v⌉ := Int.lt_ceil.mpr (by exact_mod_cast hlo)
    have hne : ⌈v⌉ ≠ -2147483648 := by omega
    have hr : (-2147483648 : ℤ) ≤ ⌈v⌉ ∧ ⌈v⌉ ≤ 2147483647 := ⟨by omega, by omega⟩
    have hfl : ⌊|v|⌋ = |⌈v⌉| := by
      rw [abs_of_neg hv0, Int.floor_neg, abs_of_nonpos hn0]
    simp only [abs, Dbl.toInt, if_neg h, if_pos hr, Option.some_bind, intAbs, if_neg hne,
      Option.map_some', Dbl.ofInt, hfl]

theorem linDisp_eq {x y z a b c : Dbl} {θ d : ℝ}
    (hz : zenithAngle x y z a b c = (Dbl.fin θ, Dbl.fin d)) :
    Dbl.ofInt 6371000 * deltaAngle x y z a b c
      = Dbl.fin (6371000 * shellDisp (θ + d / 6371000)) := by
  rw [(closure_delta_of_zenith hz).2]
  simp

/-- Value of the loop body of `main` when `zenithAngle` returns finite values,
the displacement and the chord are nonzero and the three coordinate differences
are within the `int` range: on each axis the ground-station coordinate is moved
by `linearDisplacement / distProjSat2GS` times the integer part of the absolute
coordinate difference. -/
theorem mainBody_fin {x y z a b c θ : ℝ} (h0 : ¬ (x = 0 ∧ y = 0 ∧ z = 0))
    (hz : zenithAngle (Dbl.fin x) (Dbl.fin y) (Dbl.fin z) (Dbl.fin a) (Dbl.fin b) (Dbl.fin c)
      = (Dbl.fin θ, Dbl.fin (chord x y z a b c)))
    (hL : 6371000 * shellDisp (θ + chord x y z a b c / 6371000) ≠ 0)
    (hch : chord x y z a b c ≠ 0)
    (ha : |a - 6371000 / norm3 x y z * x| < 2147483648)
    (hb : |b - 6371000 / norm3 x y z * y| < 2147483648)
    (hc : |c - 6371000 / norm3 x y z * z| < 2147483648) :
    mainBody (Dbl.fin x) (Dbl.fin y) (Dbl.fin z) (Dbl.fin a) (Dbl.fin b) (Dbl.fin c)
      = some
        (Dbl.fin (if a < 6371000 / norm3 x y z * x
            then a + 6371000 * shellDisp (θ + chord x y z a b c / 6371000)
              / chord x y z a b c * (⌊|a - 6371000 / norm3 x y z * x|⌋ : ℤ)
            else a - 6371000 * shellDisp (θ + chord x y z a b c / 6371000)
              / chord x y z a b c * (⌊|a - 6371000 / norm3 x y z * x|⌋ : ℤ)),
         Dbl.fin (if b < 6371000 / norm3 x y z * y
            then b + 6371000 * shellDisp (θ + chord x y z a b c / 6371000)
              / chord x y z a b c * (⌊|b - 6371000 / norm3 x y z * y|⌋ : ℤ)
            else b - 6371000 * shellDisp (θ + chord x y z a b c / 6371000)
              / chord x y z a b c * (⌊|b - 6371000 / norm3 x y z * y|⌋ : ℤ)),
         Dbl.fin (if c < 6371000 / norm3 x y z * z
            then c + 6371000 * shellDisp (θ + chord x y z a b c / 6371000)
              / chord x y z a b c * (⌊|c - 6371000 / norm3 x y z * z|⌋ : ℤ)
            else c - 6371000 * shellDisp (θ + chord x y z a b c / 6371000)
              / chord x y z a b c * (⌊|c - 6371000 / norm3 x y z * z|⌋ : ℤ))) := by
  have hb0 : Dbl.beq (Dbl.fin (6371000 * shellDisp (θ + chord x y z a b c / 6371000)))
      (Dbl.fin 0.0) = false := by
    show decide (6371000 * shellDisp (θ + chord x y z a b c / 6371000) = (0.0 : ℝ)) = false
    rw [decide_eq_false_iff_not]
    intro h; apply hL; rw [h]; norm_num
  have hgt : ∀ p q : ℝ, Dbl.gt (Dbl.fin p) (Dbl.fin q) = decide (q < p) := fun _ _ => rfl
  unfold mainBody
  rw [satProjection_fin h0]
  dsimp only
  rw [linDisp_eq hz, chord_fin, Dbl.fin_sub_fin, Dbl.fin_sub_fin, Dbl.fin_sub_fin,
    abs_fin ha, abs_fin hb, abs_fin hc, hb0]
  simp only [Option.some_bind, Bool.false_eq_true, if_false, hgt, Dbl.fin_div_fin _ hch,
    Dbl.fin_mul_fin, Dbl.fin_add_fin, Dbl.fin_sub_fin, decide_eq_true_eq]
  split_ifs <;> rfl


/-- For a satellite above the reference sphere whose projection is not the
ground station, the closure angle and the linear displacement are positive. -/
theorem linDisp_pos {n ch : ℝ} (hn : 6371000 < n) (hch : 0 < ch) :
    0 < 6371000 * shellDisp (Real.arctan (ch / (n - 6371000)) + ch / 6371000) := by
  have hq : 0 ≤ ch / (n - 6371000) := div_nonneg hch.le (by linarith)
  have ha : 0 ≤ Real.arctan (ch / (n - 6371000)) := by
    rw [← Real.arctan_zero]
    exact Real.arctan_strictMono.monotone hq
  have hz : 0 < Real.arctan (ch / (n - 6371000)) + ch / 6371000 := by positivity
  have := shellDisp_pos hz
  positivity


/-! ### Fixtures with the ground station on the x axis and the satellite in the xy plane -/

/-- Value of the loop body of `main` for the ground station `(6371000, 0, 0)` and
a satellite `(x, y, 0)` above the sphere whose projection `(p, q, 0)` has
`p < 6371000` and `q > 0`; `m1` and `m2` are the integer parts of `6371000 - p`
and of `q`. -/
theorem mainBody_planar {x y : ℝ} (m1 m2 : ℤ) (hn : 6371000 < norm3 x y 0)
    (hp1 : (m1 : ℝ) ≤ 6371000 - 6371000 / norm3 x y 0 * x)
    (hp2 : 6371000 - 6371000 / norm3 x y 0 * x < m1 + 1)
    (hq1 : (m2 : ℝ) ≤ 6371000 / norm3 x y 0 * y)
    (hq2 : 6371000 / norm3 x y 0 * y < m2 + 1)
    (hm1 : 0 < m1) (hm2 : 0 < m2) (hM1 : m1 < 2147483647) (hM2 : m2 < 2147483647) :
    ∃ L : ℝ, 0 < L ∧ 0 < chord x y 0 6371000 0 0 ∧
      chord x y 0 6371000 0 0 ^ 2
        = (6371000 - 6371000 / norm3 x y 0 * x) ^ 2 + (6371000 / norm3 x y 0 * y) ^ 2 ∧
      Dbl.ofInt 6371000 * deltaAngle (Dbl.fin x) (Dbl.fin y) (Dbl.fin 0)
          (Dbl.fin 6371000) (Dbl.fin 0) (Dbl.fin 0) = Dbl.fin L ∧
      mainBody (Dbl.fin x) (Dbl.fin y) (Dbl.fin 0) (Dbl.fin 6371000) (Dbl.fin 0) (Dbl.fin 0)
        = some (Dbl.fin (6371000 - L / chord x y 0 6371000 0 0 * m1),
                Dbl.fin (0 + L / chord x y 0 6371000 0 0 * m2),
                Dbl.fin (0 - L / chord x y 0 6371000 0 0 * 0)) := by
  have hm1r : (0 : ℝ) < m1 := by exact_mod_cast hm1
  have hm2r : (0 : ℝ) < m2 := by exact_mod_cast hm2
  have hM1r : (m1 : ℝ) + 1 ≤ 2147483648 := by
    have : m1 + 1 ≤ 2147483648 := by omega
    exact_mod_cast this
  have hM2r : (m2 : ℝ) + 1 ≤ 2147483648 := by
    have : m2 + 1 ≤ 2147483648 := by omega
    exact_mod_cast this
  have h0 : ¬ (x = 0 ∧ y = 0 ∧ (0 : ℝ) = 0) := by
    intro h
    rw [(norm3_eq_zero_iff x y 0).mpr h] at hn
    norm_num at hn
  obtain ⟨p, hp⟩ : ∃ p : ℝ, p = 6371000 / norm3 x y 0 * x := ⟨_, rfl⟩
  obtain ⟨q, hq⟩ : ∃ q : ℝ, q = 6371000 / norm3 x y 0 * y := ⟨_, rfl⟩
  rw [← hp] at hp1 hp2
  rw [← hq] at hq1 hq2
  have hppos : 0 < 6371000 - p := lt_of_lt_of_le hm1r hp1
  have hqpos : 0 < q := lt_of_lt_of_le hm2r hq1
  have hz := zenithAngle_fin h0 hn.ne' 6371000 0 0
  have hchsq : chord x y 0 6371000 0 0 ^ 2 = (6371000 - p) ^ 2 + q ^ 2 := by
    unfold chord
    rw [norm3_sq, ← hp, ← hq]
    ring
  have hchpos : 0 < chord x y 0 6371000 0 0 := by
    rcases (chord_nonneg x y 0 6371000 0 0).lt_or_eq with h | h
    · exact h
    · rw [← h] at hchsq
      nlinarith
  have hLpos := linDisp_pos hn hchpos
  have hfa : ⌊|6371000 - p|⌋ = m1 := by
    rw [abs_of_pos hppos, Int.floor_eq_iff]
    exact ⟨hp1, hp2⟩
  have hfb : ⌊|0 - q|⌋ = m2 := by
    rw [zero_sub, abs_neg, abs_of_pos hqpos, Int.floor_eq_iff]
    exact ⟨hq1, hq2⟩
  have hfc : ⌊|(0 : ℝ) - 6371000 / norm3 x y 0 * 0|⌋ = 0 := by simp
  have hmb := mainBody_fin h0 hz hLpos.ne' hchpos.ne'
    (by rw [← hp, abs_of_pos hppos]; linarith)
    (by rw [← hq, zero_sub, abs_neg, abs_of_pos hqpos]; linarith)
    (by simp)
  rw [← hp, ← hq, hfa, hfb, hfc, if_neg (by linarith : ¬ (6371000 : ℝ) < p), if_pos hqpos,
    if_neg (by simp : ¬ (0 : ℝ) < 6371000 / norm3 x y 0 * 0)] at hmb
  refine ⟨_, hLpos, hchpos, by rw [← hp, ← hq]; exact hchsq, linDisp_eq hz, ?_⟩
  rw [hmb]
  simp

/-- Bounds on the projection coordinates from bounds on the norm. -/
theorem proj_coord_bounds {n v lo hi : ℝ} (hlo : 0 < lo) (h1 : lo < n) (h2 : n < hi)
    (hv : 0 < v) :
    6371000 * v / hi < 6371000 / n * v ∧ 6371000 / n * v < 6371000 * v / lo := by
  have hn : 0 < n := hlo.trans h1
  have hhi : 0 < hi := hn.trans h2
  have e : 6371000 / n * v = 6371000 * v / n := by ring
  rw [e]
  constructor
  · exact div_lt_div_of_pos_left (by positivity) hn h2
  · exact div_lt_div_of_pos_left (by positivity) hlo h1


/-! ### The fixtures of index 1 and 2 -/

theorem fixture1 : main.x.getD 1 0 = 6870993.553012 ∧ main.y.getD 1 0 = 9412.472374 ∧
    main.z.getD 1 0 = 0 ∧ main.a.getD 1 0 = 6371000 ∧ main.b.getD 1 0 = 0 ∧
    main.c.getD 1 0 = 0 := by
  refine ⟨rfl, rfl, ?_, ?_, ?_, ?_⟩ <;> norm_num [main.z, main.a, main.b, main.c]

theorem fixture2 : main.x.getD 2 0 = 6870974.196290 ∧ main.y.getD 2 0 = 18830.668804 ∧
    main.z.getD 2 0 = 0 ∧ main.a.getD 2 0 = 6371000 ∧ main.b.getD 2 0 = 0 ∧
    main.c.getD 2 0 = 0 := by
  refine ⟨rfl, rfl, ?_, ?_, ?_, ?_⟩ <;> norm_num [main.z, main.a, main.b, main.c]

theorem fixture1_norm : 6871000 < norm3 6870993.553012 9412.472374 0 ∧
    norm3 6870993.553012 9412.472374 0 < 6871000.00002 := by
  unfold norm3
  constructor
  · rw [Real.lt_sqrt (by norm_num)]; norm_num
  · rw [Real.sqrt_lt' (by norm_num)]; norm_num

theorem fixture2_norm : 6871000 < norm3 6870974.196290 18830.668804 0 ∧
    norm3 6870974.196290 18830.668804 0 < 6871000.00002 := by
  unfold norm3
  constructor
  · rw [Real.lt_sqrt (by norm_num)]; norm_num
  · rw [Real.sqrt_lt' (by norm_num)]; norm_num


/-! ## Degenerate inputs -/

/-- Value of `satProjection` at the origin: `EARTHRAD / 0` is `+inf` and
`inf * 0` is NaN. -/
theorem satProjection_origin :
    satProjection (Dbl.fin 0) (Dbl.fin 0) (Dbl.fin 0) = (Dbl.nan, Dbl.nan, Dbl.nan) := by
  have hn : norm3 0 0 0 = 0 := (norm3_eq_zero_iff 0 0 0).mpr ⟨rfl, rfl, rfl⟩
  have hdiv : Dbl.ofInt EARTHRAD / Dbl.fin 0 = Dbl.pinf := by
    show (if (0 : ℝ) = 0 then
        (if 0 < ((EARTHRAD : ℤ) : ℝ) then Dbl.pinf
          else if ((EARTHRAD : ℤ) : ℝ) < 0 then Dbl.ninf else Dbl.nan)
        else Dbl.fin (((EARTHRAD : ℤ) : ℝ) / 0)) = Dbl.pinf
    rw [if_pos rfl, if_pos (by norm_num [EARTHRAD])]
  have hmul : Dbl.pinf * Dbl.fin 0 = Dbl.nan := by
    show (if (0 : ℝ) < 0 then Dbl.pinf else if (0 : ℝ) < 0 then Dbl.ninf else Dbl.nan)
      = Dbl.nan
    simp
  unfold satProjection
  rw [sqrt_sumsq_fin, hn]
  dsimp only
  rw [hdiv, hmul]

/-- Value of `zenithAngle` for a satellite on the reference sphere whose
projection is the ground station: the quotient is `0 / 0`, NaN. -/
theorem zenithAngle_surface_nan {x y z : ℝ} (hR : norm3 x y z = 6371000) (a b c : ℝ)
    (hd : chord x y z a b c = 0) :
    zenithAngle (Dbl.fin x) (Dbl.fin y) (Dbl.fin z) (Dbl.fin a) (Dbl.fin b) (Dbl.fin c)
      = (Dbl.nan, Dbl.fin 0) := by
  have h : ¬ (x = 0 ∧ y = 0 ∧ z = 0) := by
    intro h0
    rw [(norm3_eq_zero_iff x y z).mpr h0] at hR
    norm_num at hR
  have hdiv : Dbl.fin 0 / Dbl.fin 0 = Dbl.nan := by
    show (if (0 : ℝ) = 0 then
        (if (0 : ℝ) < 0 then Dbl.pinf else if (0 : ℝ) < 0 then Dbl.ninf else Dbl.nan)
        else Dbl.fin ((0 : ℝ) / 0)) = Dbl.nan
    simp
  have hE : ((6371000 : ℤ) : ℝ) = 6371000 := by norm_num
  unfold zenithAngle
  rw [satProjection_fin h]
  dsimp only
  rw [chord_fin, sqrt_sumsq_fin, Dbl.ofInt_eq, EARTHRAD, hE, Dbl.fin_sub_fin, hR, sub_self,
    hd, hdiv]
  rfl

theorem norm3_R00 : norm3 6371000 0 0 = 6371000 := by
  unfold norm3
  rw [show ((6371000 : ℝ) ^ 2 + 0 ^ 2 + 0 ^ 2) = 6371000 ^ 2 by norm_num]
  exact Real.sqrt_sq (by norm_num)

theorem chord_R00_self : chord 6371000 0 0 6371000 0 0 = 0 := by
  unfold chord
  rw [norm3_R00]
  norm_num [norm3]

theorem chord_R00_0R0_pos : 0 < chord 6371000 0 0 0 6371000 0 := by
  unfold chord
  rw [norm3_R00]
  apply norm3_pos
  norm_num

/-! ## Zero displacement and the bound on the angular displacement -/

/-- For a satellite above the reference sphere, the values computed by
`deltaAngle` and `main` as reals. -/
theorem above_sphere_values {x y z : ℝ} (hn : 6371000 < norm3 x y z) (a b c : ℝ) :
    closureAngle (Dbl.fin x) (Dbl.fin y) (Dbl.fin z) (Dbl.fin a) (Dbl.fin b) (Dbl.fin c)
      = Dbl.fin (Real.arctan (chord x y z a b c / (norm3 x y z - 6371000))
          + chord x y z a b c / 6371000) ∧
    deltaAngle (Dbl.fin x) (Dbl.fin y) (Dbl.fin z) (Dbl.fin a) (Dbl.fin b) (Dbl.fin c)
      = Dbl.fin (shellDisp (Real.arctan (chord x y z a b c / (norm3 x y z - 6371000))
          + chord x y z a b c / 6371000)) ∧
    0 ≤ Real.arctan (chord x y z a b c / (norm3 x y z - 6371000))
          + chord x y z a b c / 6371000 := by
  have h0 : ¬ (x = 0 ∧ y = 0 ∧ z = 0) := by
    intro h0
    rw [(norm3_eq_zero_iff _ _ _).mpr h0] at hn
    norm_num at hn
  have hz := zenithAngle_fin h0 hn.ne' a b c
  have hd := chord_nonneg x y z a b c
  have hq : 0 ≤ chord x y z a b c / (norm3 x y z - 6371000) := div_nonneg hd (by linarith)
  have ha : 0 ≤ Real.arctan (chord x y z a b c / (norm3 x y z - 6371000)) := by
    rw [← Real.arctan_zero]
    exact Real.arctan_strictMono.monotone hq
  exact ⟨(closure_delta_of_zenith hz).1, (closure_delta_of_zenith hz).2, by positivity⟩

theorem shellDisp_pi_div_two :
    shellDisp (Real.pi / 2) = Real.arccos (6371000 / 6371015) := by
  unfold shellDisp
  rw [Real.sin_pi_div_two, one_mul, Real.arccos_eq_pi_div_two_sub_arcsin]

theorem arccos_shell_lt : Real.arccos (6371000 / 6371015) < 0.0022 := by
  have hpi : (0.0022 : ℝ) ≤ Real.pi := by linarith [Real.pi_gt_three]
  have hb := Real.cos_bound (x := 0.0022) (by rw [abs_of_pos] <;> norm_num)
  rw [abs_of_pos (by norm_num : (0 : ℝ) < 0.0022)] at hb
  have hc : Real.cos 0.0022 < 6371000 / 6371015 := by
    have := (abs_le.mp hb).2
    have e : (1 : ℝ) - 0.0022 ^ 2 / 2 + 0.0022 ^ 4 * (5 / 96) < 6371000 / 6371015 := by
      norm_num
    linarith
  have hmem : Real.cos 0.0022 ∈ Set.Icc (-1 : ℝ) 1 :=
    ⟨Real.neg_one_le_cos _, Real.cos_le_one _⟩
  have hk : (6371000 / 6371015 : ℝ) ∈ Set.Icc (-1 : ℝ) 1 := by
    constructor <;> norm_num
  have := Real.strictAntiOn_arccos hmem hk hc
  rwa [Real.arccos_cos (by norm_num) hpi] at this

/-! ## The refractive index -/

theorem pow_fin_pos {b e : ℝ} (he : e ≠ 0) (hb : 0 < b) :
    Dbl.pow (Dbl.fin b) e = Dbl.fin (b ^ e) := by
  show (if e = 0 then Dbl.fin 1
    else if 0 < b then Dbl.fin (b ^ e)
    else if b = 0 then (if 0 < e then Dbl.fin 0 else Dbl.pinf)
    else if ((⌊e⌋ : ℤ) : ℝ) = e then Dbl.fin (b ^ e) else Dbl.nan) = Dbl.fin (b ^ e)
  rw [if_neg he, if_pos hb]

theorem pow_fin_zero {e : ℝ} (he : 0 < e) : Dbl.pow (Dbl.fin 0) e = Dbl.fin 0 := by
  show (if e = 0 then Dbl.fin 1
    else if (0 : ℝ) < 0 then Dbl.fin ((0 : ℝ) ^ e)
    else if (0 : ℝ) = 0 then (if 0 < e then Dbl.fin 0 else Dbl.pinf)
    else if ((⌊e⌋ : ℤ) : ℝ) = e then Dbl.fin ((0 : ℝ) ^ e) else Dbl.nan) = Dbl.fin 0
  rw [if_neg he.ne', if_neg (lt_irrefl 0), if_pos rfl, if_pos he]

theorem pow_fin_neg {b e : ℝ} (he : e ≠ 0) (hb : b < 0) (hi : ¬ (((⌊e⌋ : ℤ) : ℝ) = e)) :
    Dbl.pow (Dbl.fin b) e = Dbl.nan := by
  show (if e = 0 then Dbl.fin 1
    else if 0 < b then Dbl.fin (b ^ e)
    else if b = 0 then (if 0 < e then Dbl.fin 0 else Dbl.pinf)
    else if ((⌊e⌋ : ℤ) : ℝ) = e then Dbl.fin (b ^ e) else Dbl.nan) = Dbl.nan
  rw [if_neg he, if_neg (not_lt.mpr hb.le), if_neg hb.ne, if_neg hi]

theorem Gamma_bounds :
    (4 : ℝ) < (28.825 * 9.805) / (8314.3 * 0.0065) - 1 ∧
      (28.825 * 9.805) / (8314.3 * 0.0065) - 1 < (5 : ℝ) := by
  constructor <;> norm_num

theorem Gamma_not_int :
    ¬ (((⌊((28.825 * 9.805) / (8314.3 * 0.0065) - 1 : ℝ)⌋ : ℤ) : ℝ)
      = (28.825 * 9.805) / (8314.3 * 0.0065) - 1) := by
  obtain ⟨h4, h5⟩ := Gamma_bounds
  have hf : ⌊((28.825 * 9.805) / (8314.3 * 0.0065) - 1 : ℝ)⌋ = 4 := by
    rw [Int.floor_eq_iff]
    exact ⟨by push_cast; exact h4.le, by push_cast; linarith⟩
  rw [hf]
  push_cast
  exact h4.ne

/-- The local `tempFac` of `refractiveIndex` on a finite point. -/
theorem tempFac_fin (q r s : ℝ) :
    Dbl.fin 1.0 - Dbl.fin 0.0065
        * (Dbl.sqrt (Dbl.pow (Dbl.fin q) 2 + Dbl.pow (Dbl.fin r) 2 + Dbl.pow (Dbl.fin s) 2)
            - Dbl.ofInt EARTHRAD) / Dbl.fin 273.15
      = Dbl.fin (1 - 0.0065 * (norm3 q r s - 6371000) / 273.15) := by
  have hE : ((6371000 : ℤ) : ℝ) = 6371000 := by norm_num
  rw [sqrt_sumsq_fin, Dbl.ofInt_eq, EARTHRAD, hE, Dbl.fin_sub_fin, Dbl.fin_mul_fin,
    Dbl.fin_div_fin _ (by norm_num), Dbl.fin_sub_fin]
  norm_num

/-- Value of `refractiveIndex` on a finite point, by the sign of `tempFac`. -/
theorem refractiveIndex_fin (q r s : ℝ) :
    (0 ≤ 1 - 0.0065 * (norm3 q r s - 6371000) / 273.15 →
      refractiveIndex (Dbl.fin q) (Dbl.fin r) (Dbl.fin s)
        = Dbl.fin (1 + 0.0002905 * (1 - 0.0065 * (norm3 q r s - 6371000) / 273.15)
            ^ ((28.825 * 9.805) / (8314.3 * 0.0065) - 1 : ℝ))) ∧
    (1 - 0.0065 * (norm3 q r s - 6371000) / 273.15 < 0 →
      refractiveIndex (Dbl.fin q) (Dbl.fin r) (Dbl.fin s) = Dbl.nan) := by
  obtain ⟨h4, h5⟩ := Gamma_bounds
  have hG0 : ((28.825 * 9.805) / (8314.3 * 0.0065) - 1 : ℝ) ≠ 0 := by linarith
  have hGpos : (0 : ℝ) < (28.825 * 9.805) / (8314.3 * 0.0065) - 1 := by linarith
  have h10 : (1.0 : ℝ) = 1 := by norm_num
  constructor
  · intro ht
    unfold refractiveIndex
    dsimp only
    rw [tempFac_fin]
    rcases ht.lt_or_eq with hpos | hzero
    · have hp : Dbl.pow (Dbl.fin (1 - 0.0065 * (norm3 q r s - 6371000) / 273.15))
          ((28.825 * 9.805) / (8314.3 * 0.0065) - 1)
          = Dbl.fin ((1 - 0.0065 * (norm3 q r s - 6371000) / 273.15)
              ^ ((28.825 * 9.805) / (8314.3 * 0.0065) - 1 : ℝ)) := pow_fin_pos hG0 hpos
      rw [hp, Dbl.fin_mul_fin, Dbl.fin_add_fin, h10]
    · have hp : Dbl.pow (Dbl.fin (1 - 0.0065 * (norm3 q r s - 6371000) / 273.15))
          ((28.825 * 9.805) / (8314.3 * 0.0065) - 1)
          = Dbl.fin 0 := by
        rw [← hzero]
        exact pow_fin_zero hGpos
      rw [hp, Dbl.fin_mul_fin, Dbl.fin_add_fin, h10, ← hzero, Real.zero_rpow hG0]
  · intro ht
    unfold refractiveIndex
    dsimp only
    rw [tempFac_fin]
    have hp : Dbl.pow (Dbl.fin (1 - 0.0065 * (norm3 q r s - 6371000) / 273.15))
        ((28.825 * 9.805) / (8314.3 * 0.0065) - 1) = Dbl.nan :=
      pow_fin_neg hG0 ht Gamma_not_int
    rw [hp]
    rfl

/-! ## The fixture generator -/

set_option maxRecDepth 100000 in
theorem zenAngDeg_getD : ∀ j < 91, generate.zenAngDeg.getD j 0 = (j : ℤ) := by
  decide

set_option maxRecDepth 100000 in
/-- Every ground station of the generator has two zero coordinates, so one of
the three branches of the loop body is taken. -/
theorem generate_branch : ∀ j < 91,
    (generate.b.getD j 0 = 0 ∧ generate.c.getD j 0 = 0) ∨
    (generate.a.getD j 0 = 0 ∧ generate.c.getD j 0 = 0) ∨
    (generate.a.getD j 0 = 0 ∧ generate.b.getD j 0 = 0) := by
  decide

theorem zenAng_fin {j : ℕ} (hj : j < 91) :
    generate.zenAng j = Dbl.fin (j * (3.14159265359 / 180)) := by
  unfold generate.zenAng generate.PI
  rw [zenAngDeg_getD j hj, Dbl.ofInt_eq, Dbl.ofInt_eq, Dbl.fin_div_fin _ (by norm_num),
    Dbl.fin_mul_fin]
  norm_num

theorem beq_ofInt_zero (n : ℤ) : Dbl.beq (Dbl.ofInt n) (Dbl.ofInt 0) = decide (n = 0) := by
  show decide (((n : ℤ) : ℝ) = ((0 : ℤ) : ℝ)) = decide (n = 0)
  simp

theorem lt_ofInt_zero (n : ℤ) : Dbl.lt (Dbl.ofInt n) (Dbl.ofInt 0) = decide (n < 0) := by
  show decide (((n : ℤ) : ℝ) < ((0 : ℤ) : ℝ)) = decide (n < 0)
  simp

theorem genAxial_sq_le {d : ℝ} (hd : d ^ 2 ≤ 4 * 6371000 ^ 2) :
    genAxial d ^ 2 ≤ 6371000 ^ 2 := by
  have h0 := sq_nonneg d
  have e : genAxial d = 6371000 - d ^ 2 / (2 * 6371000) := by
    unfold genAxial; field_simp; ring
  have h1 : -6371000 ≤ genAxial d := by
    rw [e]
    have : d ^ 2 / (2 * 6371000) ≤ 2 * 6371000 := by
      rw [div_le_iff₀ (by norm_num)]; nlinarith
    linarith
  have h2 : genAxial d ≤ 6371000 := by
    rw [e]
    have : 0 ≤ d ^ 2 / (2 * 6371000) := by positivity
    linarith
  nlinarith

theorem genAxial_sq_add_genLateral_sq {d : ℝ} (hd : d ^ 2 ≤ 4 * 6371000 ^ 2) :
    genAxial d ^ 2 + genLateral d ^ 2 = 6371000 ^ 2 := by
  unfold genLateral
  rw [Real.sq_sqrt (by linarith [genAxial_sq_le hd])]
  ring

/-- Value of the loop body of the generator for a finite zenith angle `θ` with
a tangent, when the chord `d = tan θ * 500000` does not exceed the diameter of
the sphere. -/
theorem generate_body_eval {θ d : ℝ} (ia ib ic : ℤ) (hcos : Real.cos θ ≠ 0)
    (hd : d = Real.tan θ * 500000) (hle : d ^ 2 ≤ 4 * 6371000 ^ 2) :
    generate.body (Dbl.fin θ) (Dbl.ofInt ia) (Dbl.ofInt ib) (Dbl.ofInt ic)
      = if ib = 0 ∧ ic = 0 then
          some (Dbl.fin ((if ia < 0 then -1.07848061529 else 1.07848061529) * genAxial d),
            Dbl.fin (1.07848061529 * genLateral d), Dbl.fin (1.07848061529 * 0))
        else if ia = 0 ∧ ic = 0 then
          some (Dbl.fin (1.07848061529 * genLateral d),
            Dbl.fin (-1.07848061529 * genAxial d), Dbl.fin (1.07848061529 * 0))
        else if ia = 0 ∧ ib = 0 then
          some (Dbl.fin (1.07848061529 * genLateral d), Dbl.fin (1.07848061529 * 0),
            Dbl.fin ((if ic < 0 then -1.07848061529 else 1.07848061529) * genAxial d))
        else none := by
  have htan : Dbl.tan (Dbl.fin θ) * Dbl.ofInt 500000 = Dbl.fin d := by
    show (if Real.cos θ = 0 then Dbl.nan else Dbl.fin (Real.tan θ)) * Dbl.ofInt 500000
      = Dbl.fin d
    rw [if_neg hcos, Dbl.ofInt_eq, Dbl.fin_mul_fin, hd]
    norm_num
  have hax : ((Dbl.ofInt 2 * Dbl.pow (Dbl.ofInt 6371000) 2) - Dbl.pow (Dbl.fin d) 2)
      / Dbl.ofInt (2 * 6371000) = Dbl.fin (genAxial d) := by
    rw [Dbl.ofInt_eq, Dbl.ofInt_eq, Dbl.ofInt_eq, Dbl.pow_fin_two, Dbl.pow_fin_two,
      Dbl.fin_mul_fin, Dbl.fin_sub_fin, Dbl.fin_div_fin _ (by norm_num)]
    unfold genAxial
    norm_num
  have hlat : Dbl.sqrt (Dbl.pow (Dbl.ofInt 6371000) 2 - Dbl.pow (Dbl.fin (genAxial d)) 2)
      = Dbl.fin (genLateral d) := by
    rw [Dbl.ofInt_eq, Dbl.pow_fin_two, Dbl.pow_fin_two, Dbl.fin_sub_fin]
    have e : (((6371000 : ℤ) : ℝ)) ^ 2 - genAxial d ^ 2 = 6371000 ^ 2 - genAxial d ^ 2 := by
      norm_num
    rw [e, Dbl.sqrt_fin (by linarith [genAxial_sq_le hle])]
    rfl
  have hz0 : Dbl.ofInt 0 = Dbl.fin 0 := by rw [Dbl.ofInt_eq]; norm_num
  unfold generate.body
  dsimp only
  rw [htan, hax, hlat]
  simp only [beq_ofInt_zero, lt_ofInt_zero, Bool.and_eq_true, decide_eq_true_eq]
  simp only [hz0, Dbl.fin_mul_fin]
  split_ifs <;> rfl

/-- For the fixture indices `0..87` the zenith angle `j * (PI / 180)` is in
`[0, π/2)`, its tangent is in `[0, 19.2]` and the chord does not exceed the
diameter of the sphere. -/
theorem gen_angle_bounds {j : ℕ} (hj : j ≤ 87) :
    0 ≤ (j : ℝ) * (3.14159265359 / 180) ∧ (j : ℝ) * (3.14159265359 / 180) < Real.pi / 2 ∧
    Real.cos ((j : ℝ) * (3.14159265359 / 180)) ≠ 0 ∧
    0 ≤ genChord j ∧ genChord j ≤ 9600000 ∧ genChord j ^ 2 ≤ 4 * 6371000 ^ 2 := by
  have hpi := Real.pi_gt_d6
  have hj' : (j : ℝ) ≤ 87 := by exact_mod_cast hj
  have hj0 : (0 : ℝ) ≤ j := Nat.cast_nonneg j
  obtain ⟨θ, hθ⟩ : ∃ θ : ℝ, θ = (j : ℝ) * (3.14159265359 / 180) := ⟨_, rfl⟩
  obtain ⟨w, hw⟩ : ∃ w : ℝ, w = (87 : ℝ) * (3.14159265359 / 180) := ⟨_, rfl⟩
  have hθ0 : 0 ≤ θ := by rw [hθ]; positivity
  have hθw : θ ≤ w := by rw [hθ, hw]; nlinarith
  have hw1 : w < 1.5184365 := by rw [hw]; norm_num
  have hw0 : 0 < w := by rw [hw]; norm_num
  have hwpi : w < Real.pi / 2 := by linarith
  have hθpi : θ < Real.pi / 2 := by linarith
  have hcos : 0 < Real.cos θ := Real.cos_pos_of_mem_Ioo ⟨by linarith, hθpi⟩
  have htan0 : 0 ≤ Real.tan θ := Real.tan_nonneg_of_nonneg_of_le_pi_div_two hθ0 hθpi.le
  have hmono : Real.tan θ ≤ Real.tan w :=
    Real.strictMonoOn_tan.monotoneOn ⟨by linarith, hθpi⟩ ⟨by linarith, hwpi⟩ hθw
  have hy : Real.pi / 2 - w < Real.tan (Real.pi / 2 - w) :=
    Real.lt_tan (by linarith) (by linarith)
  rw [Real.tan_pi_div_two_sub] at hy
  have hinv : 0.0522 < (Real.tan w)⁻¹ := by linarith
  have htw : 0 < Real.tan w := inv_pos.mp (by linarith)
  have htw2 : Real.tan w < 19.2 := by
    have h1 : Real.tan w * (Real.tan w)⁻¹ = 1 := mul_inv_cancel₀ htw.ne'
    nlinarith
  have hc0 : 0 ≤ genChord j := by
    unfold genChord; rw [← hθ]; positivity
  have hc1 : genChord j ≤ 9600000 := by
    unfold genChord; rw [← hθ]; nlinarith
  rw [← hθ]
  refine ⟨hθ0, hθpi, hcos.ne', hc0, hc1, ?_⟩
  nlinarith

/-- Norm of the three shapes of point that the generator produces. -/
theorem gen_point_norm {d : ℝ} (hd : d ^ 2 ≤ 4 * 6371000 ^ 2) (k : ℝ)
    (hk : k = 1.07848061529 ∨ k = -1.07848061529) :
    norm3 (k * genAxial d) (1.07848061529 * genLateral d) (1.07848061529 * 0)
        = 1.07848061529 * 6371000 ∧
    norm3 (1.07848061529 * genLateral d) (k * genAxial d) (1.07848061529 * 0)
        = 1.07848061529 * 6371000 ∧
    norm3 (1.07848061529 * genLateral d) (1.07848061529 * 0) (k * genAxial d)
        = 1.07848061529 * 6371000 := by
  have h := genAxial_sq_add_genLateral_sq hd
  have hk2 : k ^ 2 = 1.07848061529 ^ 2 := by
    rcases hk with rfl | rfl <;> norm_num
  have key : ∀ s : ℝ, s = (1.07848061529 * 6371000) ^ 2 →
      Real.sqrt s = 1.07848061529 * 6371000 := by
    intro s hs
    rw [hs]
    exact Real.sqrt_sq (by norm_num)
  unfold norm3
  have e1 : (k * genAxial d) ^ 2 = 1.07848061529 ^ 2 * genAxial d ^ 2 := by
    rw [mul_pow, hk2]
  refine ⟨key _ ?_, key _ ?_, key _ ?_⟩
  · rw [e1, mul_pow _ (6371000 : ℝ), ← h]; ring
  · rw [e1, mul_pow _ (6371000 : ℝ), ← h]; ring
  · rw [e1, mul_pow _ (6371000 : ℝ), ← h]; ring

/-- The projection of a finite point other than the origin is a finite point
of norm `EARTHRAD`. -/
theorem satProjection_norm {x y z : ℝ} (h : ¬ (x = 0 ∧ y = 0 ∧ z = 0)) :
    ∃ u v w : ℝ,
      satProjection (Dbl.fin x) (Dbl.fin y) (Dbl.fin z) = (Dbl.fin u, Dbl.fin v, Dbl.fin w) ∧
      norm3 u v w = 6371000 := by
  have hp : 0 < norm3 x y z := norm3_pos h
  refine ⟨_, _, _, satProjection_fin h, ?_⟩
  rw [norm3_smul (by positivity), div_mul_cancel₀ _ hp.ne']

theorem genChord_eq (j : ℕ) :
    genChord j = Real.tan ((j : ℝ) * (3.14159265359 / 180)) * 500000 := rfl

/-- Value of iteration `j` of the generator for `j ≤ 87`, by the branch taken. -/
theorem generate_iter_eval {j : ℕ} (hj : j ≤ 87) :
    generate.iter j
      = if generate.b.getD j 0 = 0 ∧ generate.c.getD j 0 = 0 then
          some (Dbl.fin ((if generate.a.getD j 0 < 0 then -1.07848061529 else 1.07848061529)
              * genAxial (genChord j)),
            Dbl.fin (1.07848061529 * genLateral (genChord j)), Dbl.fin (1.07848061529 * 0))
        else if generate.a.getD j 0 = 0 ∧ generate.c.getD j 0 = 0 then
          some (Dbl.fin (1.07848061529 * genLateral (genChord j)),
            Dbl.fin (-1.07848061529 * genAxial (genChord j)), Dbl.fin (1.07848061529 * 0))
        else if generate.a.getD j 0 = 0 ∧ generate.b.getD j 0 = 0 then
          some (Dbl.fin (1.07848061529 * genLateral (genChord j)), Dbl.fin (1.07848061529 * 0),
            Dbl.fin ((if generate.c.getD j 0 < 0 then -1.07848061529 else 1.07848061529)
              * genAxial (genChord j)))
        else none := by
  obtain ⟨-, -, hcos, -, -, hle⟩ := gen_angle_bounds hj
  unfold generate.iter
  rw [zenAng_fin (by omega)]
  exact generate_body_eval _ _ _ hcos (genChord_eq j) hle

/-! ### The zenith angle recomputed from a generated position -/

theorem arctan_sub_le {u v : ℝ} (h : u ≤ v) : Real.arctan v - Real.arctan u ≤ v - u := by
  have hd : ∀ t : ℝ, HasDerivAt (fun t : ℝ => t - Real.arctan t) (1 - 1 / (1 + t ^ 2)) t :=
    fun t => (hasDerivAt_id' t).sub (Real.hasDerivAt_arctan t)
  have hm : Monotone fun t : ℝ => t - Real.arctan t := by
    apply monotone_of_deriv_nonneg
    · exact fun t => (hd t).differentiableAt
    · intro t
      rw [(hd t).deriv, sub_nonneg]
      have : (1 : ℝ) ≤ 1 + t ^ 2 := by nlinarith [sq_nonneg t]
      rw [div_le_one (by positivity)]
      exact this
  have := hm h
  simp only at this
  linarith

theorem genAxial_eq (d : ℝ) : genAxial d = 6371000 - d ^ 2 / (2 * 6371000) := by
  unfold genAxial; field_simp; ring

/-- The chords from the projection of a generated position to the ground
station on the axis it was generated for (`d`, for a chord `d ≥ 0`), and to the
ground station `(0, 6371000, 0)` when the position has the coordinate
`-1.07848061529 * genAxial d` on the y axis. -/
theorem gen_chords {d : ℝ} (hd0 : 0 ≤ d) (hd : d ^ 2 ≤ 4 * 6371000 ^ 2) :
    chord (1.07848061529 * genAxial d) (1.07848061529 * genLateral d) (1.07848061529 * 0)
        6371000 0 0 = d ∧
    chord (1.07848061529 * genLateral d) (1.07848061529 * 0) (1.07848061529 * genAxial d)
        0 0 6371000 = d ∧
    chord (1.07848061529 * genLateral d) (-1.07848061529 * genAxial d) (1.07848061529 * 0)
        0 6371000 0 ^ 2 = 2 * 6371000 ^ 2 + 2 * 6371000 * genAxial d := by
  have h := genAxial_sq_add_genLateral_sq hd
  have hA := genAxial_eq d
  obtain ⟨n1, n2, n3⟩ := gen_point_norm hd 1.07848061529 (Or.inl rfl)
  obtain ⟨-, m2, -⟩ := gen_point_norm hd (-1.07848061529) (Or.inr rfl)
  have e : ∀ v : ℝ, (6371000 : ℝ) / (1.07848061529 * 6371000) * (1.07848061529 * v) = v := by
    intro v; field_simp; ring
  have e' : ∀ v : ℝ, (6371000 : ℝ) / (1.07848061529 * 6371000) * (-1.07848061529 * v) = -v := by
    intro v; field_simp; ring
  have key : ∀ s : ℝ, s = d ^ 2 → Real.sqrt s = d := by
    intro s hs
    rw [hs]
    exact Real.sqrt_sq hd0
  refine ⟨?_, ?_, ?_⟩
  · unfold chord
    rw [n1, e, e, e]
    unfold norm3
    apply key
    have : d ^ 2 = 2 * 6371000 * (6371000 - genAxial d) := by rw [hA]; field_simp
    nlinarith
  · unfold chord
    rw [n3, e, e, e]
    unfold norm3
    apply key
    have : d ^ 2 = 2 * 6371000 * (6371000 - genAxial d) := by rw [hA]; field_simp
    nlinarith
  · unfold chord
    rw [m2, e, e', e, norm3_sq]
    nlinarith

theorem gen_height : (500000 : ℝ) < 1.07848061529 * 6371000 - 6371000 ∧
    (1.07848061529 * 6371000 - 6371000 : ℝ) < 500000.0001 := by
  constructor <;> norm_num

set_option maxRecDepth 100000 in
/-- The fixture indices of the three positive axis placements of the ground
station. -/
theorem generate_stations : ∀ j < 91,
    (generate.a.getD j 0 = 6371000 ∧ generate.b.getD j 0 = 0 ∧ generate.c.getD j 0 = 0
      → j ≤ 14) ∧
    (generate.a.getD j 0 = 0 ∧ generate.b.getD j 0 = 6371000 ∧ generate.c.getD j 0 = 0
      → 30 ≤ j ∧ j ≤ 44) ∧
    (generate.a.getD j 0 = 0 ∧ generate.b.getD j 0 = 0 ∧ generate.c.getD j 0 = 6371000
      → 60 ≤ j ∧ j ≤ 74) := by
  decide

/-- The zenith angle recomputed from a chord `d = tan θ * 500000` at the height
`1.07848061529 * 6371000 - 6371000` is within `1e-6` of `θ`. -/
theorem recomputed_angle_close {θ d : ℝ} (h0 : 0 ≤ θ) (h1 : θ < Real.pi / 2)
    (hd : d = Real.tan θ * 500000) (hd0 : 0 ≤ d) (hd1 : d ≤ 9600000) :
    |Real.arctan (d / (1.07848061529 * 6371000 - 6371000)) - θ| ≤ 0.000001 := by
  obtain ⟨hh0, hh1⟩ := gen_height
  have ht : Real.arctan (d / 500000) = θ := by
    rw [hd, mul_div_assoc, div_self (by norm_num), mul_one]
    exact Real.arctan_tan (by linarith [Real.pi_pos]) h1
  have hle : d / (1.07848061529 * 6371000 - 6371000) ≤ d / 500000 :=
    div_le_div_of_nonneg_left hd0 (by norm_num) hh0.le
  have hge : d / 500000.0001 ≤ d / (1.07848061529 * 6371000 - 6371000) :=
    div_le_div_of_nonneg_left hd0 (by linarith) hh1.le
  have hsub := arctan_sub_le hle
  rw [ht] at hsub
  have hmono : Real.arctan (d / (1.07848061529 * 6371000 - 6371000)) ≤ θ := by
    rw [← ht]
    exact Real.arctan_strictMono.monotone hle
  have hgap : d / 500000 - d / 500000.0001 ≤ 0.000001 := by
    have e : d / 500000 - d / 500000.0001 = d * (1 / 500000 - 1 / 500000.0001) := by ring
    rw [e]
    have : (0 : ℝ) ≤ 1 / 500000 - 1 / 500000.0001 := by norm_num
    have h2 : (9600000 : ℝ) * (1 / 500000 - 1 / 500000.0001) ≤ 0.000001 := by norm_num
    nlinarith
  rw [abs_le]
  constructor <;> linarith

/-! ## The rounding to `double` and the rounded functions -/

section RoundedLemmas

open Dbl

namespace Dbl

theorem roundHalfEven_intCast (n : ℤ) : roundHalfEven (n : ℝ) = n := by
  unfold roundHalfEven
  rw [Int.floor_intCast]
  simp

theorem roundHalfEven_sub_le (m : ℝ) : |(roundHalfEven m : ℝ) - m| ≤ 1 / 2 := by
  have h1 := Int.floor_le m
  have h2 := Int.lt_floor_add_one m
  unfold roundHalfEven
  split_ifs with ha hb hc
  · rw [abs_le]; constructor <;> linarith
  · rw [abs_le]; push_cast; constructor <;> linarith
  · rw [abs_le]; constructor <;> linarith
  · rw [abs_le]; push_cast; constructor <;> linarith

theorem roundHalfEven_eq_of_lt {m : ℝ} {n : ℤ} (h : |m - n| < 1 / 2) : roundHalfEven m = n := by
  obtain ⟨h1, h2⟩ := abs_lt.mp h
  unfold roundHalfEven
  rcases le_or_lt (n : ℝ) m with hge | hlt
  · have hf : ⌊m⌋ = n := by
      rw [Int.floor_eq_iff]; constructor <;> linarith
    rw [hf, if_pos (by linarith)]
  · have hf : ⌊m⌋ = n - 1 := by
      rw [Int.floor_eq_iff]; push_cast; constructor <;> linarith
    rw [hf, if_neg (by push_cast; linarith), if_pos (by push_cast; linarith)]
    ring

theorem roundHalfEven_nonneg {m : ℝ} (h : 0 ≤ m) : 0 ≤ roundHalfEven m := by
  have hf : 0 ≤ ⌊m⌋ := Int.floor_nonneg.mpr h
  unfold roundHalfEven
  split_ifs <;> omega

theorem roundHalfEven_neg (m : ℝ) : roundHalfEven (-m) = -roundHalfEven m := by
  by_cases hint : (⌊m⌋ : ℝ) = m
  · rw [← hint, ← Int.cast_neg, roundHalfEven_intCast, roundHalfEven_intCast]
  · have h1 := Int.floor_le m
    have h2 := Int.lt_floor_add_one m
    have hlt : (⌊m⌋ : ℝ) < m := lt_of_le_of_ne h1 hint
    have hf : ⌊-m⌋ = -⌊m⌋ - 1 := by
      rw [Int.floor_eq_iff]; push_cast; constructor <;> linarith
    unfold roundHalfEven
    rw [hf]
    push_cast
    by_cases ha : 2 * (m - ⌊m⌋) < 1
    · rw [if_pos ha, if_neg (by linarith), if_pos (by linarith)]
      ring
    · by_cases hb : 1 < 2 * (m - ⌊m⌋)
      · rw [if_neg ha, if_pos hb, if_pos (by linarith)]
        ring
      · rw [if_neg ha, if_neg hb, if_neg (by linarith), if_neg (by linarith)]
        by_cases hc : ⌊m⌋ % 2 = 0
        · rw [if_pos hc, if_neg (by omega)]
          ring
        · rw [if_neg hc, if_pos (by omega)]
          ring

end Dbl

namespace Dbl

theorem two_zpow_pos (e : ℤ) : (0 : ℝ) < (2 : ℝ) ^ e := zpow_pos (by norm_num) e

theorem two_zpow_mono {m n : ℤ} (h : m ≤ n) : (2 : ℝ) ^ m ≤ (2 : ℝ) ^ n :=
  zpow_le_zpow_right₀ (by norm_num) h

theorem lt_two_zpow_iff {x : ℝ} {e : ℤ} (hx : 0 < x) : x < (2 : ℝ) ^ e ↔ Int.log 2 x < e := by
  have h := Int.lt_zpow_iff_log_lt (R := ℝ) (b := 2) (by norm_num) (x := e) hx
  simpa using h

theorem two_zpow_le_iff {x : ℝ} {e : ℤ} (hx : 0 < x) : (2 : ℝ) ^ e ≤ x ↔ e ≤ Int.log 2 x := by
  have h := Int.zpow_le_iff_le_log (R := ℝ) (b := 2) (by norm_num) (x := e) hx
  simpa using h

theorem ulpExp_neg (x : ℝ) : ulpExp (-x) = ulpExp x := by
  unfold ulpExp
  rw [abs_neg]

theorem ulpExp_ge (x : ℝ) : -1074 ≤ ulpExp x := by
  unfold ulpExp
  have h := le_max_right (Int.log 2 |x|) (-1022)
  omega

theorem ulpExp_eq {x : ℝ} {e : ℤ} (he : -1022 ≤ e) (h1 : (2 : ℝ) ^ e ≤ |x|)
    (h2 : |x| < (2 : ℝ) ^ (e + 1)) : ulpExp x = e - 52 := by
  have hx : 0 < |x| := lt_of_lt_of_le (two_zpow_pos e) h1
  have ha : e ≤ Int.log 2 |x| := (two_zpow_le_iff hx).mp h1
  have hb : Int.log 2 |x| < e + 1 := (lt_two_zpow_iff hx).mp h2
  have hl : Int.log 2 |x| = e := by omega
  unfold ulpExp
  rw [hl, max_eq_left he]

theorem ulpExp_le {x : ℝ} {e : ℤ} (hx : x ≠ 0) (he : -1022 ≤ e)
    (h2 : |x| < (2 : ℝ) ^ (e + 1)) : ulpExp x ≤ e - 52 := by
  have hx : 0 < |x| := abs_pos.mpr hx
  have hb : Int.log 2 |x| < e + 1 := (lt_two_zpow_iff hx).mp h2
  have hm := max_le (show Int.log 2 |x| ≤ e by omega) he
  unfold ulpExp
  omega

theorem two_zpow_ulpExp_le {x : ℝ} (hx : (2 : ℝ) ^ (-1022 : ℤ) ≤ |x|) :
    (2 : ℝ) ^ ulpExp x ≤ (2 : ℝ) ^ (-52 : ℤ) * |x| := by
  have hx0 : 0 < |x| := lt_of_lt_of_le (two_zpow_pos _) hx
  have ha : (-1022 : ℤ) ≤ Int.log 2 |x| := (two_zpow_le_iff hx0).mp hx
  have hl : (2 : ℝ) ^ Int.log 2 |x| ≤ |x| := (two_zpow_le_iff hx0).mpr le_rfl
  have hu : ulpExp x = Int.log 2 |x| + (-52) := by
    unfold ulpExp
    rw [max_eq_left ha]
    ring
  rw [hu, zpow_add₀ (by norm_num : (2 : ℝ) ≠ 0), mul_comm]
  exact mul_le_mul_of_nonneg_left hl (two_zpow_pos _).le

theorem rnd_zero : rnd 0 = 0 := by
  unfold rnd
  rw [zero_div]
  have h := roundHalfEven_intCast 0
  rw [Int.cast_zero] at h
  rw [h]
  simp

theorem rnd_neg (x : ℝ) : rnd (-x) = -rnd x := by
  unfold rnd
  rw [ulpExp_neg, neg_div, roundHalfEven_neg]
  push_cast
  ring

theorem rnd_sub_le (x : ℝ) : |rnd x - x| ≤ (2 : ℝ) ^ ulpExp x / 2 := by
  have hp := two_zpow_pos (ulpExp x)
  have h := roundHalfEven_sub_le (x / (2 : ℝ) ^ ulpExp x)
  unfold rnd
  have e : (roundHalfEven (x / (2 : ℝ) ^ ulpExp x) : ℝ) * (2 : ℝ) ^ ulpExp x - x
      = ((roundHalfEven (x / (2 : ℝ) ^ ulpExp x) : ℝ) - x / (2 : ℝ) ^ ulpExp x)
        * (2 : ℝ) ^ ulpExp x := by
    field_simp
  rw [e, abs_mul, abs_of_pos hp]
  nlinarith

theorem rnd_nonneg {x : ℝ} (h : 0 ≤ x) : 0 ≤ rnd x := by
  unfold rnd
  have h1 : 0 ≤ roundHalfEven (x / (2 : ℝ) ^ ulpExp x) :=
    roundHalfEven_nonneg (div_nonneg h (two_zpow_pos _).le)
  have h2 : (0 : ℝ) ≤ (roundHalfEven (x / (2 : ℝ) ^ ulpExp x) : ℝ) := by exact_mod_cast h1
  exact mul_nonneg h2 (two_zpow_pos _).le

theorem rnd_nonpos {x : ℝ} (h : x ≤ 0) : rnd x ≤ 0 := by
  have h1 := rnd_nonneg (neg_nonneg.mpr h)
  rw [rnd_neg] at h1
  linarith

theorem rnd_abs_le {x : ℝ} {e : ℤ} (he : -1022 ≤ e) (h : |x| < (2 : ℝ) ^ (e + 1)) :
    |rnd x - x| ≤ (2 : ℝ) ^ (e - 53) := by
  by_cases hx : x = 0
  · rw [hx, rnd_zero]
    simp [(two_zpow_pos (e - 53)).le]
  · have h1 := ulpExp_le hx he h
    have h2 := rnd_sub_le x
    have h3 : (2 : ℝ) ^ ulpExp x ≤ (2 : ℝ) ^ (e - 52) := two_zpow_mono h1
    have h4 : (2 : ℝ) ^ (e - 52) = (2 : ℝ) ^ (e - 53) * 2 := by
      rw [show e - 52 = (e - 53) + 1 by ring, zpow_add₀ (by norm_num : (2 : ℝ) ≠ 0), zpow_one]
    linarith

theorem rnd_rel {x : ℝ} (hx : (2 : ℝ) ^ (-1022 : ℤ) ≤ |x|) :
    |rnd x - x| ≤ (2 : ℝ) ^ (-53 : ℤ) * |x| := by
  have h1 := rnd_sub_le x
  have h2 := two_zpow_ulpExp_le hx
  have h3 : (2 : ℝ) ^ (-52 : ℤ) = (2 : ℝ) ^ (-53 : ℤ) * 2 := by
    rw [show (-52 : ℤ) = -53 + 1 by norm_num, zpow_add₀ (by norm_num : (2 : ℝ) ≠ 0), zpow_one]
  rw [h3] at h2
  linarith

theorem rnd_dyadic {k j : ℤ} (hj : -1074 ≤ j) (hk : |k| < 2 ^ 53) :
    rnd ((k : ℝ) * (2 : ℝ) ^ j) = (k : ℝ) * (2 : ℝ) ^ j := by
  by_cases hk0 : k = 0
  · rw [hk0]
    simp [rnd_zero]
  · have h2 : (2 : ℝ) ≠ 0 := by norm_num
    have hx : (k : ℝ) * (2 : ℝ) ^ j ≠ 0 :=
      mul_ne_zero (by exact_mod_cast hk0) (two_zpow_pos j).ne'
    have hkr : |(k : ℝ)| < (2 : ℝ) ^ (53 : ℤ) := by
      have h : ((|k| : ℤ) : ℝ) < ((2 ^ 53 : ℤ) : ℝ) := by exact_mod_cast hk
      rw [Int.cast_abs] at h
      norm_num at h ⊢
      exact h
    have hlt : |(k : ℝ) * (2 : ℝ) ^ j| < (2 : ℝ) ^ (j + 52 + 1) := by
      rw [abs_mul, abs_of_pos (two_zpow_pos j), show j + 52 + 1 = 53 + j by ring, zpow_add₀ h2]
      exact mul_lt_mul_of_pos_right hkr (two_zpow_pos j)
    have hu : ulpExp ((k : ℝ) * (2 : ℝ) ^ j) ≤ j := by
      have h := ulpExp_le hx (show (-1022 : ℤ) ≤ j + 52 by omega) hlt
      omega
    obtain ⟨n, hn⟩ := Int.eq_ofNat_of_zero_le (show 0 ≤ j - ulpExp ((k : ℝ) * (2 : ℝ) ^ j) by omega)
    have hj2 : (2 : ℝ) ^ j = (2 : ℝ) ^ n * (2 : ℝ) ^ ulpExp ((k : ℝ) * (2 : ℝ) ^ j) := by
      rw [← zpow_natCast, ← zpow_add₀ h2, ← hn]
      congr 1
      ring
    have hq : (k : ℝ) * (2 : ℝ) ^ j / (2 : ℝ) ^ ulpExp ((k : ℝ) * (2 : ℝ) ^ j)
        = ((k * 2 ^ n : ℤ) : ℝ) := by
      rw [div_eq_iff (two_zpow_pos _).ne']
      push_cast
      nth_rewrite 1 [hj2]
      ring
    unfold rnd
    rw [hq, roundHalfEven_intCast]
    push_cast
    nth_rewrite 2 [hj2]
    ring

theorem rnd_intCast {n : ℤ} (h : |n| < 2 ^ 53) : rnd (n : ℝ) = (n : ℝ) := by
  have h1 := rnd_dyadic (show (-1074 : ℤ) ≤ 0 by norm_num) h
  simpa using h1

theorem rnd_eq_of_close {x : ℝ} {k j : ℤ} (hu : ulpExp x = j)
    (h : |x - (k : ℝ) * (2 : ℝ) ^ j| < (2 : ℝ) ^ j / 2) : rnd x = (k : ℝ) * (2 : ℝ) ^ j := by
  have hp := two_zpow_pos j
  unfold rnd
  rw [hu]
  have hq : |x / (2 : ℝ) ^ j - (k : ℝ)| < 1 / 2 := by
    have e : x / (2 : ℝ) ^ j - (k : ℝ) = (x - (k : ℝ) * (2 : ℝ) ^ j) / (2 : ℝ) ^ j := by
      field_simp
      ring
    rw [e, abs_div, abs_of_pos hp, div_lt_iff₀ hp]
    linarith
  rw [roundHalfEven_eq_of_lt hq]

theorem abs_rnd_le {x B : ℝ} (hB : (2 : ℝ) ^ (-1022 : ℤ) ≤ B) (h : |x| ≤ B) :
    |rnd x| ≤ B * (1 + (2 : ℝ) ^ (-53 : ℤ)) := by
  have hB0 : 0 < B := lt_of_lt_of_le (two_zpow_pos _) hB
  have h53 : (0 : ℝ) < (2 : ℝ) ^ (-53 : ℤ) := two_zpow_pos _
  rcases le_or_lt ((2 : ℝ) ^ (-1022 : ℤ)) |x| with hn | hs
  · have h1 := rnd_rel hn
    have h2 : |rnd x| ≤ |rnd x - x| + |x| := by
      have := abs_add (rnd x - x) x
      simpa using this
    nlinarith
  · have hs2 : |x| < (2 : ℝ) ^ ((-1022 : ℤ) + 1) :=
      lt_of_lt_of_le hs (two_zpow_mono (by norm_num))
    have h1 : |rnd x - x| ≤ (2 : ℝ) ^ ((-1022 : ℤ) - 53) := rnd_abs_le (by norm_num) hs2
    have h2 : |rnd x| ≤ |rnd x - x| + |x| := by
      have := abs_add (rnd x - x) x
      simpa using this
    have h3 : (2 : ℝ) ^ ((-1022 : ℤ) - 53) ≤ (2 : ℝ) ^ (-1022 : ℤ) * (2 : ℝ) ^ (-53 : ℤ) := by
      rw [← zpow_add₀ (by norm_num : (2 : ℝ) ≠ 0)]
      exact two_zpow_mono (by norm_num)
    nlinarith

end Dbl

/-! ## Values of the rounded functions -/

@[simp] theorem Dbl.rn_fin (a : ℝ) : rn (fin a) = fin (rnd a) := rfl

theorem Dbl.rnd_natCast {n : ℕ} (h : n < 2 ^ 53) : rnd (n : ℝ) = (n : ℝ) := by
  have h1 : |(n : ℤ)| < 2 ^ 53 := by
    rw [abs_of_nonneg (by positivity)]
    exact_mod_cast h
  have h2 := rnd_intCast h1
  simpa using h2

theorem Dbl.rnd_two_zpow {j : ℤ} (hj : -1074 ≤ j) : rnd ((2 : ℝ) ^ j) = (2 : ℝ) ^ j := by
  have h := rnd_dyadic (k := 1) hj (by norm_num)
  simpa using h

theorem Dbl.rnd_half : rnd (1 / 2 : ℝ) = 1 / 2 := by
  have h := rnd_two_zpow (j := -1) (by norm_num)
  norm_num at h ⊢
  exact h

/-- The constant `PI` is the `double` `7074237752028906 * 2^-51`. -/
theorem Rounded.PI_eq : Rounded.PI = fin (7074237752028906 * (2 : ℝ) ^ (-51 : ℤ)) := by
  unfold Rounded.PI Refraction.PI
  rw [rn_fin]
  congr 1
  have hu : ulpExp (3.14159265359 : ℝ) = -51 := by
    have h := ulpExp_eq (x := 3.14159265359) (e := 1) (by norm_num)
      (by rw [abs_of_pos (by norm_num)]; norm_num)
      (by rw [abs_of_pos (by norm_num)]; norm_num)
    simpa using h
  have h := rnd_eq_of_close (k := 7074237752028906) hu
    (by rw [abs_lt]; constructor <;> norm_num)
  exact_mod_cast h

theorem rnd_sq_12742000 : rnd ((12742000 : ℝ) ^ 2) = 162358564000000 := by
  have h := rnd_natCast (n := 162358564000000) (by norm_num)
  norm_num at h ⊢
  exact h

theorem rnd_12742000 : rnd (12742000 : ℝ) = 12742000 := by
  have h := rnd_natCast (n := 12742000) (by norm_num)
  norm_num at h ⊢
  exact h

theorem rnd_6371000 : rnd (6371000 : ℝ) = 6371000 := by
  have h := rnd_natCast (n := 6371000) (by norm_num)
  norm_num at h ⊢
  exact h

theorem sqrt_sq_12742000 : Real.sqrt (162358564000000 : ℝ) = 12742000 := by
  rw [show (162358564000000 : ℝ) = 12742000 ^ 2 by norm_num]
  exact Real.sqrt_sq (by norm_num)

/-- The local `alt_sat` for a satellite at `(12742000, y, 0)` with `y² ≤ 2^-7`. -/
theorem Rounded.altSat_axis {y : ℝ} (hy : rnd (y ^ 2) ≤ (2 : ℝ) ^ (-7 : ℤ)) :
    Rounded.altSat (fin 12742000) (fin y) (fin 0) = fin 12742000 := by
  have hy0 : 0 ≤ rnd (y ^ 2) := rnd_nonneg (sq_nonneg y)
  have hu : ulpExp (162358564000000 + rnd (y ^ 2)) = -5 := by
    have h := ulpExp_eq (x := 162358564000000 + rnd (y ^ 2)) (e := 47) (by norm_num)
      (by rw [abs_of_pos (by linarith)]; norm_num; linarith)
      (by rw [abs_of_pos (by linarith)]; norm_num at hy ⊢; linarith)
    simpa using h
  have h1 : rnd (162358564000000 + rnd (y ^ 2)) = 162358564000000 := by
    have h := rnd_eq_of_close (k := 5195474048000000) hu
      (by rw [abs_lt]; norm_num at hy ⊢; constructor <;> linarith)
    rw [h]
    norm_num
  have h2 : rnd (162358564000000 : ℝ) = 162358564000000 := by
    have h := rnd_sq_12742000
    norm_num at h
    exact h
  unfold Rounded.altSat
  simp only [pow_fin_two, rn_fin, fin_add_fin, rnd_sq_12742000, h1]
  norm_num
  rw [rnd_zero, add_zero, h2, sqrt_fin (by norm_num), sqrt_sq_12742000, rn_fin, rnd_12742000]

/-- The projection of a satellite at `(12742000, y, 0)`, `y² ≤ 2^-7`: the scale
factor is exactly `0.5`. -/
theorem Rounded.satProjection_axis {y : ℝ} (hy : rnd (y ^ 2) ≤ (2 : ℝ) ^ (-7 : ℤ)) :
    Rounded.satProjection (fin 12742000) (fin y) (fin 0)
      = (fin 6371000, fin (rnd (1 / 2 * y)), fin 0) := by
  have halt := Rounded.altSat_axis hy
  unfold Rounded.altSat at halt
  unfold Rounded.satProjection
  dsimp only
  rw [halt]
  have ht : rnd ((6371000 : ℝ) / 12742000) = 1 / 2 := by
    rw [show (6371000 : ℝ) / 12742000 = 1 / 2 by norm_num]
    exact rnd_half
  simp only [ofInt_eq, EARTHRAD, Int.cast_ofNat, fin_div_fin _ (by norm_num : (12742000 : ℝ) ≠ 0),
    rn_fin, ht, fin_mul_fin]
  rw [show (1 / 2 : ℝ) * 12742000 = 6371000 by norm_num, rnd_6371000, mul_zero, rnd_zero]

/-- Input A: satellite `(12742000, 2^-40, 0)`. -/
theorem Rounded.satProjection_A :
    Rounded.satProjection (fin 12742000) (fin ((2 : ℝ) ^ (-40 : ℤ))) (fin 0)
      = (fin 6371000, fin ((2 : ℝ) ^ (-41 : ℤ)), fin 0) := by
  have hsq : ((2 : ℝ) ^ (-40 : ℤ)) ^ 2 = (2 : ℝ) ^ (-80 : ℤ) := by
    rw [← zpow_natCast, ← zpow_mul]
    norm_num
  have hy : rnd (((2 : ℝ) ^ (-40 : ℤ)) ^ 2) ≤ (2 : ℝ) ^ (-7 : ℤ) := by
    rw [hsq, rnd_two_zpow (by norm_num)]
    exact two_zpow_mono (by norm_num)
  rw [Rounded.satProjection_axis hy]
  have h : (1 / 2 : ℝ) * (2 : ℝ) ^ (-40 : ℤ) = (2 : ℝ) ^ (-41 : ℤ) := by
    rw [show (-41 : ℤ) = -1 + -40 by norm_num, zpow_add₀ (by norm_num : (2 : ℝ) ≠ 0)]
    norm_num
  rw [h, rnd_two_zpow (by norm_num)]

theorem two_zpow_sq (j : ℤ) : ((2 : ℝ) ^ j) ^ 2 = (2 : ℝ) ^ (2 * j) := by
  rw [← zpow_natCast, ← zpow_mul]
  congr 1
  push_cast
  ring

theorem sqrt_two_zpow (j : ℤ) : Real.sqrt ((2 : ℝ) ^ (2 * j)) = (2 : ℝ) ^ j := by
  rw [← two_zpow_sq]
  exact Real.sqrt_sq (two_zpow_pos j).le

/-- Input A, ground station `(6371000, 0, 0)`: the chord is `2^-41`. -/
theorem Rounded.zenithAngle_A :
    Rounded.zenithAngle (fin 12742000) (fin ((2 : ℝ) ^ (-40 : ℤ))) (fin 0)
        (fin 6371000) (fin 0) (fin 0)
      = (fin (rnd (Real.arctan (rnd ((2 : ℝ) ^ (-41 : ℤ) / 6371000)))),
         fin ((2 : ℝ) ^ (-41 : ℤ))) := by
  have hsq : ((2 : ℝ) ^ (-40 : ℤ)) ^ 2 = (2 : ℝ) ^ (-80 : ℤ) := by
    rw [two_zpow_sq]; norm_num
  have hy : rnd (((2 : ℝ) ^ (-40 : ℤ)) ^ 2) ≤ (2 : ℝ) ^ (-7 : ℤ) := by
    rw [hsq, rnd_two_zpow (by norm_num)]
    exact two_zpow_mono (by norm_num)
  have halt := Rounded.altSat_axis hy
  unfold Rounded.altSat at halt
  unfold Rounded.zenithAngle
  rw [Rounded.satProjection_A]
  dsimp only
  rw [halt]
  have h82 : ((2 : ℝ) ^ (-41 : ℤ)) ^ 2 = (2 : ℝ) ^ (2 * (-41) : ℤ) := two_zpow_sq _
  have hh : rnd ((12742000 : ℝ) - 6371000) = 6371000 := by
    rw [show (12742000 : ℝ) - 6371000 = 6371000 by norm_num, rnd_6371000]
  simp only [fin_sub_fin, sub_self, sub_zero, rn_fin, rnd_zero, pow_fin_two, fin_add_fin,
    zero_add, add_zero, ne_eq, OfNat.ofNat_ne_zero, not_false_eq_true, zero_pow,
    rnd_two_zpow (show (-1074 : ℤ) ≤ -41 by norm_num), h82,
    rnd_two_zpow (show (-1074 : ℤ) ≤ 2 * (-41) by norm_num),
    sqrt_fin (two_zpow_pos (2 * (-41))).le, sqrt_two_zpow, ofInt_eq, EARTHRAD, Int.cast_ofNat,
    hh, fin_div_fin _ (by norm_num : (6371000 : ℝ) ≠ 0), atan_fin]

theorem arctan_le_self {q : ℝ} (hq : 0 ≤ q) : Real.arctan q ≤ q := by
  have h := arctan_sub_le hq
  rw [Real.arctan_zero] at h
  linarith

theorem arctan_nonneg_of_nonneg {q : ℝ} (hq : 0 ≤ q) : 0 ≤ Real.arctan q := by
  rw [← Real.arctan_zero]
  exact Real.arctan_strictMono.monotone hq

/-- A rounded value lies within the relative distance `2^-53` of a normal
argument. -/
theorem Dbl.rnd_bounds {x : ℝ} (hx : (2 : ℝ) ^ (-1022 : ℤ) ≤ x) :
    x * (1 - (2 : ℝ) ^ (-53 : ℤ)) ≤ rnd x ∧ rnd x ≤ x * (1 + (2 : ℝ) ^ (-53 : ℤ)) := by
  have hx0 : 0 < x := lt_of_lt_of_le (two_zpow_pos _) hx
  have h := rnd_rel (x := x) (by rw [abs_of_pos hx0]; exact hx)
  rw [abs_of_pos hx0, abs_le] at h
  constructor <;> nlinarith [h.1, h.2]

/-- The quotient `2^-41 / 6371000`, rounded. -/
theorem qA_bounds :
    (2 : ℝ) ^ (-65 : ℤ) < rnd ((2 : ℝ) ^ (-41 : ℤ) / 6371000) ∧
    rnd ((2 : ℝ) ^ (-41 : ℤ) / 6371000) < (2 : ℝ) ^ (-62 : ℤ) := by
  have h1 : (2 : ℝ) ^ (-64 : ℤ) < (2 : ℝ) ^ (-41 : ℤ) / 6371000 := by norm_num
  have h2 : (2 : ℝ) ^ (-41 : ℤ) / 6371000 < (2 : ℝ) ^ (-63 : ℤ) := by norm_num
  have hn : (2 : ℝ) ^ (-1022 : ℤ) ≤ (2 : ℝ) ^ (-41 : ℤ) / 6371000 :=
    le_trans (two_zpow_mono (by norm_num)) h1.le
  obtain ⟨h3, h4⟩ := rnd_bounds hn
  have e53 : (2 : ℝ) ^ (-53 : ℤ) ≤ 1 / 2 := by norm_num
  have e53p : (0 : ℝ) < (2 : ℝ) ^ (-53 : ℤ) := two_zpow_pos _
  have e65 : (2 : ℝ) ^ (-65 : ℤ) = (2 : ℝ) ^ (-64 : ℤ) * (1 / 2) := by
    rw [show (-65 : ℤ) = -64 + -1 by norm_num, zpow_add₀ (by norm_num : (2 : ℝ) ≠ 0)]
    norm_num
  have e62 : (2 : ℝ) ^ (-62 : ℤ) = (2 : ℝ) ^ (-63 : ℤ) * 2 := by
    rw [show (-62 : ℤ) = -63 + 1 by norm_num, zpow_add₀ (by norm_num : (2 : ℝ) ≠ 0)]
    norm_num
  have p64 : (0 : ℝ) < (2 : ℝ) ^ (-64 : ℤ) := two_zpow_pos _
  have p63 : (0 : ℝ) < (2 : ℝ) ^ (-63 : ℤ) := two_zpow_pos _
  constructor
  · rw [e65]
    nlinarith
  · rw [e62]
    nlinarith

theorem Rounded.deltaAngle_eq_shell (x y z a b c : Dbl) :
    Rounded.deltaAngle x y z a b c
      = Rounded.shell (Rounded.closure (Rounded.angleSum x y z a b c)) := rfl

/-- The rounded sum of a rounded arctangent and its argument, for an argument
between `2^-65` and `2^-62`. -/
theorem rnd_sum_small {q : ℝ} (hq1 : (2 : ℝ) ^ (-65 : ℤ) < q) (hq2 : q < (2 : ℝ) ^ (-62 : ℤ)) :
    (2 : ℝ) ^ (-66 : ℤ) ≤ rnd (rnd (Real.arctan q) + q) ∧
      rnd (rnd (Real.arctan q) + q) < (2 : ℝ) ^ (-59 : ℤ) := by
  have p65 : (0 : ℝ) < (2 : ℝ) ^ (-65 : ℤ) := two_zpow_pos _
  have hq0 : 0 ≤ q := by linarith
  have ha0 : 0 ≤ Real.arctan q := arctan_nonneg_of_nonneg hq0
  have ha1 : Real.arctan q ≤ q := arctan_le_self hq0
  have hz0 : 0 ≤ rnd (Real.arctan q) := rnd_nonneg ha0
  have hz1 : |rnd (Real.arctan q)| ≤ (2 : ℝ) ^ (-62 : ℤ) * (1 + (2 : ℝ) ^ (-53 : ℤ)) :=
    abs_rnd_le (two_zpow_mono (by norm_num)) (by rw [abs_of_nonneg ha0]; linarith)
  rw [abs_of_nonneg hz0] at hz1
  have hs1 : (2 : ℝ) ^ (-65 : ℤ) ≤ rnd (Real.arctan q) + q := by linarith
  obtain ⟨hw1, hw2⟩ := rnd_bounds (le_trans (two_zpow_mono (by norm_num)) hs1)
  obtain ⟨s, hs⟩ : ∃ s, s = rnd (Real.arctan q) + q := ⟨_, rfl⟩
  obtain ⟨w, hw⟩ : ∃ w, w = rnd (rnd (Real.arctan q) + q) := ⟨_, rfl⟩
  rw [← hw]
  rw [← hw, ← hs] at hw1 hw2
  rw [← hs] at hs1
  have hs2 : s ≤ (2 : ℝ) ^ (-62 : ℤ) * (1 + (2 : ℝ) ^ (-53 : ℤ)) + (2 : ℝ) ^ (-62 : ℤ) := by
    linarith
  clear hs hw hz1 hz0 ha0 ha1 hq0 hq1 hq2 p65
  norm_num at hs1 hs2 hw1 hw2 ⊢
  constructor <;> linarith

/-- The sum `zenAng + theta` at input A is a number between `2^-66` and `2^-59`. -/
theorem Rounded.angleSum_A :
    ∃ w : ℝ, (2 : ℝ) ^ (-66 : ℤ) ≤ w ∧ w < (2 : ℝ) ^ (-59 : ℤ) ∧
      Rounded.angleSum (fin 12742000) (fin ((2 : ℝ) ^ (-40 : ℤ))) (fin 0)
        (fin 6371000) (fin 0) (fin 0) = fin w := by
  obtain ⟨hq1, hq2⟩ := qA_bounds
  obtain ⟨h1, h2⟩ := rnd_sum_small hq1 hq2
  refine ⟨_, h1, h2, ?_⟩
  unfold Rounded.angleSum
  rw [Rounded.zenithAngle_A]
  simp only [ofInt_eq, EARTHRAD, Int.cast_ofNat, fin_div_fin _ (by norm_num : (6371000 : ℝ) ≠ 0),
    rn_fin, fin_add_fin]

/-- The expression `PI - (PI - w)` is `0` for every `w` in `[0, 2^-52)`. -/
theorem Rounded.closure_small {w : ℝ} (h0 : 0 ≤ w) (h1 : w < (2 : ℝ) ^ (-52 : ℤ)) :
    Rounded.closure (fin w) = fin 0 := by
  obtain ⟨P, hP⟩ : ∃ P : ℝ, P = 7074237752028906 * (2 : ℝ) ^ (-51 : ℤ) := ⟨_, rfl⟩
  have hP1 : 3 < P := by rw [hP]; norm_num
  have hP2 : P < 7 / 2 := by rw [hP]; norm_num
  have e52 : (2 : ℝ) ^ (-52 : ℤ) = (2 : ℝ) ^ (-51 : ℤ) / 2 := by
    rw [show (-52 : ℤ) = -51 + -1 by norm_num, zpow_add₀ (by norm_num : (2 : ℝ) ≠ 0)]
    norm_num
  have e52s : (2 : ℝ) ^ (-52 : ℤ) ≤ 1 := by norm_num
  have hu : ulpExp (P - w) = -51 := by
    have h := ulpExp_eq (x := P - w) (e := 1) (by norm_num)
      (by rw [abs_of_pos (by linarith)]; norm_num; linarith)
      (by rw [abs_of_pos (by linarith)]; norm_num; linarith)
    simpa using h
  have hr : rnd (P - w) = P := by
    have h := rnd_eq_of_close (k := 7074237752028906) hu
      (by
        rw [show ((7074237752028906 : ℤ) : ℝ) = 7074237752028906 by norm_num, ← hP, ← e52,
          abs_lt]
        constructor <;> linarith)
    rw [h, hP]
    norm_num
  unfold Rounded.closure
  rw [Rounded.PI_eq, ← hP]
  simp only [fin_sub_fin, rn_fin, hr, sub_self, rnd_zero]

theorem Rounded.shell_zero : Rounded.shell (fin 0) = fin 0 := by
  unfold Rounded.shell
  simp only [sin_fin, Real.sin_zero, rn_fin, rnd_zero, ofInt_eq, EARTHRAD, fin_mul_fin, zero_mul]
  rw [fin_div_fin _ (by norm_num), zero_div, rn_fin, rnd_zero,
    asin_fin (by norm_num) (by norm_num), Real.arcsin_zero, rn_fin, rnd_zero, fin_sub_fin,
    sub_zero, rn_fin, rnd_zero]

theorem Rounded.linearDisplacement_eq (x y z a b c : Dbl) :
    Rounded.linearDisplacement x y z a b c
      = rn (ofInt 6371000 * Rounded.shell (Rounded.closure (Rounded.angleSum x y z a b c))) := rfl

/-- The loop body in terms of the locals `linearDisplacement` and
`distProjSat2GS`, when the three `abs` calls are defined. -/
theorem Rounded.mainBody_eq {x y z a b c px py pz : Dbl} {dx dy dz : Dbl}
    (hp : Rounded.satProjection x y z = (px, py, pz))
    (hx : abs (rn (a - px)) = some dx) (hy : abs (rn (b - py)) = some dy)
    (hz : abs (rn (c - pz)) = some dz) :
    Rounded.mainBody x y z a b c =
      if beq (Rounded.linearDisplacement x y z a b c) (fin 0.0) then some (a, b, c)
      else some
        (if gt px a then
            rn (a + rn (rn (Rounded.linearDisplacement x y z a b c
              / Rounded.distProjSat2GS x y z a b c) * dx))
          else rn (a - rn (rn (Rounded.linearDisplacement x y z a b c
              / Rounded.distProjSat2GS x y z a b c) * dx)),
         if gt py b then
            rn (b + rn (rn (Rounded.linearDisplacement x y z a b c
              / Rounded.distProjSat2GS x y z a b c) * dy))
          else rn (b - rn (rn (Rounded.linearDisplacement x y z a b c
              / Rounded.distProjSat2GS x y z a b c) * dy)),
         if gt pz c then
            rn (c + rn (rn (Rounded.linearDisplacement x y z a b c
              / Rounded.distProjSat2GS x y z a b c) * dz))
          else rn (c - rn (rn (Rounded.linearDisplacement x y z a b c
              / Rounded.distProjSat2GS x y z a b c) * dz))) := by
  unfold Rounded.mainBody Rounded.linearDisplacement Rounded.distProjSat2GS
  rw [hp]
  dsimp only
  rw [hx, hy, hz]
  rfl

theorem Rounded.distProjSat2GS_eq (x y z a b c : Dbl) :
    Rounded.distProjSat2GS x y z a b c = (Rounded.zenithAngle x y z a b c).2 := rfl

theorem abs_neg_small {v : ℝ} (h0 : -1 < v) (h1 : v ≤ 0) : abs (fin v) = some (fin 0) := by
  rcases eq_or_lt_of_le h1 with h | h
  · rw [h]; exact abs_fin_zero
  · have hc : ⌈v⌉ = 0 := by
      rw [Int.ceil_eq_iff]
      constructor <;> norm_num <;> linarith
    simp [abs, Dbl.toInt, intAbs, Dbl.ofInt, not_le.mpr h, hc]

/-- Input A: the computed `linearDisplacement` is `0`. -/
theorem Rounded.linearDisplacement_A :
    Rounded.linearDisplacement (fin 12742000) (fin ((2 : ℝ) ^ (-40 : ℤ))) (fin 0)
        (fin 6371000) (fin 0) (fin 0) = fin 0 := by
  obtain ⟨w, hw1, hw2, hw⟩ := Rounded.angleSum_A
  have hc : Rounded.closure (fin w) = fin 0 :=
    Rounded.closure_small (le_trans (two_zpow_pos _).le hw1)
      (lt_trans hw2 (by norm_num))
  rw [Rounded.linearDisplacement_eq, hw, hc, Rounded.shell_zero]
  simp only [ofInt_eq, fin_mul_fin, mul_zero, rn_fin, rnd_zero]

/-- Input A: the loop body leaves the ground station unchanged. -/
theorem Rounded.mainBody_A :
    Rounded.mainBody (fin 12742000) (fin ((2 : ℝ) ^ (-40 : ℤ))) (fin 0)
        (fin 6371000) (fin 0) (fin 0) = some (fin 6371000, fin 0, fin 0) := by
  have hx : abs (rn (fin 6371000 - fin 6371000)) = some (fin 0) := by
    simp only [fin_sub_fin, sub_self, rn_fin, rnd_zero, abs_fin_zero]
  have hy : abs (rn (fin 0 - fin ((2 : ℝ) ^ (-41 : ℤ)))) = some (fin 0) := by
    simp only [fin_sub_fin, zero_sub, rn_fin, rnd_neg, rnd_two_zpow (show (-1074 : ℤ) ≤ -41 by norm_num)]
    exact abs_neg_small (by norm_num) (by norm_num)
  have hz : abs (rn (fin 0 - fin 0)) = some (fin 0) := by
    simp only [fin_sub_fin, sub_self, rn_fin, rnd_zero, abs_fin_zero]
  have hb : beq (fin 0) (fin 0.0) = true := by
    show decide ((0 : ℝ) = 0.0) = true
    norm_num
  rw [Rounded.mainBody_eq Rounded.satProjection_A hx hy hz, Rounded.linearDisplacement_A,
    if_pos hb]

/-- In double arithmetic `PI - (PI - w)` is within `2^-51` of `w`, for `w` in
`[0, 3.9]`. -/
theorem Rounded.closure_close {w : ℝ} (h0 : 0 ≤ w) (h1 : w ≤ 3.9) :
    ∃ z0 : ℝ, Rounded.closure (fin w) = fin z0 ∧ |z0 - w| ≤ (2 : ℝ) ^ (-51 : ℤ) := by
  obtain ⟨P, hP⟩ : ∃ P : ℝ, P = 7074237752028906 * (2 : ℝ) ^ (-51 : ℤ) := ⟨_, rfl⟩
  have hP1 : 3 < P := by rw [hP]; norm_num
  have hP2 : P < 7 / 2 := by rw [hP]; norm_num
  have e52 : (2 : ℝ) ^ ((1 : ℤ) - 53) ≤ 1 / 100 := by norm_num
  have e51 : (2 : ℝ) ^ (-51 : ℤ) = (2 : ℝ) ^ ((1 : ℤ) - 53) + (2 : ℝ) ^ ((1 : ℤ) - 53) := by
    norm_num
  have hv : |rnd (P - w) - (P - w)| ≤ (2 : ℝ) ^ ((1 : ℤ) - 53) :=
    rnd_abs_le (by norm_num) (by rw [abs_lt]; norm_num at h1 ⊢; constructor <;> linarith)
  obtain ⟨hv1, hv2⟩ := abs_le.mp hv
  have hz : |rnd (P - rnd (P - w)) - (P - rnd (P - w))| ≤ (2 : ℝ) ^ ((1 : ℤ) - 53) :=
    rnd_abs_le (by norm_num) (by rw [abs_lt]; norm_num at h1 ⊢; constructor <;> linarith)
  obtain ⟨hz1, hz2⟩ := abs_le.mp hz
  refine ⟨rnd (P - rnd (P - w)), ?_, ?_⟩
  · unfold Rounded.closure
    rw [Rounded.PI_eq, ← hP]
    simp only [fin_sub_fin, rn_fin]
  · rw [e51, abs_le]
    constructor <;> linarith

theorem arcsin_le_small {x : ℝ} (h0 : 0 ≤ x) (h1 : x ≤ 1 / 10000) :
    Real.arcsin x ≤ x * (1 + 1 / 10000000) := by
  rcases eq_or_lt_of_le h0 with h | hpos
  · rw [← h]; simp
  · have hy0 : 0 < Real.arcsin x := Real.arcsin_pos.mpr hpos
    have hy1 : Real.arcsin x < Real.pi / 2 := Real.arcsin_lt_pi_div_two.mpr (by linarith)
    have ht := Real.lt_tan hy0 hy1
    rw [Real.tan_arcsin] at ht
    have hx2 : x ^ 2 ≤ 1 / 100000000 := by nlinarith
    have hs : 1 - x ^ 2 ≤ Real.sqrt (1 - x ^ 2) := by
      apply Real.le_sqrt_of_sq_le
      nlinarith [sq_nonneg x]
    have hs0 : 0 < Real.sqrt (1 - x ^ 2) := by linarith
    have hd : x / Real.sqrt (1 - x ^ 2) ≤ x * (1 + 1 / 10000000) := by
      rw [div_le_iff₀ hs0]
      have : x * (1 + 1 / 10000000) * (1 - x ^ 2) ≤ x * (1 + 1 / 10000000) * Real.sqrt (1 - x ^ 2) :=
        mul_le_mul_of_nonneg_left hs (by positivity)
      have h3 : x ≤ x * (1 + 1 / 10000000) * (1 - x ^ 2) := by
        have : 1 ≤ (1 + 1 / 10000000) * (1 - x ^ 2) := by nlinarith
        calc x = x * 1 := (mul_one x).symm
          _ ≤ x * ((1 + 1 / 10000000) * (1 - x ^ 2)) := mul_le_mul_of_nonneg_left this h0
          _ = x * (1 + 1 / 10000000) * (1 - x ^ 2) := by ring
      linarith
    linarith

/-- The expression returned by `deltaAngle` is not `0` at a small positive
`z_0`. -/
theorem Rounded.shell_small {w : ℝ} (hw1 : (2 : ℝ) ^ (-66 : ℤ) ≤ w)
    (hw2 : w < (2 : ℝ) ^ (-59 : ℤ)) :
    ∃ v : ℝ, 0 < v ∧ Rounded.shell (fin w) = fin v := by
  have hn : (2 : ℝ) ^ (-1022 : ℤ) ≤ w := le_trans (two_zpow_mono (by norm_num)) hw1
  have hw0 : 0 < w := lt_of_lt_of_le (two_zpow_pos _) hw1
  have hwpi : w ≤ Real.pi := by
    have := Real.pi_gt_three
    have : (2 : ℝ) ^ (-59 : ℤ) ≤ 1 := by norm_num
    linarith
  -- `sin`
  have hs0 : 0 ≤ Real.sin w := Real.sin_nonneg_of_nonneg_of_le_pi hw0.le hwpi
  have hs1 : Real.sin w ≤ w := Real.sin_le hw0.le
  have hu1 : |rnd (Real.sin w)| ≤ w * (1 + (2 : ℝ) ^ (-53 : ℤ)) :=
    abs_rnd_le hn (by rw [abs_of_nonneg hs0]; exact hs1)
  have hu1n : 0 ≤ rnd (Real.sin w) := rnd_nonneg hs0
  rw [abs_of_nonneg hu1n] at hu1
  obtain ⟨u1, hu1e⟩ : ∃ u1, u1 = rnd (Real.sin w) := ⟨_, rfl⟩
  rw [← hu1e] at hu1 hu1n
  -- `* EARTHRAD`
  have e53 : (2 : ℝ) ^ (-53 : ℤ) ≤ 1 / 1000000000000000 := by norm_num
  have e53p : (0 : ℝ) < (2 : ℝ) ^ (-53 : ℤ) := two_zpow_pos _
  have ht1 : (2 : ℝ) ^ (-1022 : ℤ) ≤ (2 : ℝ) ^ (-100 : ℤ) := two_zpow_mono (by norm_num)
  have ht2 : (2 : ℝ) ^ (-100 : ℤ) ≤ 0.0000001 * (2 : ℝ) ^ (-66 : ℤ) := by norm_num
  obtain ⟨δ, hδ⟩ : ∃ δ : ℝ, δ = (2 : ℝ) ^ (-53 : ℤ) := ⟨_, rfl⟩
  obtain ⟨t, ht⟩ : ∃ t : ℝ, t = (2 : ℝ) ^ (-1022 : ℤ) := ⟨_, rfl⟩
  obtain ⟨t66, ht66⟩ : ∃ t66 : ℝ, t66 = (2 : ℝ) ^ (-66 : ℤ) := ⟨_, rfl⟩
  obtain ⟨t100, ht100⟩ : ∃ t100 : ℝ, t100 = (2 : ℝ) ^ (-100 : ℤ) := ⟨_, rfl⟩
  rw [← hδ] at hu1 e53 e53p
  rw [← ht, ← ht100] at ht1
  rw [← ht100, ← ht66] at ht2
  rw [← ht66] at hw1
  have htw : t ≤ 0.0000001 * w := by linarith
  have hwδ : w * δ ≤ w * (1 / 1000000000000000) := mul_le_mul_of_nonneg_left e53 hw0.le
  have hu2 : |rnd (u1 * 6371000)| ≤ 6371000.000001 * w * (1 + (2 : ℝ) ^ (-53 : ℤ)) :=
    abs_rnd_le (by rw [← ht]; linarith) (by
      rw [abs_of_nonneg (by positivity)]
      linarith)
  have hu2n : 0 ≤ rnd (u1 * 6371000) := rnd_nonneg (by positivity)
  rw [abs_of_nonneg hu2n, ← hδ] at hu2
  obtain ⟨u2, hu2e⟩ : ∃ u2, u2 = rnd (u1 * 6371000) := ⟨_, rfl⟩
  rw [← hu2e] at hu2 hu2n
  -- `/ (EARTHRAD + 15)`
  have hu3 : |rnd (u2 / 6371015)| ≤ 0.999998 * w * (1 + (2 : ℝ) ^ (-53 : ℤ)) :=
    abs_rnd_le (by rw [← ht]; linarith) (by
      rw [abs_of_nonneg (by positivity), div_le_iff₀ (by norm_num)]
      linarith)
  have hu3n : 0 ≤ rnd (u2 / 6371015) := rnd_nonneg (by positivity)
  rw [abs_of_nonneg hu3n, ← hδ] at hu3
  obtain ⟨u3, hu3e⟩ : ∃ u3, u3 = rnd (u2 / 6371015) := ⟨_, rfl⟩
  rw [← hu3e] at hu3 hu3n
  have hw59 : (2 : ℝ) ^ (-59 : ℤ) ≤ 1 / 100000 := by norm_num
  obtain ⟨t59, ht59⟩ : ∃ t59 : ℝ, t59 = (2 : ℝ) ^ (-59 : ℤ) := ⟨_, rfl⟩
  rw [← ht59] at hw59 hw2
  have hu3s : u3 ≤ 1 / 10000 := by linarith
  -- `asin`
  have ha0 : 0 ≤ Real.arcsin u3 := Real.arcsin_nonneg.mpr hu3n
  have ha1 := arcsin_le_small hu3n hu3s
  have hu3w : u3 * (1 / 10000000) ≤ w * (1 / 10000000) :=
    mul_le_mul_of_nonneg_right (by linarith) (by norm_num)
  have hu4 : |rnd (Real.arcsin u3)| ≤ 0.9999983 * w * (1 + (2 : ℝ) ^ (-53 : ℤ)) :=
    abs_rnd_le (by rw [← ht]; linarith) (by
      rw [abs_of_nonneg ha0]
      linarith)
  have hu4n : 0 ≤ rnd (Real.arcsin u3) := rnd_nonneg ha0
  rw [abs_of_nonneg hu4n, ← hδ] at hu4
  obtain ⟨u4, hu4e⟩ : ∃ u4, u4 = rnd (Real.arcsin u3) := ⟨_, rfl⟩
  rw [← hu4e] at hu4 hu4n
  -- the difference
  have hd : 0.000001 * w ≤ w - u4 := by linarith
  have hdn : (2 : ℝ) ^ (-1022 : ℤ) ≤ w - u4 := by
    rw [← ht]
    linarith
  obtain ⟨hv1, -⟩ := rnd_bounds hdn
  rw [← hδ] at hv1
  have hdδ : (w - u4) * δ ≤ (w - u4) * (1 / 1000000000000000) :=
    mul_le_mul_of_nonneg_left e53 (by linarith)
  refine ⟨rnd (w - u4), by linarith, ?_⟩
  unfold Rounded.shell
  simp only [sin_fin, rn_fin, ofInt_eq, EARTHRAD, fin_mul_fin, Int.cast_ofNat, ← hu1e]
  rw [fin_div_fin _ (by norm_num), rn_fin]
  norm_num
  rw [← hu2e, ← hu3e, asin_fin (by linarith) (by linarith), rn_fin, ← hu4e, fin_sub_fin, rn_fin]

theorem Dbl.rnd_pos_of_normal {u : ℝ} (hN : (2 : ℝ) ^ (-1022 : ℤ) ≤ u) : 0 < rnd u := by
  have hu0 : 0 < u := lt_of_lt_of_le (two_zpow_pos _) hN
  obtain ⟨h1, -⟩ := rnd_bounds hN
  have e53 : (2 : ℝ) ^ (-53 : ℤ) ≤ 1 / 2 := by norm_num
  obtain ⟨δ, hδ⟩ : ∃ δ : ℝ, δ = (2 : ℝ) ^ (-53 : ℤ) := ⟨_, rfl⟩
  rw [← hδ] at h1 e53
  have hm : u * δ ≤ u * (1 / 2) := mul_le_mul_of_nonneg_left e53 hu0.le
  rw [mul_sub, mul_one] at h1
  linarith

/-- A `double` above an integer: the rounded difference is positive (the
difference is a multiple of a power of two not below `2^-1074`). -/
theorem Dbl.rnd_sub_int_pos {X : ℝ} {R : ℤ} (h : (R : ℝ) < rnd X) : 0 < rnd (rnd X - R) := by
  have hu0 : 0 < rnd X - R := by linarith
  have h2 : (2 : ℝ) ≠ 0 := by norm_num
  rcases le_or_lt ((2 : ℝ) ^ (-1022 : ℤ)) (rnd X - R) with hN | hS
  · exact rnd_pos_of_normal hN
  · obtain ⟨K, hK⟩ : ∃ K : ℤ, rnd X = (K : ℝ) * (2 : ℝ) ^ ulpExp X := ⟨_, rfl⟩
    have hj := ulpExp_ge X
    obtain ⟨j, hje⟩ : ∃ j : ℤ, j = ulpExp X := ⟨_, rfl⟩
    rw [← hje] at hK hj
    obtain ⟨m, hm⟩ : ∃ m : ℤ, m = min j 0 := ⟨_, rfl⟩
    have hm1 : m ≤ j := by rw [hm]; exact min_le_left _ _
    have hm2 : m ≤ 0 := by rw [hm]; exact min_le_right _ _
    have hm3 : -1074 ≤ m := by rw [hm]; exact le_min hj (by norm_num)
    obtain ⟨a, ha⟩ := Int.eq_ofNat_of_zero_le (show 0 ≤ j - m by omega)
    obtain ⟨b, hb⟩ := Int.eq_ofNat_of_zero_le (show 0 ≤ -m by omega)
    have hpm := two_zpow_pos m
    have hja : (2 : ℝ) ^ j = (2 : ℝ) ^ a * (2 : ℝ) ^ m := by
      rw [← zpow_natCast, ← zpow_add₀ h2, ← ha]
      congr 1
      ring
    have hbm : (2 : ℝ) ^ b * (2 : ℝ) ^ m = 1 := by
      rw [← zpow_natCast, ← zpow_add₀ h2, ← hb]
      simp
    have hu : rnd X - R = ((K * 2 ^ a - R * 2 ^ b : ℤ) : ℝ) * (2 : ℝ) ^ m := by
      push_cast
      rw [hK, hja, sub_mul, mul_assoc (R : ℝ), hbm]
      ring
    obtain ⟨M, hM⟩ : ∃ M : ℤ, M = K * 2 ^ a - R * 2 ^ b := ⟨_, rfl⟩
    rw [← hM] at hu
    have hMpos : 0 < M := by
      have h0 : (0 : ℝ) < (M : ℝ) * (2 : ℝ) ^ m := by rw [← hu]; exact hu0
      have h1 : (0 : ℝ) < (M : ℝ) := (mul_pos_iff_of_pos_right hpm).mp h0
      exact_mod_cast h1
    have hMlt : (M : ℝ) < (2 : ℝ) ^ (53 : ℤ) := by
      have h1 : (M : ℝ) * (2 : ℝ) ^ m < (2 : ℝ) ^ (-1022 : ℤ) := by rw [← hu]; exact hS
      have h3 : (2 : ℝ) ^ (-1074 : ℤ) ≤ (2 : ℝ) ^ m := two_zpow_mono hm3
      have h4 : (M : ℝ) * (2 : ℝ) ^ (-1074 : ℤ) ≤ (M : ℝ) * (2 : ℝ) ^ m :=
        mul_le_mul_of_nonneg_left h3 (by exact_mod_cast hMpos.le)
      have h5 : (2 : ℝ) ^ (-1022 : ℤ) = (2 : ℝ) ^ (52 : ℤ) * (2 : ℝ) ^ (-1074 : ℤ) := by
        rw [← zpow_add₀ h2]
        norm_num
      have h6 : (M : ℝ) * (2 : ℝ) ^ (-1074 : ℤ) < (2 : ℝ) ^ (52 : ℤ) * (2 : ℝ) ^ (-1074 : ℤ) := by
        rw [← h5]
        linarith
      have h7 : (M : ℝ) < (2 : ℝ) ^ (52 : ℤ) := lt_of_mul_lt_mul_right h6 (two_zpow_pos _).le
      exact lt_trans h7 (by norm_num)
    have hMabs : |M| < 2 ^ 53 := by
      rw [abs_of_pos hMpos]
      have : (M : ℝ) < ((2 ^ 53 : ℤ) : ℝ) := by
        push_cast
        norm_num at hMlt ⊢
        exact hMlt
      exact_mod_cast this
    rw [hu, rnd_dyadic hm3 hMabs, ← hu]
    exact hu0

theorem Rounded.rnd_sumsq_nonneg (x y z : ℝ) :
    0 ≤ rnd (rnd (rnd (x ^ 2) + rnd (y ^ 2)) + rnd (z ^ 2)) :=
  rnd_nonneg (add_nonneg (rnd_nonneg (add_nonneg (rnd_nonneg (sq_nonneg x))
    (rnd_nonneg (sq_nonneg y)))) (rnd_nonneg (sq_nonneg z)))

/-- The local `alt_sat` at a finite point is a rounded number. -/
theorem Rounded.altSat_fin (x y z : ℝ) :
    Rounded.altSat (fin x) (fin y) (fin z)
      = fin (rnd (Real.sqrt (rnd (rnd (rnd (x ^ 2) + rnd (y ^ 2)) + rnd (z ^ 2))))) := by
  unfold Rounded.altSat
  simp only [pow_fin_two, rn_fin, fin_add_fin]
  rw [sqrt_fin (Rounded.rnd_sumsq_nonneg x y z), rn_fin]

theorem Rounded.zenithAngle_fst (x y z a b c : Dbl) :
    (Rounded.zenithAngle x y z a b c).1
      = rn (atan (rn ((Rounded.zenithAngle x y z a b c).2
          / rn (Rounded.altSat x y z - ofInt EARTHRAD)))) := rfl

theorem Rounded.angleSum_eq (x y z a b c : Dbl) :
    Rounded.angleSum x y z a b c
      = rn ((Rounded.zenithAngle x y z a b c).1
          + rn ((Rounded.zenithAngle x y z a b c).2 / ofInt EARTHRAD)) := rfl

/-- When the computed `alt_sat` exceeds `EARTHRAD` and the computed chord is
`0`, the computed `linearDisplacement` is `0`. -/
theorem Rounded.linearDisplacement_of_chord_zero {x y z : ℝ} {a b c : Dbl}
    (hR : gt (Rounded.altSat (fin x) (fin y) (fin z)) (ofInt EARTHRAD) = true)
    (hd : Rounded.distProjSat2GS (fin x) (fin y) (fin z) a b c = fin 0) :
    Rounded.linearDisplacement (fin x) (fin y) (fin z) a b c = fin 0 := by
  rw [Rounded.altSat_fin] at hR
  have hlt : ((6371000 : ℤ) : ℝ)
      < rnd (Real.sqrt (rnd (rnd (rnd (x ^ 2) + rnd (y ^ 2)) + rnd (z ^ 2)))) := by
    have h : decide (((6371000 : ℤ) : ℝ)
      < rnd (Real.sqrt (rnd (rnd (rnd (x ^ 2) + rnd (y ^ 2)) + rnd (z ^ 2))))) = true := hR
    exact of_decide_eq_true h
  have hh := rnd_sub_int_pos hlt
  rw [Rounded.distProjSat2GS_eq] at hd
  have hzen : (Rounded.zenithAngle (fin x) (fin y) (fin z) a b c).1 = fin 0 := by
    rw [Rounded.zenithAngle_fst, hd, Rounded.altSat_fin]
    simp only [ofInt_eq, EARTHRAD, fin_sub_fin, rn_fin]
    rw [fin_div_fin _ hh.ne', zero_div, rn_fin, rnd_zero, atan_fin, Real.arctan_zero, rn_fin,
      rnd_zero]
  have hsum : Rounded.angleSum (fin x) (fin y) (fin z) a b c = fin 0 := by
    rw [Rounded.angleSum_eq, hzen, hd]
    simp only [ofInt_eq, EARTHRAD]
    rw [fin_div_fin _ (by norm_num), zero_div, rn_fin, rnd_zero, fin_add_fin, add_zero, rn_fin,
      rnd_zero]
  rw [Rounded.linearDisplacement_eq, hsum,
    Rounded.closure_small le_rfl (two_zpow_pos _), Rounded.shell_zero]
  simp only [ofInt_eq, fin_mul_fin, mul_zero, rn_fin, rnd_zero]

theorem rnd_sq_zero : rnd ((0 : ℝ) ^ 2) = 0 := by
  rw [show (0 : ℝ) ^ 2 = 0 by norm_num, rnd_zero]

/-- The exactly overhead input: satellite `(12742000, 0, 0)` above the station
`(6371000, 0, 0)`. -/
theorem Rounded.overhead_values :
    gt (Rounded.altSat (fin 12742000) (fin 0) (fin 0)) (ofInt EARTHRAD) = true ∧
    Rounded.satProjection (fin 12742000) (fin 0) (fin 0) = (fin 6371000, fin 0, fin 0) ∧
    Rounded.distProjSat2GS (fin 12742000) (fin 0) (fin 0) (fin 6371000) (fin 0) (fin 0)
      = fin 0 := by
  have hy : rnd ((0 : ℝ) ^ 2) ≤ (2 : ℝ) ^ (-7 : ℤ) := by
    rw [rnd_sq_zero]; exact (two_zpow_pos _).le
  have hp : Rounded.satProjection (fin 12742000) (fin 0) (fin 0)
      = (fin 6371000, fin 0, fin 0) := by
    rw [Rounded.satProjection_axis hy, mul_zero, rnd_zero]
  refine ⟨?_, hp, ?_⟩
  · rw [Rounded.altSat_axis hy]
    show decide (((6371000 : ℤ) : ℝ) < 12742000) = true
    norm_num
  · unfold Rounded.distProjSat2GS
    rw [hp]
    simp only [fin_sub_fin, sub_self, rn_fin, rnd_zero, pow_fin_two, rnd_sq_zero, fin_add_fin,
      add_zero]
    rw [sqrt_fin le_rfl, Real.sqrt_zero, rn_fin, rnd_zero]

theorem Dbl.mul_fin_neg (S : Dbl) (v : ℝ) : S * fin (-v) = -(S * fin v) := by
  cases S with
  | fin s =>
    show fin (s * -v) = fin (-(s * v))
    rw [mul_neg]
  | pinf =>
    show (if 0 < -v then pinf else if -v < 0 then ninf else nan)
      = neg (if 0 < v then pinf else if v < 0 then ninf else nan)
    rcases lt_trichotomy v 0 with h | h | h
    · rw [if_pos (by linarith), if_neg (by linarith), if_pos h]; rfl
    · subst h; simp [neg]
    · rw [if_neg (by linarith), if_pos (by linarith), if_pos h]; rfl
  | ninf =>
    show (if 0 < -v then ninf else if -v < 0 then pinf else nan)
      = neg (if 0 < v then ninf else if v < 0 then pinf else nan)
    rcases lt_trichotomy v 0 with h | h | h
    · rw [if_pos (by linarith), if_neg (by linarith), if_pos h]; rfl
    · subst h; simp [neg]
    · rw [if_neg (by linarith), if_pos (by linarith), if_pos h]; rfl
  | nan => rfl

theorem Dbl.rn_neg (u : Dbl) : rn (-u) = -rn u := by
  cases u with
  | fin s =>
    show fin (rnd (-s)) = fin (-rnd s)
    rw [rnd_neg]
  | pinf => rfl
  | ninf => rfl
  | nan => rfl

theorem Dbl.sub_eq_add_neg (u v : Dbl) : u - v = u + -v := rfl

theorem abs_fin_int {m : ℤ} (h : |m| ≤ 2147483647) :
    abs (fin (m : ℝ)) = some (fin ((|m| : ℤ) : ℝ)) := by
  have h1 : |(m : ℝ)| < 2147483648 := by
    have h2 : ((|m| : ℤ) : ℝ) ≤ ((2147483647 : ℤ) : ℝ) := by exact_mod_cast h
    rw [Int.cast_abs] at h2
    norm_num at h2 ⊢
    linarith
  rw [abs_fin h1]
  congr 2
  rw [← Int.cast_abs, Int.floor_intCast]

/-- One axis of the correction: adding the scaled `abs` of the difference when
the projection is larger, and subtracting it otherwise, is adding the scaled
signed difference, as soon as the computed difference is an integer. -/
theorem Rounded.axis_step (S : Dbl) (a p : ℝ) (m : ℤ) (h : rnd (a - p) = (m : ℝ)) :
    (if gt (fin p) (fin a) then rn (fin a + rn (S * fin ((|m| : ℤ) : ℝ)))
      else rn (fin a - rn (S * fin ((|m| : ℤ) : ℝ))))
      = rn (fin a + rn (S * rn (fin p - fin a))) := by
  have hpa : rn (fin p - fin a) = fin (-(m : ℝ)) := by
    rw [fin_sub_fin, rn_fin, show p - a = -(a - p) by ring, rnd_neg, h]
  rw [hpa]
  by_cases hg : a < p
  · have hgt : gt (fin p) (fin a) = true := by
      show decide (a < p) = true
      exact decide_eq_true hg
    have hm : (m : ℝ) ≤ 0 := by
      rw [← h]
      exact rnd_nonpos (by linarith)
    have hm' : m ≤ 0 := by exact_mod_cast hm
    rw [if_pos hgt, abs_of_nonpos hm']
    push_cast
    rfl
  · have hgt : gt (fin p) (fin a) = false := by
      show decide (a < p) = false
      exact decide_eq_false hg
    have hm : (0 : ℝ) ≤ (m : ℝ) := by
      rw [← h]
      exact rnd_nonneg (by linarith)
    have hm' : 0 ≤ m := by exact_mod_cast hm
    rw [hgt, abs_of_nonneg hm', mul_fin_neg, rn_neg]
    rfl

/-- The loop body when the three computed coordinate differences are integers
of the `int` range: every axis is translated by the scaled signed difference. -/
theorem Rounded.mainBody_of_integral {x y z a b c px py pz : ℝ} (m1 m2 m3 : ℤ)
    (hp : Rounded.satProjection (fin x) (fin y) (fin z) = (fin px, fin py, fin pz))
    (h1 : rnd (a - px) = (m1 : ℝ)) (h2 : rnd (b - py) = (m2 : ℝ)) (h3 : rnd (c - pz) = (m3 : ℝ))
    (hb1 : |m1| ≤ 2147483647) (hb2 : |m2| ≤ 2147483647) (hb3 : |m3| ≤ 2147483647) :
    Rounded.mainBody (fin x) (fin y) (fin z) (fin a) (fin b) (fin c) =
      if beq (Rounded.linearDisplacement (fin x) (fin y) (fin z) (fin a) (fin b) (fin c))
          (fin 0.0) then some (fin a, fin b, fin c)
      else some
        (rn (fin a + rn (rn (Rounded.linearDisplacement (fin x) (fin y) (fin z) (fin a) (fin b)
            (fin c) / Rounded.distProjSat2GS (fin x) (fin y) (fin z) (fin a) (fin b) (fin c))
            * rn (fin px - fin a))),
         rn (fin b + rn (rn (Rounded.linearDisplacement (fin x) (fin y) (fin z) (fin a) (fin b)
            (fin c) / Rounded.distProjSat2GS (fin x) (fin y) (fin z) (fin a) (fin b) (fin c))
            * rn (fin py - fin b))),
         rn (fin c + rn (rn (Rounded.linearDisplacement (fin x) (fin y) (fin z) (fin a) (fin b)
            (fin c) / Rounded.distProjSat2GS (fin x) (fin y) (fin z) (fin a) (fin b) (fin c))
            * rn (fin pz - fin c)))) := by
  have hx : abs (rn (fin a - fin px)) = some (fin ((|m1| : ℤ) : ℝ)) := by
    rw [fin_sub_fin, rn_fin, h1, abs_fin_int hb1]
  have hy : abs (rn (fin b - fin py)) = some (fin ((|m2| : ℤ) : ℝ)) := by
    rw [fin_sub_fin, rn_fin, h2, abs_fin_int hb2]
  have hz : abs (rn (fin c - fin pz)) = some (fin ((|m3| : ℤ) : ℝ)) := by
    rw [fin_sub_fin, rn_fin, h3, abs_fin_int hb3]
  rw [Rounded.mainBody_eq hp hx hy hz, Rounded.axis_step _ a px m1 h1,
    Rounded.axis_step _ b py m2 h2, Rounded.axis_step _ c pz m3 h3]

theorem Dbl.tiny_le {B : ℝ} (h : 1 / 1024 ≤ B) : (2 : ℝ) ^ (-1022 : ℤ) ≤ B := by
  have h1 : (2 : ℝ) ^ (-1022 : ℤ) ≤ (2 : ℝ) ^ (-10 : ℤ) := two_zpow_mono (by norm_num)
  have h2 : (2 : ℝ) ^ (-10 : ℤ) = 1 / 1024 := by norm_num
  rw [h2] at h1
  exact le_trans h1 h

/-- Rounding moves a number of magnitude at most `B ≥ 1/1024` by at most
`B * 10^-15`. -/
theorem Dbl.abs_rnd_le_num {x B : ℝ} (hB : 1 / 1024 ≤ B) (h : |x| ≤ B) :
    |rnd x| ≤ B + B * (1 / 1000000000000000) := by
  have h1 := abs_rnd_le (tiny_le hB) h
  have e53 : (2 : ℝ) ^ (-53 : ℤ) ≤ 1 / 1000000000000000 := by norm_num
  obtain ⟨δ, hδ⟩ : ∃ δ : ℝ, δ = (2 : ℝ) ^ (-53 : ℤ) := ⟨_, rfl⟩
  rw [← hδ] at h1 e53
  have h2 : B * δ ≤ B * (1 / 1000000000000000) := mul_le_mul_of_nonneg_left e53 (by linarith)
  rw [mul_add, mul_one] at h1
  linarith

/-- Rounding of a number not below `1/1024` moves it by at most the fraction
`10^-15`. -/
theorem Dbl.rnd_bounds_num {x : ℝ} (hx : 1 / 1024 ≤ x) :
    x - x * (1 / 1000000000000000) ≤ rnd x ∧ rnd x ≤ x + x * (1 / 1000000000000000) := by
  obtain ⟨h1, h2⟩ := rnd_bounds (tiny_le hx)
  have e53 : (2 : ℝ) ^ (-53 : ℤ) ≤ 1 / 1000000000000000 := by norm_num
  obtain ⟨δ, hδ⟩ : ∃ δ : ℝ, δ = (2 : ℝ) ^ (-53 : ℤ) := ⟨_, rfl⟩
  rw [← hδ] at h1 h2 e53
  have h3 : x * δ ≤ x * (1 / 1000000000000000) := mul_le_mul_of_nonneg_left e53 (by linarith)
  rw [mul_sub, mul_one] at h1
  rw [mul_add, mul_one] at h2
  constructor <;> linarith

/-- Rounding moves a number of magnitude at most `B ≥ 1/1024` by at most
`B * 10^-15`. -/
theorem Dbl.rnd_err_num {x B : ℝ} (hB : 1 / 1024 ≤ B) (h : |x| ≤ B) :
    |rnd x - x| ≤ B * (1 / 1000000000000000) := by
  have e53 : (2 : ℝ) ^ (-53 : ℤ) ≤ 1 / 1000000000000000 := by norm_num
  have hB0 : 0 < B := by linarith
  rcases le_or_lt ((2 : ℝ) ^ (-1022 : ℤ)) |x| with hn | hs
  · have h1 := rnd_rel hn
    obtain ⟨δ, hδ⟩ : ∃ δ : ℝ, δ = (2 : ℝ) ^ (-53 : ℤ) := ⟨_, rfl⟩
    rw [← hδ] at h1 e53
    have hδ0 : 0 ≤ δ := by rw [hδ]; exact (two_zpow_pos _).le
    calc |rnd x - x| ≤ δ * |x| := h1
      _ ≤ δ * B := mul_le_mul_of_nonneg_left h hδ0
      _ ≤ 1 / 1000000000000000 * B := mul_le_mul_of_nonneg_right e53 hB0.le
      _ = B * (1 / 1000000000000000) := by ring
  · have hs2 : |x| < (2 : ℝ) ^ ((-1022 : ℤ) + 1) :=
      lt_of_lt_of_le hs (two_zpow_mono (by norm_num))
    have h1 : |rnd x - x| ≤ (2 : ℝ) ^ ((-1022 : ℤ) - 53) := rnd_abs_le (by norm_num) hs2
    have h2 : (2 : ℝ) ^ ((-1022 : ℤ) - 53) ≤ (2 : ℝ) ^ (-70 : ℤ) := two_zpow_mono (by norm_num)
    have h3 : (2 : ℝ) ^ (-70 : ℤ) ≤ 1 / 1024 * (1 / 1000000000000000) := by norm_num
    have h4 : 1 / 1024 * (1 / 1000000000000000) ≤ B * (1 / 1000000000000000) :=
      mul_le_mul_of_nonneg_right hB (by norm_num)
    exact le_trans h1 (le_trans h2 (le_trans h3 h4))

/-- The expression returned by `deltaAngle` lies in `[0.17, 5]` for a `z_0` of
`[1.76, 3.4]`. -/
theorem Rounded.shell_large {z0 : ℝ} (h : 1.76 ≤ z0) (h' : z0 ≤ 3.4) :
    ∃ v : ℝ, 0.17 ≤ v ∧ v ≤ 5 ∧ Rounded.shell (fin z0) = fin v := by
  -- `sin`
  have hs : |Real.sin z0| ≤ 1 := Real.abs_sin_le_one z0
  have hu1 := abs_rnd_le_num (by norm_num) hs
  obtain ⟨u1, hu1e⟩ : ∃ u1, u1 = rnd (Real.sin z0) := ⟨_, rfl⟩
  rw [← hu1e] at hu1
  -- `* EARTHRAD`
  have hm : |u1 * 6371000| ≤ 6371000.001 := by
    rw [abs_mul, abs_of_pos (by norm_num : (0 : ℝ) < 6371000)]
    linarith
  have hu2 := abs_rnd_le_num (by norm_num) hm
  obtain ⟨u2, hu2e⟩ : ∃ u2, u2 = rnd (u1 * 6371000) := ⟨_, rfl⟩
  rw [← hu2e] at hu2
  -- `/ (EARTHRAD + 15)`
  have hq : |u2 / 6371015| ≤ 0.999999 := by
    rw [abs_div, abs_of_pos (by norm_num : (0 : ℝ) < 6371015), div_le_iff₀ (by norm_num)]
    linarith
  have hu3 := abs_rnd_le_num (by norm_num) hq
  obtain ⟨u3, hu3e⟩ : ∃ u3, u3 = rnd (u2 / 6371015) := ⟨_, rfl⟩
  rw [← hu3e] at hu3
  obtain ⟨hu3a, hu3b⟩ := abs_le.mp (le_trans hu3 (by norm_num : (0.999999 : ℝ)
    + 0.999999 * (1 / 1000000000000000) ≤ 1))
  -- `asin`
  have hpi := Real.pi_lt_d2
  have ha : |Real.arcsin u3| ≤ 1.575 := by
    rw [abs_le]
    have h1 := Real.arcsin_le_pi_div_two u3
    have h2 := Real.neg_pi_div_two_le_arcsin u3
    constructor <;> linarith
  have hu4 := abs_rnd_le_num (by norm_num) ha
  obtain ⟨u4, hu4e⟩ : ∃ u4, u4 = rnd (Real.arcsin u3) := ⟨_, rfl⟩
  rw [← hu4e] at hu4
  obtain ⟨hu4a, hu4b⟩ := abs_le.mp hu4
  -- the difference
  have hd : 0.18 ≤ z0 - u4 := by linarith
  obtain ⟨hv, hv'⟩ := rnd_bounds_num (le_trans (by norm_num) hd)
  refine ⟨rnd (z0 - u4), by linarith, by linarith, ?_⟩
  unfold Rounded.shell
  simp only [sin_fin, rn_fin, ofInt_eq, EARTHRAD, fin_mul_fin, Int.cast_ofNat, ← hu1e]
  rw [fin_div_fin _ (by norm_num), rn_fin]
  norm_num
  rw [← hu2e, ← hu3e, asin_fin hu3a hu3b, rn_fin, ← hu4e, fin_sub_fin, rn_fin]

theorem rnd_neg_int_10193600 : rnd (-10193600 : ℝ) = -10193600 := by
  have h := rnd_intCast (n := -10193600) (by norm_num)
  norm_num at h ⊢
  exact h

theorem rnd_neg_int_5096800 : rnd (-5096800 : ℝ) = -5096800 := by
  have h := rnd_intCast (n := -5096800) (by norm_num)
  norm_num at h ⊢
  exact h

theorem rnd_nat_num {n : ℕ} {v : ℝ} (hv : v = (n : ℝ)) (h : n < 2 ^ 53) : rnd v = v := by
  rw [hv]
  exact rnd_natCast h

/-- Input B: satellite `(12742000, 0, 0)`; the projection is `(6371000, 0, 0)`. -/
theorem Rounded.satProjection_B :
    Rounded.satProjection (fin 12742000) (fin 0) (fin 0) = (fin 6371000, fin 0, fin 0) :=
  Rounded.overhead_values.2.1

/-- Input B, ground station `(-3822600, -5096800, 0)`: the computed chord. -/
theorem Rounded.zenithAngle_B :
    Rounded.zenithAngle (fin 12742000) (fin 0) (fin 0) (fin (-3822600)) (fin (-5096800)) (fin 0)
      = (fin (rnd (Real.arctan (rnd (rnd (Real.sqrt 129886851200000) / 6371000)))),
         fin (rnd (Real.sqrt 129886851200000))) := by
  have hy : rnd ((0 : ℝ) ^ 2) ≤ (2 : ℝ) ^ (-7 : ℤ) := by
    rw [rnd_sq_zero]; exact (two_zpow_pos _).le
  have halt := Rounded.altSat_axis hy
  unfold Rounded.altSat at halt
  unfold Rounded.zenithAngle
  rw [Rounded.satProjection_B]
  dsimp only
  rw [halt]
  have e1 : rnd ((6371000 : ℝ) - -3822600) = 10193600 := by
    rw [show (6371000 : ℝ) - -3822600 = 10193600 by norm_num]
    exact rnd_nat_num (n := 10193600) (by norm_num) (by norm_num)
  have e2 : rnd ((0 : ℝ) - -5096800) = 5096800 := by
    rw [show (0 : ℝ) - -5096800 = 5096800 by norm_num]
    exact rnd_nat_num (n := 5096800) (by norm_num) (by norm_num)
  have e3 : rnd ((10193600 : ℝ) ^ 2) = 103909480960000 := by
    rw [show (10193600 : ℝ) ^ 2 = 103909480960000 by norm_num]
    exact rnd_nat_num (n := 103909480960000) (by norm_num) (by norm_num)
  have e4 : rnd ((5096800 : ℝ) ^ 2) = 25977370240000 := by
    rw [show (5096800 : ℝ) ^ 2 = 25977370240000 by norm_num]
    exact rnd_nat_num (n := 25977370240000) (by norm_num) (by norm_num)
  have e5 : rnd ((103909480960000 : ℝ) + 25977370240000) = 129886851200000 := by
    rw [show (103909480960000 : ℝ) + 25977370240000 = 129886851200000 by norm_num]
    exact rnd_nat_num (n := 129886851200000) (by norm_num) (by norm_num)
  have e6 : rnd ((129886851200000 : ℝ) + 0) = 129886851200000 := by
    rw [add_zero]
    exact rnd_nat_num (n := 129886851200000) (by norm_num) (by norm_num)
  have hh : rnd ((12742000 : ℝ) - 6371000) = 6371000 := by
    rw [show (12742000 : ℝ) - 6371000 = 6371000 by norm_num, rnd_6371000]
  simp only [fin_sub_fin, sub_self, rn_fin, rnd_zero, pow_fin_two, fin_add_fin, e1, e2, e3, e4,
    e5, rnd_sq_zero, e6, ofInt_eq, EARTHRAD, Int.cast_ofNat, hh]
  rw [sqrt_fin (by norm_num), rn_fin, fin_div_fin _ (by norm_num), rn_fin, atan_fin, rn_fin]

/-- Bounds on the computed chord of input B. -/
theorem chordB_bounds :
    11396790 ≤ rnd (Real.sqrt 129886851200000) ∧ rnd (Real.sqrt 129886851200000) ≤ 11396793 := by
  have h1 : (11396791 : ℝ) ≤ Real.sqrt 129886851200000 :=
    Real.le_sqrt_of_sq_le (by norm_num)
  have h2 : Real.sqrt 129886851200000 ≤ 11396792 := by
    rw [Real.sqrt_le_iff]
    constructor <;> norm_num
  obtain ⟨h3, h4⟩ := rnd_bounds_num (le_trans (by norm_num) h1)
  constructor <;> linarith

/-- Input B: the sum `zenAng + theta` lies in `[1.77, 3.38]`. -/
theorem Rounded.angleSum_B :
    ∃ w : ℝ, 1.77 ≤ w ∧ w ≤ 3.38 ∧
      Rounded.angleSum (fin 12742000) (fin 0) (fin 0) (fin (-3822600)) (fin (-5096800)) (fin 0)
        = fin w := by
  obtain ⟨hD1, hD2⟩ := chordB_bounds
  obtain ⟨D, hD⟩ : ∃ D, D = rnd (Real.sqrt 129886851200000) := ⟨_, rfl⟩
  rw [← hD] at hD1 hD2
  have hq1 : 1.788 ≤ D / 6371000 := by
    rw [le_div_iff₀ (by norm_num)]; linarith
  have hq2 : D / 6371000 ≤ 1.789 := by
    rw [div_le_iff₀ (by norm_num)]; linarith
  obtain ⟨hq3, hq4⟩ := rnd_bounds_num (le_trans (by norm_num) hq1)
  obtain ⟨q, hq⟩ : ∃ q, q = rnd (D / 6371000) := ⟨_, rfl⟩
  rw [← hq] at hq3 hq4
  have hpi := Real.pi_lt_d2
  have ha0 : 0 ≤ Real.arctan q := arctan_nonneg_of_nonneg (by linarith)
  have ha1 : Real.arctan q < Real.pi / 2 := Real.arctan_lt_pi_div_two q
  have hz0 : 0 ≤ rnd (Real.arctan q) := rnd_nonneg ha0
  have hz1 := abs_rnd_le_num (x := Real.arctan q) (B := 1.575) (by norm_num)
    (by rw [abs_of_nonneg ha0]; linarith)
  rw [abs_of_nonneg hz0] at hz1
  obtain ⟨zen, hzen⟩ : ∃ zen, zen = rnd (Real.arctan q) := ⟨_, rfl⟩
  rw [← hzen] at hz0 hz1
  have hs1 : 1.78 ≤ zen + q := by linarith
  obtain ⟨hw1, hw2⟩ := rnd_bounds_num (le_trans (by norm_num) hs1)
  refine ⟨rnd (zen + q), by linarith, by linarith, ?_⟩
  unfold Rounded.angleSum
  rw [Rounded.zenithAngle_B]
  simp only [ofInt_eq, EARTHRAD, Int.cast_ofNat, fin_div_fin _ (by norm_num : (6371000 : ℝ) ≠ 0),
    rn_fin, fin_add_fin, ← hD, ← hq, ← hzen]

/-- Input B: the computed `linearDisplacement` is a positive number, at most `32000000`. -/
theorem Rounded.linearDisplacement_B :
    ∃ l : ℝ, 0 < l ∧ l ≤ 32000000 ∧
      Rounded.linearDisplacement (fin 12742000) (fin 0) (fin 0) (fin (-3822600))
        (fin (-5096800)) (fin 0) = fin l := by
  obtain ⟨w, hw1, hw2, hw⟩ := Rounded.angleSum_B
  obtain ⟨z0, hz0, hz⟩ := Rounded.closure_close (w := w) (by linarith) (by linarith)
  have e51 : (2 : ℝ) ^ (-51 : ℤ) ≤ 1 / 100 := by norm_num
  obtain ⟨hz1, hz2⟩ := abs_le.mp (le_trans hz e51)
  obtain ⟨v, hv, hv', hs⟩ := Rounded.shell_large (show (1.76 : ℝ) ≤ z0 by linarith)
    (by linarith)
  obtain ⟨hl, hl'⟩ := rnd_bounds_num (x := 6371000 * v) (by linarith)
  refine ⟨rnd (6371000 * v), by linarith, by linarith, ?_⟩
  rw [Rounded.linearDisplacement_eq, hw, hz0, hs]
  simp only [ofInt_eq, fin_mul_fin, rn_fin, Int.cast_ofNat]

/-- The chord of input B as a real number. -/
theorem norm3_B : norm3 10193600 5096800 0 = Real.sqrt 129886851200000 := by
  unfold norm3
  norm_num

/-- The point `a + rnd (rnd (l / D) * Δ)` computed by one axis of the correction
lies within `10^-6` of the exact `a + l * Δ / r`, when `D` is the rounded value
of `r` and the magnitudes are those of a ground station and a displacement. -/
theorem translation_close {l D r Δ a : ℝ} (hl0 : 0 ≤ l) (hl1 : l ≤ 32000000)
    (hr0 : 11396791 ≤ r) (hD : |D - r| ≤ r * (1 / 1000000000000000))
    (hΔ : |Δ| ≤ 10193600) (ha : |a| ≤ 5096800) :
    |rnd (a + rnd (rnd (l / D) * Δ)) - (a + l * Δ / r)| ≤ 1 / 1000000 := by
  obtain ⟨hD1, hD2⟩ := abs_le.mp hD
  have hDlo : 11396790 ≤ D := by linarith
  have hD0 : 0 < D := by linarith
  have hr00 : 0 < r := by linarith
  obtain ⟨hΔ1, hΔ2⟩ := abs_le.mp hΔ
  obtain ⟨ha1, ha2⟩ := abs_le.mp ha
  -- the scale factor
  have hS0 : 0 ≤ l / D := div_nonneg hl0 hD0.le
  have hS1 : l / D ≤ 2.81 := by
    rw [div_le_iff₀ hD0]; linarith
  have hs := rnd_err_num (x := l / D) (B := 2.81) (by norm_num)
    (by rw [abs_of_nonneg hS0]; exact hS1)
  obtain ⟨s, hse⟩ : ∃ s, s = rnd (l / D) := ⟨_, rfl⟩
  rw [← hse] at hs ⊢
  obtain ⟨S, hSe⟩ : ∃ S, S = l / D := ⟨_, rfl⟩
  rw [← hSe] at hs hS0 hS1
  obtain ⟨hs1, hs2⟩ := abs_le.mp hs
  have hsabs : |s| ≤ 2.82 := by
    rw [abs_le]; constructor <;> linarith
  -- the product
  have hP0 : |s * Δ| ≤ 29000000 := by
    rw [abs_mul]
    calc |s| * |Δ| ≤ 2.82 * 10193600 :=
          mul_le_mul hsabs hΔ (abs_nonneg _) (by norm_num)
      _ ≤ 29000000 := by norm_num
  have hP := rnd_err_num (x := s * Δ) (B := 29000000) (by norm_num) hP0
  obtain ⟨P, hPe⟩ : ∃ P, P = rnd (s * Δ) := ⟨_, rfl⟩
  rw [← hPe] at hP ⊢
  obtain ⟨hP1, hP2⟩ := abs_le.mp hP
  obtain ⟨hP01, hP02⟩ := abs_le.mp hP0
  -- the sum
  have hT0 : |a + P| ≤ 35000000 := by
    rw [abs_le]; constructor <;> linarith
  have hT := rnd_err_num (x := a + P) (B := 35000000) (by norm_num) hT0
  obtain ⟨d, hde⟩ : ∃ d, d = rnd (a + P) := ⟨_, rfl⟩
  rw [← hde] at hT ⊢
  obtain ⟨hT1, hT2⟩ := abs_le.mp hT
  -- the error of the scale factor times the difference
  have hsΔ : |(s - S) * Δ| ≤ 2.81 * (1 / 1000000000000000) * 10193600 := by
    rw [abs_mul]
    exact mul_le_mul hs hΔ (abs_nonneg _) (by norm_num)
  obtain ⟨hsΔ1, hsΔ2⟩ := abs_le.mp hsΔ
  -- the error of the chord
  have hq : |S * Δ - l * Δ / r| ≤ 1 / 10000000 := by
    have e : S * Δ - l * Δ / r = l / D * (Δ * ((r - D) / r)) := by
      rw [hSe]
      field_simp
      ring
    have h1 : |(r - D) / r| ≤ 1 / 1000000000000000 := by
      rw [abs_div, abs_of_pos hr00, div_le_iff₀ hr00, abs_sub_comm]
      linarith
    have h2 : |Δ * ((r - D) / r)| ≤ 10193600 * (1 / 1000000000000000) := by
      rw [abs_mul]
      exact mul_le_mul hΔ h1 (abs_nonneg _) (by norm_num)
    rw [e, abs_mul, ← hSe, abs_of_nonneg hS0]
    calc S * |Δ * ((r - D) / r)| ≤ 2.81 * (10193600 * (1 / 1000000000000000)) :=
          mul_le_mul hS1 h2 (abs_nonneg _) (by norm_num)
      _ ≤ 1 / 10000000 := by norm_num
  obtain ⟨hq1, hq2⟩ := abs_le.mp hq
  have key : d - (a + l * Δ / r)
      = (d - (a + P)) + (P - s * Δ) + (s - S) * Δ + (S * Δ - l * Δ / r) := by ring
  rw [key, abs_le]
  constructor <;> norm_num at hT1 hT2 hP1 hP2 hsΔ1 hsΔ2 hq1 hq2 ⊢ <;> linarith

end RoundedLemmas

/-! ## The properties -/

/-- C1: for every point `p = (x, y, z)` other than the origin, `satProjection`
returns `t * p` with `t = EARTHRAD / |p| > 0`, and the Euclidean norm of the
returned point is exactly `EARTHRAD = 6371000`. -/
theorem satProjection_on_sphere (x y z : ℝ) (h : ¬ (x = 0 ∧ y = 0 ∧ z = 0)) :
    ∃ t : ℝ, t = 6371000 / Real.sqrt (x ^ 2 + y ^ 2 + z ^ 2) ∧ 0 < t ∧
      satProjection (Dbl.fin x) (Dbl.fin y) (Dbl.fin z)
        = (Dbl.fin (t * x), Dbl.fin (t * y), Dbl.fin (t * z)) ∧
      Real.sqrt ((t * x) ^ 2 + (t * y) ^ 2 + (t * z) ^ 2) = 6371000 := by
  have hp : 0 < norm3 x y z := norm3_pos h
  refine ⟨6371000 / norm3 x y z, rfl, by positivity, satProjection_fin h, ?_⟩
  have ht : (0 : ℝ) ≤ 6371000 / norm3 x y z := by positivity
  have hs := norm3_smul ht x y z
  rw [div_mul_cancel₀ _ hp.ne'] at hs
  exact hs

/-- Witness of C1 at the point `(3, 4, 12)`. -/
theorem satProjection_on_sphere_witness :
    ¬ ((3 : ℝ) = 0 ∧ (4 : ℝ) = 0 ∧ (12 : ℝ) = 0) ∧
    ∃ t : ℝ, t = 6371000 / Real.sqrt ((3 : ℝ) ^ 2 + 4 ^ 2 + 12 ^ 2) ∧ 0 < t ∧
      satProjection (Dbl.fin 3) (Dbl.fin 4) (Dbl.fin 12)
        = (Dbl.fin (t * 3), Dbl.fin (t * 4), Dbl.fin (t * 12)) ∧
      Real.sqrt ((t * 3) ^ 2 + (t * 4) ^ 2 + (t * 12) ^ 2) = 6371000 :=
  ⟨by norm_num, satProjection_on_sphere 3 4 12 (by norm_num)⟩

/-- C3, as stated, fails on the code: in double arithmetic, for the satellite
`(12742000, 2^-40, 0)` and the ground station `(6371000, 0, 0)` the sum
`zenAng + theta` (`Rounded.angleSum`) is a number `w > 0`, but the source
expression `PI - (PI - w)` (`Rounded.closure`) evaluates to `0`, not to `w`; so
`deltaAngle` returns `0`, whereas the formula of the claim
`z0 - asin(sin(z0) * EARTHRAD / (EARTHRAD + 15))` (`Rounded.shell`) taken at
`z0 = w` has a positive value `v`. -/
theorem closure_collapses_small_sum :
    ∃ w v : ℝ, 0 < w ∧ 0 < v ∧
      Rounded.angleSum (Dbl.fin 12742000) (Dbl.fin ((2 : ℝ) ^ (-40 : ℤ))) (Dbl.fin 0)
          (Dbl.fin 6371000) (Dbl.fin 0) (Dbl.fin 0) = Dbl.fin w ∧
      Rounded.closure (Dbl.fin w) = Dbl.fin 0 ∧
      Rounded.deltaAngle (Dbl.fin 12742000) (Dbl.fin ((2 : ℝ) ^ (-40 : ℤ))) (Dbl.fin 0)
          (Dbl.fin 6371000) (Dbl.fin 0) (Dbl.fin 0) = Dbl.fin 0 ∧
      Rounded.shell (Dbl.fin w) = Dbl.fin v := by
  obtain ⟨w, hw1, hw2, hw⟩ := Rounded.angleSum_A
  obtain ⟨v, hv, hs⟩ := Rounded.shell_small hw1 hw2
  have hw0 : 0 < w := lt_of_lt_of_le (Dbl.two_zpow_pos _) hw1
  have hc : Rounded.closure (Dbl.fin w) = Dbl.fin 0 :=
    Rounded.closure_small hw0.le (lt_trans hw2 (by norm_num))
  refine ⟨w, v, hw0, hv, hw, hc, ?_, hs⟩
  rw [Rounded.deltaAngle_eq_shell, hw, hc, Rounded.shell_zero]

/-- C3, amended: in double arithmetic, for every satellite and ground station
(any `double`s) `deltaAngle` equals
`z_0 - asin(sin(z_0) * EARTHRAD / (EARTHRAD + 15))` (`Rounded.shell`), every
operation rounded, where `z_0` is the value of the source expression
`PI - (PI - (zenAng + theta))` (`Rounded.closure`), `theta = distProjToGS /
EARTHRAD` and `(zenAng, distProjToGS)` is what `zenithAngle` returns; and
whenever the sum `zenAng + theta` is a number `w` of `[0, 3.9]`, `z_0` is a
number within `2^-51` of `w`. -/
theorem deltaAngle_formula_rounded (x y z a b c : Dbl) (w : ℝ)
    (hw : Rounded.angleSum x y z a b c = Dbl.fin w) (h0 : 0 ≤ w) (h1 : w ≤ 3.9) :
    Rounded.angleSum x y z a b c
      = Dbl.rn ((Rounded.zenithAngle x y z a b c).1
          + Dbl.rn ((Rounded.zenithAngle x y z a b c).2 / Dbl.ofInt EARTHRAD)) ∧
    (∀ u : Dbl, Rounded.closure u = Dbl.rn (Rounded.PI - Dbl.rn (Rounded.PI - u))) ∧
    (∀ u : Dbl, Rounded.shell u
      = Dbl.rn (u - Dbl.rn (Dbl.asin (Dbl.rn
          (Dbl.rn (Dbl.rn (Dbl.sin u) * Dbl.ofInt EARTHRAD) / Dbl.ofInt (EARTHRAD + 15)))))) ∧
    Rounded.deltaAngle x y z a b c
      = Rounded.shell (Rounded.closure (Rounded.angleSum x y z a b c)) ∧
    ∃ z0 : ℝ, Rounded.closure (Rounded.angleSum x y z a b c) = Dbl.fin z0 ∧
      |z0 - w| ≤ (2 : ℝ) ^ (-51 : ℤ) := by
  obtain ⟨z0, hz0, hz⟩ := Rounded.closure_close h0 h1
  refine ⟨rfl, fun _ => rfl, fun _ => rfl, rfl, z0, ?_, hz⟩
  rw [hw]
  exact hz0

/-- Witness of C3 (amended) at the satellite `(12742000, 0, 0)` and the ground
station `(-3822600, -5096800, 0)`, where the sum `zenAng + theta` lies in
`[1.77, 3.38]`. -/
theorem deltaAngle_formula_rounded_witness :
    ∃ w : ℝ, (0 ≤ w ∧ w ≤ 3.9 ∧
      Rounded.angleSum (Dbl.fin 12742000) (Dbl.fin 0) (Dbl.fin 0)
          (Dbl.fin (-3822600)) (Dbl.fin (-5096800)) (Dbl.fin 0) = Dbl.fin w) ∧
      ∃ z0 : ℝ,
        Rounded.closure (Rounded.angleSum (Dbl.fin 12742000) (Dbl.fin 0) (Dbl.fin 0)
          (Dbl.fin (-3822600)) (Dbl.fin (-5096800)) (Dbl.fin 0)) = Dbl.fin z0 ∧
        |z0 - w| ≤ (2 : ℝ) ^ (-51 : ℤ) := by
  obtain ⟨w, hw1, hw2, hw⟩ := Rounded.angleSum_B
  have h0 : 0 ≤ w := by linarith
  have h1 : w ≤ 3.9 := by linarith
  exact ⟨w, ⟨h0, h1, hw⟩,
    (deltaAngle_formula_rounded (Dbl.fin 12742000) (Dbl.fin 0) (Dbl.fin 0) (Dbl.fin (-3822600))
      (Dbl.fin (-5096800)) (Dbl.fin 0) w hw h0 h1).2.2.2.2⟩

/-- C4 fails on the code: in iteration 1 of `main` (satellite
`(6870993.553012, 9412.472374, 0)`, ground station `(6371000, 0, 0)`) the linear
displacement `L` is nonzero and the loop body moves the x coordinate by
`L / |proj - g|` times `5`, the integer part of the coordinate difference
`5.977...` computed by `abs`, not by `L / |proj - g|` times the real absolute
difference `|proj_x - g_x|`. -/
theorem mainIter_one_truncates :
    ∃ L : ℝ, L ≠ 0 ∧
      Dbl.ofInt 6371000 * deltaAngle (Dbl.fin 6870993.553012) (Dbl.fin 9412.472374) (Dbl.fin 0)
          (Dbl.fin 6371000) (Dbl.fin 0) (Dbl.fin 0) = Dbl.fin L ∧
      mainIter 1
        = some (Dbl.fin (6371000 - L / chord 6870993.553012 9412.472374 0 6371000 0 0 * 5),
                Dbl.fin (0 + L / chord 6870993.553012 9412.472374 0 6371000 0 0 * 8727),
                Dbl.fin (0 - L / chord 6870993.553012 9412.472374 0 6371000 0 0 * 0)) ∧
      6371000 - L / chord 6870993.553012 9412.472374 0 6371000 0 0 * 5
        ≠ 6371000 - L / chord 6870993.553012 9412.472374 0 6371000 0 0
            * |6371000 / norm3 6870993.553012 9412.472374 0 * 6870993.553012 - 6371000| := by
  obtain ⟨hn1, hn2⟩ := fixture1_norm
  have hx := proj_coord_bounds (by norm_num) hn1 hn2 (by norm_num : (0 : ℝ) < 6870993.553012)
  have hy := proj_coord_bounds (by norm_num) hn1 hn2 (by norm_num : (0 : ℝ) < 9412.472374)
  have hx1 : 6370994.02 < 6371000 / norm3 6870993.553012 9412.472374 0 * 6870993.553012 :=
    lt_of_le_of_lt (by norm_num) hx.1
  have hx2 : 6371000 / norm3 6870993.553012 9412.472374 0 * 6870993.553012 < 6370994.03 :=
    lt_of_lt_of_le hx.2 (by norm_num)
  have hy1 : 8727.5 < 6371000 / norm3 6870993.553012 9412.472374 0 * 9412.472374 :=
    lt_of_le_of_lt (by norm_num) hy.1
  have hy2 : 6371000 / norm3 6870993.553012 9412.472374 0 * 9412.472374 < 8727.6 :=
    lt_of_lt_of_le hy.2 (by norm_num)
  obtain ⟨L, hL, hch, -, hLeq, hmb⟩ := mainBody_planar 5 8727
    (lt_trans (by norm_num) hn1) (by push_cast; linarith) (by push_cast; linarith)
    (by push_cast; linarith) (by push_cast; linarith) (by norm_num) (by norm_num)
    (by norm_num) (by norm_num)
  have hsc : 0 < L / chord 6870993.553012 9412.472374 0 6371000 0 0 := div_pos hL hch
  refine ⟨L, hL.ne', hLeq, ?_, ?_⟩
  · unfold mainIter
    obtain ⟨e1, e2, e3, e4, e5, e6⟩ := fixture1
    rw [e1, e2, e3, e4, e5, e6, hmb]
    norm_num
  · rw [abs_of_neg (by linarith)]
    intro h
    have h2 := mul_left_cancel₀ hsc.ne' (sub_right_injective h)
    linarith

/-- C5: for every satellite and ground station (any `double`s), `zenithAngle`
stores the Euclidean chord `|satProjection(s) - g|` in its output argument and
returns `atan(chord / (|s| - EARTHRAD))`; for a finite satellite position that
is neither the origin nor on the reference sphere these are the real numbers
`chord` and `arctan (chord / (|s| - 6371000))`. -/
theorem zenithAngle_formula :
    (∀ x y z a b c : Dbl,
      (zenithAngle x y z a b c).2
          = Dbl.sqrt (Dbl.pow ((satProjection x y z).1 - a) 2
              + Dbl.pow ((satProjection x y z).2.1 - b) 2
              + Dbl.pow ((satProjection x y z).2.2 - c) 2) ∧
      (zenithAngle x y z a b c).1
          = Dbl.atan ((zenithAngle x y z a b c).2
              / (Dbl.sqrt (Dbl.pow x 2 + Dbl.pow y 2 + Dbl.pow z 2) - Dbl.ofInt EARTHRAD))) ∧
    (∀ x y z a b c : ℝ, ¬ (x = 0 ∧ y = 0 ∧ z = 0) → norm3 x y z ≠ 6371000 →
      zenithAngle (Dbl.fin x) (Dbl.fin y) (Dbl.fin z) (Dbl.fin a) (Dbl.fin b) (Dbl.fin c)
        = (Dbl.fin (Real.arctan (chord x y z a b c / (norm3 x y z - 6371000))),
           Dbl.fin (chord x y z a b c))) :=
  ⟨fun _ _ _ _ _ _ => ⟨rfl, rfl⟩, fun _ _ _ a b c h hR => zenithAngle_fin h hR a b c⟩

/-- Witness of C5 at the satellite `(0, 0, 2)` and ground station `(1, 0, 0)`. -/
theorem zenithAngle_formula_witness :
    (¬ ((0 : ℝ) = 0 ∧ (0 : ℝ) = 0 ∧ (2 : ℝ) = 0) ∧ norm3 0 0 2 ≠ 6371000) ∧
      zenithAngle (Dbl.fin 0) (Dbl.fin 0) (Dbl.fin 2) (Dbl.fin 1) (Dbl.fin 0) (Dbl.fin 0)
        = (Dbl.fin (Real.arctan (chord 0 0 2 1 0 0 / (norm3 0 0 2 - 6371000))),
           Dbl.fin (chord 0 0 2 1 0 0)) := by
  have hn : norm3 0 0 2 = 2 := by
    unfold norm3
    rw [show ((0 : ℝ) ^ 2 + 0 ^ 2 + 2 ^ 2) = 2 ^ 2 by norm_num]
    exact Real.sqrt_sq (by norm_num)
  have h0 : ¬ ((0 : ℝ) = 0 ∧ (0 : ℝ) = 0 ∧ (2 : ℝ) = 0) := by norm_num
  have hR : norm3 0 0 2 ≠ 6371000 := by rw [hn]; norm_num
  exact ⟨⟨h0, hR⟩, zenithAngle_formula.2 0 0 2 1 0 0 h0 hR⟩

/-- C6 fails on the code: in iteration 2 of `main` (satellite
`(6870974.196290, 18830.668804, 0)`, ground station `(6371000, 0, 0)`) the linear
displacement `L` is positive, the corrected point computed by the loop body is
not `g + (L / |proj - g|) * (proj - g)`, and the distance that `main` prints
between the corrected point and `g` is smaller than `L`. -/
theorem mainIter_two_distance_short :
    ∃ L D : ℝ, 0 < L ∧
      Dbl.ofInt 6371000 * deltaAngle (Dbl.fin 6870974.196290) (Dbl.fin 18830.668804) (Dbl.fin 0)
          (Dbl.fin 6371000) (Dbl.fin 0) (Dbl.fin 0) = Dbl.fin L ∧
      mainIter 2
        = some (Dbl.fin (6371000 - L / chord 6870974.196290 18830.668804 0 6371000 0 0 * 23),
                Dbl.fin (0 + L / chord 6870974.196290 18830.668804 0 6371000 0 0 * 17460),
                Dbl.fin (0 - L / chord 6870974.196290 18830.668804 0 6371000 0 0 * 0)) ∧
      6371000 - L / chord 6870974.196290 18830.668804 0 6371000 0 0 * 23
        ≠ 6371000 + L / chord 6870974.196290 18830.668804 0 6371000 0 0
            * (6371000 / norm3 6870974.196290 18830.668804 0 * 6870974.196290 - 6371000) ∧
      printedDistance
          (Dbl.fin (6371000 - L / chord 6870974.196290 18830.668804 0 6371000 0 0 * 23))
          (Dbl.fin (0 + L / chord 6870974.196290 18830.668804 0 6371000 0 0 * 17460))
          (Dbl.fin (0 - L / chord 6870974.196290 18830.668804 0 6371000 0 0 * 0))
          (Dbl.fin 6371000) (Dbl.fin 0) (Dbl.fin 0) = Dbl.fin D ∧
      D < L := by
  obtain ⟨hn1, hn2⟩ := fixture2_norm
  have hx := proj_coord_bounds (by norm_num) hn1 hn2 (by norm_num : (0 : ℝ) < 6870974.196290)
  have hy := proj_coord_bounds (by norm_num) hn1 hn2 (by norm_num : (0 : ℝ) < 18830.668804)
  have hx1 : 6370976.07 < 6371000 / norm3 6870974.196290 18830.668804 0 * 6870974.196290 :=
    lt_of_le_of_lt (by norm_num) hx.1
  have hx2 : 6371000 / norm3 6870974.196290 18830.668804 0 * 6870974.196290 < 6370976.08 :=
    lt_of_lt_of_le hx.2 (by norm_num)
  have hy1 : 17460.3 < 6371000 / norm3 6870974.196290 18830.668804 0 * 18830.668804 :=
    lt_of_le_of_lt (by norm_num) hy.1
  have hy2 : 6371000 / norm3 6870974.196290 18830.668804 0 * 18830.668804 < 17460.4 :=
    lt_of_lt_of_le hy.2 (by norm_num)
  obtain ⟨L, hL, hchpos, hchsq, hLeq, hmb⟩ := mainBody_planar 23 17460
    (lt_trans (by norm_num) hn1) (by push_cast; linarith) (by push_cast; linarith)
    (by push_cast; linarith) (by push_cast; linarith) (by norm_num) (by norm_num)
    (by norm_num) (by norm_num)
  obtain ⟨p, hp⟩ : ∃ p : ℝ,
    p = 6371000 / norm3 6870974.196290 18830.668804 0 * 6870974.196290 := ⟨_, rfl⟩
  obtain ⟨q, hq⟩ : ∃ q : ℝ,
    q = 6371000 / norm3 6870974.196290 18830.668804 0 * 18830.668804 := ⟨_, rfl⟩
  rw [← hp] at hx1 hx2 hchsq ⊢
  rw [← hq] at hy1 hy2 hchsq
  obtain ⟨ch, hch⟩ : ∃ ch : ℝ, ch = chord 6870974.196290 18830.668804 0 6371000 0 0 :=
    ⟨_, rfl⟩
  rw [← hch] at hchpos hchsq hmb ⊢
  have hsc : 0 < L / ch := div_pos hL hchpos
  refine ⟨L, norm3 (6371000 - L / ch * 23 - 6371000) (0 + L / ch * 17460 - 0)
    (0 - L / ch * 0 - 0), hL, hLeq, ?_, ?_, ?_, ?_⟩
  · unfold mainIter
    obtain ⟨e1, e2, e3, e4, e5, e6⟩ := fixture2
    rw [e1, e2, e3, e4, e5, e6, hmb]
    norm_num
  · intro h
    have h2 : L / ch * 23 = L / ch * (6371000 - p) := by linarith
    have := mul_left_cancel₀ hsc.ne' h2
    linarith
  · unfold printedDistance
    simp only [Dbl.fin_sub_fin]
    exact sqrt_sumsq_fin _ _ _
  · unfold norm3
    rw [Real.sqrt_lt' hL]
    have hLch : L = L / ch * ch := (div_mul_cancel₀ L hchpos.ne').symm
    have hs2 : 0 < (L / ch) ^ 2 := by positivity
    have e : (6371000 - L / ch * 23 - 6371000) ^ 2 + (0 + L / ch * 17460 - 0) ^ 2
        + (0 - L / ch * 0 - 0) ^ 2
        = (L / ch) ^ 2 * (23 ^ 2 + 17460 ^ 2) := by ring
    have e2 : L ^ 2 = (L / ch) ^ 2 * ch ^ 2 := by
      rw [← mul_pow, ← hLch]
    rw [e, e2, hchsq]
    apply mul_lt_mul_of_pos_left _ hs2
    nlinarith

/-- C8: idempotent projection: for every point `p` with `|p| = EARTHRAD`,
`satProjection` returns `p` itself. -/
theorem satProjection_idempotent (x y z : ℝ)
    (h : Real.sqrt (x ^ 2 + y ^ 2 + z ^ 2) = 6371000) :
    satProjection (Dbl.fin x) (Dbl.fin y) (Dbl.fin z) = (Dbl.fin x, Dbl.fin y, Dbl.fin z) := by
  have hn : norm3 x y z = 6371000 := h
  have h0 : ¬ (x = 0 ∧ y = 0 ∧ z = 0) := by
    intro h0
    rw [(norm3_eq_zero_iff x y z).mpr h0] at hn
    norm_num at hn
  rw [satProjection_fin h0, hn]
  norm_num

/-- Witness of C8 at the point `(6371000, 0, 0)`. -/
theorem satProjection_idempotent_witness :
    Real.sqrt ((6371000 : ℝ) ^ 2 + 0 ^ 2 + 0 ^ 2) = 6371000 ∧
      satProjection (Dbl.fin 6371000) (Dbl.fin 0) (Dbl.fin 0)
        = (Dbl.fin 6371000, Dbl.fin 0, Dbl.fin 0) :=
  have h : Real.sqrt ((6371000 : ℝ) ^ 2 + 0 ^ 2 + 0 ^ 2) = 6371000 := by
    rw [show ((6371000 : ℝ) ^ 2 + 0 ^ 2 + 0 ^ 2) = 6371000 ^ 2 by norm_num]
    exact Real.sqrt_sq (by norm_num)
  ⟨h, satProjection_idempotent 6371000 0 0 h⟩

/-- C9: for every satellite `s` with `|s| > EARTHRAD` and every ground station
`g`, the value returned by `zenithAngle` is a number in `[0, π/2)`. -/
theorem zenithAngle_range (x y z a b c : ℝ)
    (hs : 6371000 < Real.sqrt (x ^ 2 + y ^ 2 + z ^ 2)) :
    ∃ θ : ℝ,
      (zenithAngle (Dbl.fin x) (Dbl.fin y) (Dbl.fin z) (Dbl.fin a) (Dbl.fin b) (Dbl.fin c)).1
        = Dbl.fin θ ∧ 0 ≤ θ ∧ θ < Real.pi / 2 := by
  have hn : 6371000 < norm3 x y z := hs
  have h0 : ¬ (x = 0 ∧ y = 0 ∧ z = 0) := by
    intro h0
    rw [(norm3_eq_zero_iff x y z).mpr h0] at hn
    norm_num at hn
  refine ⟨_, by rw [zenithAngle_fin h0 hn.ne' a b c], ?_, Real.arctan_lt_pi_div_two _⟩
  rw [← Real.arctan_zero]
  apply Real.arctan_strictMono.monotone
  exact div_nonneg (chord_nonneg _ _ _ _ _ _) (by linarith)

/-- Witness of C9 at the satellite `(6871000, 0, 0)` and the ground station
`(0, 6371000, 0)`. -/
theorem zenithAngle_range_witness :
    (6371000 : ℝ) < Real.sqrt ((6871000 : ℝ) ^ 2 + 0 ^ 2 + 0 ^ 2) ∧
    ∃ θ : ℝ,
      (zenithAngle (Dbl.fin 6871000) (Dbl.fin 0) (Dbl.fin 0)
          (Dbl.fin 0) (Dbl.fin 6371000) (Dbl.fin 0)).1
        = Dbl.fin θ ∧ 0 ≤ θ ∧ θ < Real.pi / 2 :=
  have h : (6371000 : ℝ) < Real.sqrt ((6871000 : ℝ) ^ 2 + 0 ^ 2 + 0 ^ 2) := by
    rw [show ((6871000 : ℝ) ^ 2 + 0 ^ 2 + 0 ^ 2) = 6871000 ^ 2 by norm_num,
      Real.sqrt_sq (by norm_num)]
    norm_num
  ⟨h, zenithAngle_range 6871000 0 0 0 6371000 0 h⟩

/-- C10, as stated, fails: for the satellite at the origin (ground station
`(6371000, 0, 0)`) the argument that `deltaAngle` passes to `asin` is NaN, which
is no number of `[-1, 1]`. -/
theorem asinArg_origin_nan :
    asinArg (closureAngle (Dbl.fin 0) (Dbl.fin 0) (Dbl.fin 0)
        (Dbl.fin 6371000) (Dbl.fin 0) (Dbl.fin 0)) = Dbl.nan ∧
    ¬ ∃ r : ℝ, asinArg (closureAngle (Dbl.fin 0) (Dbl.fin 0) (Dbl.fin 0)
        (Dbl.fin 6371000) (Dbl.fin 0) (Dbl.fin 0)) = Dbl.fin r ∧ -1 ≤ r ∧ r ≤ 1 := by
  have hsp : satProjection (Dbl.fin 0) (Dbl.fin 0) (Dbl.fin 0)
      = (Dbl.nan, Dbl.nan, Dbl.nan) := by
    unfold satProjection
    rw [sqrt_sumsq_fin]
    have hn : norm3 0 0 0 = 0 := (norm3_eq_zero_iff 0 0 0).mpr ⟨rfl, rfl, rfl⟩
    have hdiv : Dbl.ofInt EARTHRAD / Dbl.fin 0 = Dbl.pinf := by
      show (if (0 : ℝ) = 0 then
          (if 0 < ((EARTHRAD : ℤ) : ℝ) then Dbl.pinf
            else if ((EARTHRAD : ℤ) : ℝ) < 0 then Dbl.ninf else Dbl.nan)
          else Dbl.fin (((EARTHRAD : ℤ) : ℝ) / 0)) = Dbl.pinf
      rw [if_pos rfl, if_pos (by norm_num [EARTHRAD])]
    have hmul : Dbl.pinf * Dbl.fin 0 = Dbl.nan := by
      show (if (0 : ℝ) < 0 then Dbl.pinf else if (0 : ℝ) < 0 then Dbl.ninf else Dbl.nan)
        = Dbl.nan
      simp
    rw [hn]
    dsimp only
    rw [hdiv, hmul]
  have hnan : asinArg (closureAngle (Dbl.fin 0) (Dbl.fin 0) (Dbl.fin 0)
      (Dbl.fin 6371000) (Dbl.fin 0) (Dbl.fin 0)) = Dbl.nan := by
    unfold closureAngle zenithAngle
    rw [hsp]
    dsimp only
    rw [pi_sub_pi_sub]
    have hp : Dbl.pow (Dbl.nan - Dbl.fin 6371000) 2 = Dbl.nan := by
      show (if (2 : ℝ) = 0 then Dbl.fin 1 else Dbl.nan) = Dbl.nan
      norm_num
    rw [hp]
    rfl
  refine ⟨hnan, ?_⟩
  rw [hnan]
  rintro ⟨r, hr, -⟩
  cases hr

/-- C10, amended: for every satellite `s` other than the origin and every
ground station `g`, unless `|s| = EARTHRAD` and `satProjection(s) = g` (chord
zero), the argument `sin(z0) * EARTHRAD / (EARTHRAD + 15)` that `deltaAngle`
passes to `asin` is a number strictly inside `[-1, 1]`. -/
theorem asinArg_in_domain (x y z a b c : ℝ) (h0 : ¬ (x = 0 ∧ y = 0 ∧ z = 0))
    (hdeg : ¬ (Real.sqrt (x ^ 2 + y ^ 2 + z ^ 2) = 6371000 ∧ chord x y z a b c = 0)) :
    ∃ r : ℝ,
      asinArg (closureAngle (Dbl.fin x) (Dbl.fin y) (Dbl.fin z)
          (Dbl.fin a) (Dbl.fin b) (Dbl.fin c)) = Dbl.fin r ∧ -1 < r ∧ r < 1 := by
  by_cases hR : norm3 x y z = 6371000
  · have hd : chord x y z a b c ≠ 0 := fun hd => hdeg ⟨hR, hd⟩
    have hz := zenithAngle_surface hR a b c hd
    exact ⟨_, by rw [(closure_delta_of_zenith hz).1, asinArg_fin], asinArg_bounds _⟩
  · have hz := zenithAngle_fin h0 hR a b c
    exact ⟨_, by rw [(closure_delta_of_zenith hz).1, asinArg_fin], asinArg_bounds _⟩

/-- Witness of C10 (amended) at the satellite `(6871000, 0, 0)` and the ground
station `(0, 6371000, 0)`. -/
theorem asinArg_in_domain_witness :
    (¬ ((6871000 : ℝ) = 0 ∧ (0 : ℝ) = 0 ∧ (0 : ℝ) = 0) ∧
      ¬ (Real.sqrt ((6871000 : ℝ) ^ 2 + 0 ^ 2 + 0 ^ 2) = 6371000
          ∧ chord 6871000 0 0 0 6371000 0 = 0)) ∧
    ∃ r : ℝ,
      asinArg (closureAngle (Dbl.fin 6871000) (Dbl.fin 0) (Dbl.fin 0)
          (Dbl.fin 0) (Dbl.fin 6371000) (Dbl.fin 0)) = Dbl.fin r ∧ -1 < r ∧ r < 1 :=
  have h0 : ¬ ((6871000 : ℝ) = 0 ∧ (0 : ℝ) = 0 ∧ (0 : ℝ) = 0) := by norm_num
  have hdeg : ¬ (Real.sqrt ((6871000 : ℝ) ^ 2 + 0 ^ 2 + 0 ^ 2) = 6371000
      ∧ chord 6871000 0 0 0 6371000 0 = 0) := by
    rw [show ((6871000 : ℝ) ^ 2 + 0 ^ 2 + 0 ^ 2) = 6871000 ^ 2 by norm_num,
      Real.sqrt_sq (by norm_num)]
    norm_num
  ⟨⟨h0, hdeg⟩, asinArg_in_domain 6871000 0 0 0 6371000 0 h0 hdeg⟩

/-- C11, as stated, fails: for the spacecraft position `(6371000, 0, 0)`, of
magnitude `EARTHRAD`, `zenithAngle` returns NaN when the ground station is the
same point, and the angle `π/2 = atan(+inf)`, computed from the division by the
zero height, when the ground station is `(0, 6371000, 0)`. -/
theorem zenithAngle_surface_returns :
    zenithAngle (Dbl.fin 6371000) (Dbl.fin 0) (Dbl.fin 0)
        (Dbl.fin 6371000) (Dbl.fin 0) (Dbl.fin 0) = (Dbl.nan, Dbl.fin 0) ∧
    (zenithAngle (Dbl.fin 6371000) (Dbl.fin 0) (Dbl.fin 0)
        (Dbl.fin 0) (Dbl.fin 6371000) (Dbl.fin 0)).1 = Dbl.fin (Real.pi / 2) :=
  ⟨zenithAngle_surface_nan norm3_R00 6371000 0 0 chord_R00_self,
    by rw [zenithAngle_surface norm3_R00 0 6371000 0 chord_R00_0R0_pos.ne']⟩

/-- C11, amended: for every spacecraft position `s` with `|s| = EARTHRAD` and
every ground station `g`, `zenithAngle` does not fail; it returns the angle
`π/2` (the `atan` of `chord / 0 = +inf`) together with the chord when
`satProjection(s) ≠ g`, and NaN (the `atan` of `0 / 0`) with chord `0` when
`satProjection(s) = g`. -/
theorem zenithAngle_on_sphere (x y z a b c : ℝ)
    (hs : Real.sqrt (x ^ 2 + y ^ 2 + z ^ 2) = 6371000) :
    (chord x y z a b c ≠ 0 →
      zenithAngle (Dbl.fin x) (Dbl.fin y) (Dbl.fin z) (Dbl.fin a) (Dbl.fin b) (Dbl.fin c)
        = (Dbl.fin (Real.pi / 2), Dbl.fin (chord x y z a b c))) ∧
    (chord x y z a b c = 0 →
      zenithAngle (Dbl.fin x) (Dbl.fin y) (Dbl.fin z) (Dbl.fin a) (Dbl.fin b) (Dbl.fin c)
        = (Dbl.nan, Dbl.fin 0)) :=
  ⟨fun hd => zenithAngle_surface hs a b c hd, fun hd => zenithAngle_surface_nan hs a b c hd⟩

/-- Witness of C11 (amended) at the spacecraft position `(6371000, 0, 0)` and
the ground station `(0, 6371000, 0)`. -/
theorem zenithAngle_on_sphere_witness :
    (Real.sqrt ((6371000 : ℝ) ^ 2 + 0 ^ 2 + 0 ^ 2) = 6371000 ∧
      chord 6371000 0 0 0 6371000 0 ≠ 0) ∧
    zenithAngle (Dbl.fin 6371000) (Dbl.fin 0) (Dbl.fin 0)
        (Dbl.fin 0) (Dbl.fin 6371000) (Dbl.fin 0)
      = (Dbl.fin (Real.pi / 2), Dbl.fin (chord 6371000 0 0 0 6371000 0)) :=
  ⟨⟨norm3_R00, chord_R00_0R0_pos.ne'⟩,
    (zenithAngle_on_sphere 6371000 0 0 0 6371000 0 norm3_R00).1 chord_R00_0R0_pos.ne'⟩

/-- C12, as stated, fails on the code: in double arithmetic, for the satellite
`(12742000, 0, 0)` and the ground station `g = (-3822600, -5096800, 0)` the
linear displacement `L` is a nonzero number and the projection
`(6371000, 0, 0)` differs from `g` on two axes, yet the point produced by the
per-axis branches of `main` is the general translation
`g + (L / |proj - g|) * (proj - g)` evaluated in double arithmetic
(`Rounded.translate`), and it lies within `10^-6` on each axis of the exact
point `g + L * (proj - g) / |proj - g|`, where
`proj - g = (10193600, 5096800, 0)`. -/
theorem perAxis_matches_translation :
    ∃ l d e : ℝ, l ≠ 0 ∧
      Rounded.linearDisplacement (Dbl.fin 12742000) (Dbl.fin 0) (Dbl.fin 0)
          (Dbl.fin (-3822600)) (Dbl.fin (-5096800)) (Dbl.fin 0) = Dbl.fin l ∧
      Rounded.satProjection (Dbl.fin 12742000) (Dbl.fin 0) (Dbl.fin 0)
        = (Dbl.fin 6371000, Dbl.fin 0, Dbl.fin 0) ∧
      (6371000 : ℝ) ≠ -3822600 ∧ (0 : ℝ) ≠ -5096800 ∧
      Rounded.mainBody (Dbl.fin 12742000) (Dbl.fin 0) (Dbl.fin 0)
          (Dbl.fin (-3822600)) (Dbl.fin (-5096800)) (Dbl.fin 0)
        = some
          (Rounded.translate (Dbl.fin (-3822600)) (Dbl.fin l)
              (Rounded.distProjSat2GS (Dbl.fin 12742000) (Dbl.fin 0) (Dbl.fin 0)
                (Dbl.fin (-3822600)) (Dbl.fin (-5096800)) (Dbl.fin 0)) (Dbl.fin 6371000),
           Rounded.translate (Dbl.fin (-5096800)) (Dbl.fin l)
              (Rounded.distProjSat2GS (Dbl.fin 12742000) (Dbl.fin 0) (Dbl.fin 0)
                (Dbl.fin (-3822600)) (Dbl.fin (-5096800)) (Dbl.fin 0)) (Dbl.fin 0),
           Rounded.translate (Dbl.fin 0) (Dbl.fin l)
              (Rounded.distProjSat2GS (Dbl.fin 12742000) (Dbl.fin 0) (Dbl.fin 0)
                (Dbl.fin (-3822600)) (Dbl.fin (-5096800)) (Dbl.fin 0)) (Dbl.fin 0)) ∧
      Rounded.mainBody (Dbl.fin 12742000) (Dbl.fin 0) (Dbl.fin 0)
          (Dbl.fin (-3822600)) (Dbl.fin (-5096800)) (Dbl.fin 0)
        = some (Dbl.fin d, Dbl.fin e, Dbl.fin 0) ∧
      |d - (-3822600 + l * 10193600 / norm3 10193600 5096800 0)| ≤ 1 / 1000000 ∧
      |e - (-5096800 + l * 5096800 / norm3 10193600 5096800 0)| ≤ 1 / 1000000 := by
  obtain ⟨l, hl, hl', hL⟩ := Rounded.linearDisplacement_B
  have hb : Dbl.beq (Dbl.fin l) (Dbl.fin 0.0) = false := by
    show decide (l = 0.0) = false
    rw [decide_eq_false_iff_not]
    norm_num
    exact hl.ne'
  have hm := Rounded.mainBody_of_integral (-10193600) (-5096800) 0
    (a := -3822600) (b := -5096800) (c := 0) Rounded.satProjection_B
    (by rw [show (-3822600 : ℝ) - 6371000 = -10193600 by norm_num, rnd_neg_int_10193600]
        norm_num)
    (by rw [show (-5096800 : ℝ) - 0 = -5096800 by norm_num, rnd_neg_int_5096800]
        norm_num)
    (by rw [sub_self, Dbl.rnd_zero]; norm_num)
    (by norm_num [abs_le]) (by norm_num [abs_le]) (by norm_num [abs_le])
  rw [hL, hb] at hm
  have hr0 : (11396791 : ℝ) ≤ Real.sqrt 129886851200000 :=
    Real.le_sqrt_of_sq_le (by norm_num)
  obtain ⟨hD1, hD2⟩ := Dbl.rnd_bounds_num (le_trans (by norm_num) hr0)
  have hD : |Dbl.rnd (Real.sqrt 129886851200000) - Real.sqrt 129886851200000|
      ≤ Real.sqrt 129886851200000 * (1 / 1000000000000000) := by
    rw [abs_le]; constructor <;> linarith
  have hDne : Dbl.rnd (Real.sqrt 129886851200000) ≠ 0 := by
    have := chordB_bounds.1
    intro h0
    rw [h0] at this
    norm_num at this
  have hdist : Rounded.distProjSat2GS (Dbl.fin 12742000) (Dbl.fin 0) (Dbl.fin 0)
      (Dbl.fin (-3822600)) (Dbl.fin (-5096800)) (Dbl.fin 0)
        = Dbl.fin (Dbl.rnd (Real.sqrt 129886851200000)) := by
    rw [Rounded.distProjSat2GS_eq, Rounded.zenithAngle_B]
  have e1 : Dbl.rnd ((6371000 : ℝ) - -3822600) = 10193600 := by
    rw [show (6371000 : ℝ) - -3822600 = 10193600 by norm_num]
    exact rnd_nat_num (n := 10193600) (by norm_num) (by norm_num)
  have e2 : Dbl.rnd ((0 : ℝ) - -5096800) = 5096800 := by
    rw [show (0 : ℝ) - -5096800 = 5096800 by norm_num]
    exact rnd_nat_num (n := 5096800) (by norm_num) (by norm_num)
  have hx := translation_close (l := l) (Δ := 10193600) (a := -3822600) hl.le hl' hr0 hD
    (by norm_num [abs_le]) (by norm_num [abs_le])
  have hy := translation_close (l := l) (Δ := 5096800) (a := -5096800) hl.le hl' hr0 hD
    (by norm_num [abs_le]) (by norm_num [abs_le])
  refine ⟨l, _, _, hl.ne', hL, Rounded.satProjection_B, by norm_num, by norm_num, ?_, ?_,
    by rw [norm3_B]; exact hx, by rw [norm3_B]; exact hy⟩
  · rw [hm]
    rfl
  · rw [hm, hdist, Dbl.fin_div_fin _ hDne]
    simp only [Dbl.rn_fin, Dbl.fin_sub_fin, e1, e2, sub_self, Dbl.rnd_zero, Dbl.fin_mul_fin,
      Dbl.fin_add_fin, mul_zero, add_zero, Bool.false_eq_true, if_false]

/-- C12, amended: in double arithmetic, for every satellite `s` and ground
station `g` (finite numbers) with a nonzero `linearDisplacement`, whenever each
computed coordinate difference `g_axis - proj_axis` is an integer within the
`int` range (so that `abs` loses nothing), the point produced by the per-axis
add/subtract branches of `main` is the general translation
`g + (linearDisplacement / distProjSat2GS) * (proj - g)`, every operation
rounded (`Rounded.translate`), on however many axes `proj` and `g` differ. -/
theorem perAxis_is_translation (x y z a b c px py pz : ℝ) (m1 m2 m3 : ℤ)
    (hp : Rounded.satProjection (Dbl.fin x) (Dbl.fin y) (Dbl.fin z)
      = (Dbl.fin px, Dbl.fin py, Dbl.fin pz))
    (h1 : Dbl.rn (Dbl.fin a - Dbl.fin px) = Dbl.fin (m1 : ℝ))
    (h2 : Dbl.rn (Dbl.fin b - Dbl.fin py) = Dbl.fin (m2 : ℝ))
    (h3 : Dbl.rn (Dbl.fin c - Dbl.fin pz) = Dbl.fin (m3 : ℝ))
    (r1 : |m1| ≤ 2147483647) (r2 : |m2| ≤ 2147483647) (r3 : |m3| ≤ 2147483647)
    (hL : Dbl.beq (Rounded.linearDisplacement (Dbl.fin x) (Dbl.fin y) (Dbl.fin z)
      (Dbl.fin a) (Dbl.fin b) (Dbl.fin c)) (Dbl.fin 0.0) = false) :
    Rounded.mainBody (Dbl.fin x) (Dbl.fin y) (Dbl.fin z) (Dbl.fin a) (Dbl.fin b) (Dbl.fin c)
      = some
        (Rounded.translate (Dbl.fin a)
            (Rounded.linearDisplacement (Dbl.fin x) (Dbl.fin y) (Dbl.fin z)
              (Dbl.fin a) (Dbl.fin b) (Dbl.fin c))
            (Rounded.distProjSat2GS (Dbl.fin x) (Dbl.fin y) (Dbl.fin z)
              (Dbl.fin a) (Dbl.fin b) (Dbl.fin c)) (Dbl.fin px),
         Rounded.translate (Dbl.fin b)
            (Rounded.linearDisplacement (Dbl.fin x) (Dbl.fin y) (Dbl.fin z)
              (Dbl.fin a) (Dbl.fin b) (Dbl.fin c))
            (Rounded.distProjSat2GS (Dbl.fin x) (Dbl.fin y) (Dbl.fin z)
              (Dbl.fin a) (Dbl.fin b) (Dbl.fin c)) (Dbl.fin py),
         Rounded.translate (Dbl.fin c)
            (Rounded.linearDisplacement (Dbl.fin x) (Dbl.fin y) (Dbl.fin z)
              (Dbl.fin a) (Dbl.fin b) (Dbl.fin c))
            (Rounded.distProjSat2GS (Dbl.fin x) (Dbl.fin y) (Dbl.fin z)
              (Dbl.fin a) (Dbl.fin b) (Dbl.fin c)) (Dbl.fin pz)) := by
  have e1 : Dbl.rnd (a - px) = (m1 : ℝ) := by
    have h : Dbl.fin (Dbl.rnd (a - px)) = Dbl.fin (m1 : ℝ) := h1
    exact Dbl.fin.inj h
  have e2 : Dbl.rnd (b - py) = (m2 : ℝ) := by
    have h : Dbl.fin (Dbl.rnd (b - py)) = Dbl.fin (m2 : ℝ) := h2
    exact Dbl.fin.inj h
  have e3 : Dbl.rnd (c - pz) = (m3 : ℝ) := by
    have h : Dbl.fin (Dbl.rnd (c - pz)) = Dbl.fin (m3 : ℝ) := h3
    exact Dbl.fin.inj h
  rw [Rounded.mainBody_of_integral m1 m2 m3 hp e1 e2 e3 r1 r2 r3, hL]
  rfl

/-- Witness of C12 (amended) at the satellite `(12742000, 0, 0)` and the ground
station `(-3822600, -5096800, 0)`. -/
theorem perAxis_is_translation_witness :
    (Rounded.satProjection (Dbl.fin 12742000) (Dbl.fin 0) (Dbl.fin 0)
        = (Dbl.fin 6371000, Dbl.fin 0, Dbl.fin 0) ∧
      Dbl.rn (Dbl.fin (-3822600) - Dbl.fin 6371000) = Dbl.fin ((-10193600 : ℤ) : ℝ) ∧
      Dbl.rn (Dbl.fin (-5096800) - Dbl.fin 0) = Dbl.fin ((-5096800 : ℤ) : ℝ) ∧
      Dbl.rn (Dbl.fin 0 - Dbl.fin 0) = Dbl.fin ((0 : ℤ) : ℝ) ∧
      Dbl.beq (Rounded.linearDisplacement (Dbl.fin 12742000) (Dbl.fin 0) (Dbl.fin 0)
          (Dbl.fin (-3822600)) (Dbl.fin (-5096800)) (Dbl.fin 0)) (Dbl.fin 0.0) = false) ∧
    Rounded.mainBody (Dbl.fin 12742000) (Dbl.fin 0) (Dbl.fin 0)
        (Dbl.fin (-3822600)) (Dbl.fin (-5096800)) (Dbl.fin 0)
      = some
        (Rounded.translate (Dbl.fin (-3822600))
            (Rounded.linearDisplacement (Dbl.fin 12742000) (Dbl.fin 0) (Dbl.fin 0)
              (Dbl.fin (-3822600)) (Dbl.fin (-5096800)) (Dbl.fin 0))
            (Rounded.distProjSat2GS (Dbl.fin 12742000) (Dbl.fin 0) (Dbl.fin 0)
              (Dbl.fin (-3822600)) (Dbl.fin (-5096800)) (Dbl.fin 0)) (Dbl.fin 6371000),
         Rounded.translate (Dbl.fin (-5096800))
            (Rounded.linearDisplacement (Dbl.fin 12742000) (Dbl.fin 0) (Dbl.fin 0)
              (Dbl.fin (-3822600)) (Dbl.fin (-5096800)) (Dbl.fin 0))
            (Rounded.distProjSat2GS (Dbl.fin 12742000) (Dbl.fin 0) (Dbl.fin 0)
              (Dbl.fin (-3822600)) (Dbl.fin (-5096800)) (Dbl.fin 0)) (Dbl.fin 0),
         Rounded.translate (Dbl.fin 0)
            (Rounded.linearDisplacement (Dbl.fin 12742000) (Dbl.fin 0) (Dbl.fin 0)
              (Dbl.fin (-3822600)) (Dbl.fin (-5096800)) (Dbl.fin 0))
            (Rounded.distProjSat2GS (Dbl.fin 12742000) (Dbl.fin 0) (Dbl.fin 0)
              (Dbl.fin (-3822600)) (Dbl.fin (-5096800)) (Dbl.fin 0)) (Dbl.fin 0)) := by
  have h1 : Dbl.rn (Dbl.fin (-3822600) - Dbl.fin 6371000) = Dbl.fin ((-10193600 : ℤ) : ℝ) := by
    rw [Dbl.fin_sub_fin, Dbl.rn_fin, show (-3822600 : ℝ) - 6371000 = -10193600 by norm_num,
      rnd_neg_int_10193600]
    norm_num
  have h2 : Dbl.rn (Dbl.fin (-5096800) - Dbl.fin 0) = Dbl.fin ((-5096800 : ℤ) : ℝ) := by
    rw [Dbl.fin_sub_fin, Dbl.rn_fin, show (-5096800 : ℝ) - 0 = -5096800 by norm_num,
      rnd_neg_int_5096800]
    norm_num
  have h3 : Dbl.rn (Dbl.fin 0 - Dbl.fin 0) = Dbl.fin ((0 : ℤ) : ℝ) := by
    rw [Dbl.fin_sub_fin, Dbl.rn_fin, sub_self, Dbl.rnd_zero]
    norm_num
  have hL : Dbl.beq (Rounded.linearDisplacement (Dbl.fin 12742000) (Dbl.fin 0) (Dbl.fin 0)
      (Dbl.fin (-3822600)) (Dbl.fin (-5096800)) (Dbl.fin 0)) (Dbl.fin 0.0) = false := by
    obtain ⟨l, hl, -, hL⟩ := Rounded.linearDisplacement_B
    rw [hL]
    show decide (l = 0.0) = false
    rw [decide_eq_false_iff_not]
    norm_num
    exact hl.ne'
  exact ⟨⟨Rounded.satProjection_B, h1, h2, h3, hL⟩,
    perAxis_is_translation 12742000 0 0 (-3822600) (-5096800) 0 6371000 0 0
      (-10193600) (-5096800) 0 Rounded.satProjection_B h1 h2 h3
      (by norm_num [abs_le]) (by norm_num [abs_le]) (by norm_num [abs_le]) hL⟩

/-- C13, as stated, fails: at the origin `satProjection` computes
`t = EARTHRAD / 0 = +inf` and returns the three output coordinates
`t * 0 = NaN`; it does not fail. -/
theorem satProjection_origin_returns :
    Dbl.ofInt EARTHRAD
        / Dbl.sqrt (Dbl.pow (Dbl.fin 0) 2 + Dbl.pow (Dbl.fin 0) 2 + Dbl.pow (Dbl.fin 0) 2)
      = Dbl.pinf ∧
    satProjection (Dbl.fin 0) (Dbl.fin 0) (Dbl.fin 0) = (Dbl.nan, Dbl.nan, Dbl.nan) := by
  refine ⟨?_, satProjection_origin⟩
  rw [sqrt_sumsq_fin, (norm3_eq_zero_iff 0 0 0).mpr ⟨rfl, rfl, rfl⟩]
  show (if (0 : ℝ) = 0 then
      (if 0 < ((EARTHRAD : ℤ) : ℝ) then Dbl.pinf
        else if ((EARTHRAD : ℤ) : ℝ) < 0 then Dbl.ninf else Dbl.nan)
      else Dbl.fin (((EARTHRAD : ℤ) : ℝ) / 0)) = Dbl.pinf
  rw [if_pos rfl, if_pos (by norm_num [EARTHRAD])]

/-- C13, amended: `satProjection` never fails; on a point with finite
coordinates it returns three NaN coordinates exactly when the point is the
origin. -/
theorem satProjection_nan_iff_origin (x y z : ℝ) :
    satProjection (Dbl.fin x) (Dbl.fin y) (Dbl.fin z) = (Dbl.nan, Dbl.nan, Dbl.nan)
      ↔ x = 0 ∧ y = 0 ∧ z = 0 := by
  constructor
  · intro h
    by_contra h0
    rw [satProjection_fin h0] at h
    cases h
  · rintro ⟨rfl, rfl, rfl⟩
    exact satProjection_origin

/-- C14: for every point `p = (q, r, s)` (any `double`s), `refractiveIndex`
equals `1 + 0.0002905 * (1 - 0.0065 * (|p| - EARTHRAD) / 273.15) ^ Γ` with
`Γ = (28.825 * 9.805) / (8314.3 * 0.0065) - 1`; for a finite point whose base
`1 - 0.0065 * (|p| - EARTHRAD) / 273.15` is not negative this is the real power,
and for a negative base both are NaN (`pow` of a negative base with a
non-integer exponent). -/
theorem refractiveIndex_formula :
    (∀ q r s : Dbl,
      refractiveIndex q r s
        = Dbl.fin 1 + Dbl.fin 0.0002905
            * Dbl.pow
                (Dbl.fin 1 - Dbl.fin 0.0065
                  * (Dbl.sqrt (Dbl.pow q 2 + Dbl.pow r 2 + Dbl.pow s 2) - Dbl.ofInt EARTHRAD)
                  / Dbl.fin 273.15)
                ((28.825 * 9.805) / (8314.3 * 0.0065) - 1)) ∧
    (∀ q r s : ℝ, 0 ≤ 1 - 0.0065 * (norm3 q r s - 6371000) / 273.15 →
      refractiveIndex (Dbl.fin q) (Dbl.fin r) (Dbl.fin s)
        = Dbl.fin (1 + 0.0002905 * (1 - 0.0065 * (norm3 q r s - 6371000) / 273.15)
            ^ ((28.825 * 9.805) / (8314.3 * 0.0065) - 1 : ℝ))) ∧
    (∀ q r s : ℝ, 1 - 0.0065 * (norm3 q r s - 6371000) / 273.15 < 0 →
      refractiveIndex (Dbl.fin q) (Dbl.fin r) (Dbl.fin s) = Dbl.nan) := by
  refine ⟨?_, fun q r s h => (refractiveIndex_fin q r s).1 h,
    fun q r s h => (refractiveIndex_fin q r s).2 h⟩
  intro q r s
  have h10 : (1.0 : ℝ) = 1 := by norm_num
  unfold refractiveIndex
  dsimp only
  rw [h10]

/-- Witness of C14 at the sea-level point `(6371000, 0, 0)`. -/
theorem refractiveIndex_formula_witness :
    (0 : ℝ) ≤ 1 - 0.0065 * (norm3 6371000 0 0 - 6371000) / 273.15 ∧
    refractiveIndex (Dbl.fin 6371000) (Dbl.fin 0) (Dbl.fin 0)
      = Dbl.fin (1 + 0.0002905 * (1 - 0.0065 * (norm3 6371000 0 0 - 6371000) / 273.15)
          ^ ((28.825 * 9.805) / (8314.3 * 0.0065) - 1 : ℝ)) := by
  have h : (0 : ℝ) ≤ 1 - 0.0065 * (norm3 6371000 0 0 - 6371000) / 273.15 := by
    rw [norm3_R00]; norm_num
  exact ⟨h, refractiveIndex_formula.2.1 6371000 0 0 h⟩

/-- C15: fixture cross-check on the generator, for a fixture index `j` in
`0..90`.  When the ground station is `(6371000, 0, 0)` or `(0, 0, 6371000)`, the
angle that `zenithAngle` returns for the generated spacecraft position and that
ground station is within `1e-6` rad of `j * PI / 180`.  When the ground station
is `(0, 6371000, 0)`, the generator gives the spacecraft a negative y coordinate
and the angle that `zenithAngle` returns differs from `j * PI / 180` by more than
`0.01` rad. -/
theorem fixture_cross_check (j : ℕ) (hj : j < 91) :
    (((generate.a.getD j 0 = 6371000 ∧ generate.b.getD j 0 = 0 ∧ generate.c.getD j 0 = 0) ∨
        (generate.a.getD j 0 = 0 ∧ generate.b.getD j 0 = 0 ∧ generate.c.getD j 0 = 6371000)) →
      ∃ x y z θ : ℝ, generate.iter j = some (Dbl.fin x, Dbl.fin y, Dbl.fin z) ∧
        generate.zenAng j = Dbl.fin (j * (3.14159265359 / 180)) ∧
        (zenithAngle (Dbl.fin x) (Dbl.fin y) (Dbl.fin z) (Dbl.ofInt (generate.a.getD j 0))
          (Dbl.ofInt (generate.b.getD j 0)) (Dbl.ofInt (generate.c.getD j 0))).1 = Dbl.fin θ ∧
        |θ - j * (3.14159265359 / 180)| ≤ 0.000001) ∧
    ((generate.a.getD j 0 = 0 ∧ generate.b.getD j 0 = 6371000 ∧ generate.c.getD j 0 = 0) →
      ∃ x y z θ : ℝ, generate.iter j = some (Dbl.fin x, Dbl.fin y, Dbl.fin z) ∧ y < 0 ∧
        generate.zenAng j = Dbl.fin (j * (3.14159265359 / 180)) ∧
        (zenithAngle (Dbl.fin x) (Dbl.fin y) (Dbl.fin z) (Dbl.ofInt (generate.a.getD j 0))
          (Dbl.ofInt (generate.b.getD j 0)) (Dbl.ofInt (generate.c.getD j 0))).1 = Dbl.fin θ ∧
        0.01 < |θ - j * (3.14159265359 / 180)|) := by
  obtain ⟨sx, sy, sz⟩ := generate_stations j hj
  have c1 : Dbl.ofInt 6371000 = Dbl.fin 6371000 := by rw [Dbl.ofInt_eq]; norm_num
  have c0 : Dbl.ofInt 0 = Dbl.fin 0 := by rw [Dbl.ofInt_eq]; norm_num
  have hKR : (1.07848061529 * 6371000 : ℝ) ≠ 6371000 := by norm_num
  have origin_of_norm : ∀ x y z : ℝ, norm3 x y z = 1.07848061529 * 6371000 →
      ¬ (x = 0 ∧ y = 0 ∧ z = 0) := by
    intro x y z hn h0
    rw [(norm3_eq_zero_iff x y z).mpr h0] at hn
    norm_num at hn
  constructor
  · intro hst
    have hj87 : j ≤ 87 := by
      rcases hst with h | h
      · have := sx h; omega
      · have := (sz h).2; omega
    obtain ⟨hθ0, hθ1, -, hd0, hd1, hle⟩ := gen_angle_bounds hj87
    obtain ⟨n1, -, n3⟩ := gen_point_norm hle 1.07848061529 (Or.inl rfl)
    obtain ⟨ch1, ch3, -⟩ := gen_chords hd0 hle
    have hclose := recomputed_angle_close hθ0 hθ1 (genChord_eq j) hd0 hd1
    rcases hst with ⟨hA, hB, hC⟩ | ⟨hA, hB, hC⟩
    · have hit : generate.iter j
          = some (Dbl.fin (1.07848061529 * genAxial (genChord j)),
              Dbl.fin (1.07848061529 * genLateral (genChord j)),
              Dbl.fin (1.07848061529 * 0)) := by
        rw [generate_iter_eval hj87, hA, hB, hC, if_pos ⟨rfl, rfl⟩, if_neg (by norm_num)]
      refine ⟨_, _, _, _, hit, zenAng_fin hj, ?_, hclose⟩
      rw [hA, hB, hC, c1, c0, zenithAngle_fin (origin_of_norm _ _ _ n1) (by rw [n1]; exact hKR),
        ch1, n1]
    · have hit : generate.iter j
          = some (Dbl.fin (1.07848061529 * genLateral (genChord j)),
              Dbl.fin (1.07848061529 * 0),
              Dbl.fin (1.07848061529 * genAxial (genChord j))) := by
        rw [generate_iter_eval hj87, hA, hB, hC, if_neg (by norm_num), if_neg (by norm_num),
          if_pos ⟨rfl, rfl⟩, if_neg (by norm_num)]
      refine ⟨_, _, _, _, hit, zenAng_fin hj, ?_, hclose⟩
      rw [hA, hB, hC, c1, c0, zenithAngle_fin (origin_of_norm _ _ _ n3) (by rw [n3]; exact hKR),
        ch3, n3]
  · rintro ⟨hA, hB, hC⟩
    obtain ⟨hj30, hj44⟩ := sy ⟨hA, hB, hC⟩
    have hj87 : j ≤ 87 := by omega
    obtain ⟨hθ0, hθ1, -, hd0, -, hle⟩ := gen_angle_bounds hj87
    obtain ⟨-, m2, -⟩ := gen_point_norm hle (-1.07848061529) (Or.inr rfl)
    obtain ⟨-, -, ch2⟩ := gen_chords hd0 hle
    obtain ⟨hh0, hh1⟩ := gen_height
    have hpi := Real.pi_gt_d6
    have hjr : (j : ℝ) ≤ 44 := by exact_mod_cast hj44
    have hθ44 : (j : ℝ) * (3.14159265359 / 180) < 0.768 := by nlinarith
    have htan1 : Real.tan ((j : ℝ) * (3.14159265359 / 180)) ≤ 1 := by
      rw [← Real.tan_pi_div_four]
      exact Real.strictMonoOn_tan.monotoneOn ⟨by linarith, hθ1⟩
        ⟨by linarith, by linarith⟩ (by linarith)
    have hd5 : genChord j ≤ 500000 := by
      rw [genChord_eq]; nlinarith
    have hApos : 0 < genAxial (genChord j) := by
      rw [genAxial_eq]
      have : genChord j ^ 2 / (2 * 6371000) ≤ 500000 ^ 2 / (2 * 6371000) := by
        apply div_le_div_of_nonneg_right _ (by norm_num)
        nlinarith
      norm_num at this ⊢
      linarith
    have hit : generate.iter j
        = some (Dbl.fin (1.07848061529 * genLateral (genChord j)),
            Dbl.fin (-1.07848061529 * genAxial (genChord j)),
            Dbl.fin (1.07848061529 * 0)) := by
      rw [generate_iter_eval hj87, hA, hB, hC, if_neg (by norm_num), if_pos ⟨rfl, rfl⟩]
    obtain ⟨ch, hch⟩ : ∃ ch : ℝ, ch = chord (1.07848061529 * genLateral (genChord j))
      (-1.07848061529 * genAxial (genChord j)) (1.07848061529 * 0) 0 6371000 0 := ⟨_, rfl⟩
    have hch0 : 0 ≤ ch := hch ▸ chord_nonneg _ _ _ _ _ _
    rw [← hch] at ch2
    have hchR : 6371000 ≤ ch := by nlinarith
    have hq : 1 < ch / (1.07848061529 * 6371000 - 6371000) := by
      rw [one_lt_div (by linarith)]
      linarith
    have hat : Real.pi / 4 < Real.arctan (ch / (1.07848061529 * 6371000 - 6371000)) := by
      rw [← Real.arctan_one]
      exact Real.arctan_strictMono hq
    refine ⟨_, _, _, Real.arctan (ch / (1.07848061529 * 6371000 - 6371000)), hit, ?_,
      zenAng_fin hj, ?_, ?_⟩
    · nlinarith
    · rw [hA, hB, hC, c1, c0, zenithAngle_fin (origin_of_norm _ _ _ m2) (by rw [m2]; exact hKR),
        ← hch, m2]
    · apply lt_abs.mpr
      left
      linarith

/-- Witness of C15 at the fixture indices `0` (ground station `(6371000, 0, 0)`)
and `30` (ground station `(0, 6371000, 0)`). -/
theorem fixture_cross_check_witness :
    (∃ x y z θ : ℝ, generate.iter 0 = some (Dbl.fin x, Dbl.fin y, Dbl.fin z) ∧
        generate.zenAng 0 = Dbl.fin ((0 : ℕ) * (3.14159265359 / 180)) ∧
        (zenithAngle (Dbl.fin x) (Dbl.fin y) (Dbl.fin z) (Dbl.ofInt (generate.a.getD 0 0))
          (Dbl.ofInt (generate.b.getD 0 0)) (Dbl.ofInt (generate.c.getD 0 0))).1 = Dbl.fin θ ∧
        |θ - (0 : ℕ) * (3.14159265359 / 180)| ≤ 0.000001) ∧
    (∃ x y z θ : ℝ, generate.iter 30 = some (Dbl.fin x, Dbl.fin y, Dbl.fin z) ∧ y < 0 ∧
        generate.zenAng 30 = Dbl.fin ((30 : ℕ) * (3.14159265359 / 180)) ∧
        (zenithAngle (Dbl.fin x) (Dbl.fin y) (Dbl.fin z) (Dbl.ofInt (generate.a.getD 30 0))
          (Dbl.ofInt (generate.b.getD 30 0)) (Dbl.ofInt (generate.c.getD 30 0))).1 = Dbl.fin θ ∧
        0.01 < |θ - (30 : ℕ) * (3.14159265359 / 180)|) :=
  ⟨(fixture_cross_check 0 (by decide)).1 (Or.inl (by decide)),
    (fixture_cross_check 30 (by decide)).2 (by decide)⟩

/-- C16, as stated, fails on the code: in double arithmetic, for the satellite
`s = (12742000, 2^-40, 0)` (computed `alt_sat` `12742000 > EARTHRAD`) and the
ground station `g = (6371000, 0, 0)` the projection is `(6371000, 2^-41, 0)`
and the chord `distProjSat2GS` is `2^-41`, not zero, yet `linearDisplacement`
is `0`: the test `linearDisplacement == 0.0` succeeds and `main` leaves `g`
unchanged although the satellite is not overhead. -/
theorem zero_displacement_off_overhead :
    Dbl.gt (Rounded.altSat (Dbl.fin 12742000) (Dbl.fin ((2 : ℝ) ^ (-40 : ℤ))) (Dbl.fin 0))
      (Dbl.ofInt EARTHRAD) = true ∧
    Rounded.satProjection (Dbl.fin 12742000) (Dbl.fin ((2 : ℝ) ^ (-40 : ℤ))) (Dbl.fin 0)
      = (Dbl.fin 6371000, Dbl.fin ((2 : ℝ) ^ (-41 : ℤ)), Dbl.fin 0) ∧
    Rounded.distProjSat2GS (Dbl.fin 12742000) (Dbl.fin ((2 : ℝ) ^ (-40 : ℤ))) (Dbl.fin 0)
        (Dbl.fin 6371000) (Dbl.fin 0) (Dbl.fin 0) = Dbl.fin ((2 : ℝ) ^ (-41 : ℤ)) ∧
    (2 : ℝ) ^ (-41 : ℤ) ≠ 0 ∧
    Rounded.linearDisplacement (Dbl.fin 12742000) (Dbl.fin ((2 : ℝ) ^ (-40 : ℤ))) (Dbl.fin 0)
        (Dbl.fin 6371000) (Dbl.fin 0) (Dbl.fin 0) = Dbl.fin 0 ∧
    Dbl.beq
      (Rounded.linearDisplacement (Dbl.fin 12742000) (Dbl.fin ((2 : ℝ) ^ (-40 : ℤ))) (Dbl.fin 0)
        (Dbl.fin 6371000) (Dbl.fin 0) (Dbl.fin 0)) (Dbl.fin 0.0) = true ∧
    Rounded.mainBody (Dbl.fin 12742000) (Dbl.fin ((2 : ℝ) ^ (-40 : ℤ))) (Dbl.fin 0)
        (Dbl.fin 6371000) (Dbl.fin 0) (Dbl.fin 0)
      = some (Dbl.fin 6371000, Dbl.fin 0, Dbl.fin 0) := by
  have hy : Dbl.rnd (((2 : ℝ) ^ (-40 : ℤ)) ^ 2) ≤ (2 : ℝ) ^ (-7 : ℤ) := by
    rw [two_zpow_sq, Dbl.rnd_two_zpow (by norm_num)]
    exact Dbl.two_zpow_mono (by norm_num)
  have hb : Dbl.beq (Dbl.fin 0) (Dbl.fin 0.0) = true := by
    show decide ((0 : ℝ) = 0.0) = true
    norm_num
  refine ⟨?_, Rounded.satProjection_A, ?_, (Dbl.two_zpow_pos _).ne',
    Rounded.linearDisplacement_A, ?_, Rounded.mainBody_A⟩
  · rw [Rounded.altSat_axis hy]
    show decide (((6371000 : ℤ) : ℝ) < 12742000) = true
    norm_num
  · rw [Rounded.distProjSat2GS_eq, Rounded.zenithAngle_A]
  · rw [Rounded.linearDisplacement_A]
    exact hb

/-- C16, amended: in double arithmetic, for every satellite `s` whose computed
distance `alt_sat` exceeds `EARTHRAD` and every ground station `g` (finite
numbers): if the computed chord `distProjSat2GS` is zero then
`linearDisplacement` is zero and the test `linearDisplacement == 0.0` of
`main` succeeds; hence, when the test fails, the denominator of
`linearDisplacement / distProjSat2GS` is not zero. -/
theorem chord_zero_displacement_zero (x y z a b c : ℝ)
    (hR : Dbl.gt (Rounded.altSat (Dbl.fin x) (Dbl.fin y) (Dbl.fin z)) (Dbl.ofInt EARTHRAD)
      = true) :
    (Rounded.distProjSat2GS (Dbl.fin x) (Dbl.fin y) (Dbl.fin z)
        (Dbl.fin a) (Dbl.fin b) (Dbl.fin c) = Dbl.fin 0 →
      Rounded.linearDisplacement (Dbl.fin x) (Dbl.fin y) (Dbl.fin z)
          (Dbl.fin a) (Dbl.fin b) (Dbl.fin c) = Dbl.fin 0 ∧
      Dbl.beq (Rounded.linearDisplacement (Dbl.fin x) (Dbl.fin y) (Dbl.fin z)
          (Dbl.fin a) (Dbl.fin b) (Dbl.fin c)) (Dbl.fin 0.0) = true) ∧
    (Dbl.beq (Rounded.linearDisplacement (Dbl.fin x) (Dbl.fin y) (Dbl.fin z)
          (Dbl.fin a) (Dbl.fin b) (Dbl.fin c)) (Dbl.fin 0.0) = false →
      Rounded.distProjSat2GS (Dbl.fin x) (Dbl.fin y) (Dbl.fin z)
        (Dbl.fin a) (Dbl.fin b) (Dbl.fin c) ≠ Dbl.fin 0) := by
  have hb : Dbl.beq (Dbl.fin 0) (Dbl.fin 0.0) = true := by
    show decide ((0 : ℝ) = 0.0) = true
    norm_num
  have key : Rounded.distProjSat2GS (Dbl.fin x) (Dbl.fin y) (Dbl.fin z)
      (Dbl.fin a) (Dbl.fin b) (Dbl.fin c) = Dbl.fin 0 →
      Rounded.linearDisplacement (Dbl.fin x) (Dbl.fin y) (Dbl.fin z)
          (Dbl.fin a) (Dbl.fin b) (Dbl.fin c) = Dbl.fin 0 ∧
      Dbl.beq (Rounded.linearDisplacement (Dbl.fin x) (Dbl.fin y) (Dbl.fin z)
          (Dbl.fin a) (Dbl.fin b) (Dbl.fin c)) (Dbl.fin 0.0) = true := by
    intro hd
    have hL := Rounded.linearDisplacement_of_chord_zero hR hd
    rw [hL]
    exact ⟨rfl, hb⟩
  refine ⟨key, ?_⟩
  intro hf hd
  rw [(key hd).2] at hf
  exact Bool.noConfusion hf

/-- Witness of C16 (amended) at the satellite `(12742000, 0, 0)` exactly above
the ground station `(6371000, 0, 0)`: the chord is zero and so is
`linearDisplacement`. -/
theorem chord_zero_displacement_zero_witness :
    Dbl.gt (Rounded.altSat (Dbl.fin 12742000) (Dbl.fin 0) (Dbl.fin 0)) (Dbl.ofInt EARTHRAD)
      = true ∧
    Rounded.distProjSat2GS (Dbl.fin 12742000) (Dbl.fin 0) (Dbl.fin 0)
      (Dbl.fin 6371000) (Dbl.fin 0) (Dbl.fin 0) = Dbl.fin 0 ∧
    Rounded.linearDisplacement (Dbl.fin 12742000) (Dbl.fin 0) (Dbl.fin 0)
      (Dbl.fin 6371000) (Dbl.fin 0) (Dbl.fin 0) = Dbl.fin 0 ∧
    Dbl.beq (Rounded.linearDisplacement (Dbl.fin 12742000) (Dbl.fin 0) (Dbl.fin 0)
      (Dbl.fin 6371000) (Dbl.fin 0) (Dbl.fin 0)) (Dbl.fin 0.0) = true :=
  ⟨Rounded.overhead_values.1, Rounded.overhead_values.2.2,
    (chord_zero_displacement_zero 12742000 0 0 6371000 0 0 Rounded.overhead_values.1).1
      Rounded.overhead_values.2.2⟩

/-- C17: for every satellite `s` with `|s| > EARTHRAD` and every ground station
`g` such that the closure angle `z0` computed inside `deltaAngle` is at most
`π/2`, the returned angular displacement `δ` satisfies
`0 ≤ δ ≤ arccos(EARTHRAD / (EARTHRAD + 15))`, and that bound is below
`0.0022` rad. -/
theorem deltaAngle_small (x y z a b c z0 : ℝ)
    (hs : 6371000 < Real.sqrt (x ^ 2 + y ^ 2 + z ^ 2))
    (hz0 : closureAngle (Dbl.fin x) (Dbl.fin y) (Dbl.fin z)
      (Dbl.fin a) (Dbl.fin b) (Dbl.fin c) = Dbl.fin z0)
    (hle : z0 ≤ Real.pi / 2) :
    ∃ δ : ℝ,
      deltaAngle (Dbl.fin x) (Dbl.fin y) (Dbl.fin z) (Dbl.fin a) (Dbl.fin b) (Dbl.fin c)
        = Dbl.fin δ ∧
      0 ≤ δ ∧ δ ≤ Real.arccos (6371000 / 6371015) ∧
      Real.arccos (6371000 / 6371015) < 0.0022 := by
  obtain ⟨hc, hd, hnn⟩ := above_sphere_values (show 6371000 < norm3 x y z from hs) a b c
  rw [hc] at hz0
  have e : Real.arctan (chord x y z a b c / (norm3 x y z - 6371000))
      + chord x y z a b c / 6371000 = z0 := by
    injection hz0
  rw [e] at hd hnn
  refine ⟨_, hd, shellDisp_nonneg hnn, ?_, arccos_shell_lt⟩
  rw [← shellDisp_pi_div_two]
  exact shellDisp_monotone hle

/-- Witness of C17 at the satellite `(6871000, 0, 0)` above the ground station
`(6371000, 0, 0)`, where the closure angle is `0`. -/
theorem deltaAngle_small_witness :
    ((6371000 : ℝ) < Real.sqrt ((6871000 : ℝ) ^ 2 + 0 ^ 2 + 0 ^ 2) ∧
      closureAngle (Dbl.fin 6871000) (Dbl.fin 0) (Dbl.fin 0)
        (Dbl.fin 6371000) (Dbl.fin 0) (Dbl.fin 0) = Dbl.fin 0 ∧
      (0 : ℝ) ≤ Real.pi / 2) ∧
    ∃ δ : ℝ,
      deltaAngle (Dbl.fin 6871000) (Dbl.fin 0) (Dbl.fin 0)
          (Dbl.fin 6371000) (Dbl.fin 0) (Dbl.fin 0) = Dbl.fin δ ∧
      0 ≤ δ ∧ δ ≤ Real.arccos (6371000 / 6371015) ∧
      Real.arccos (6371000 / 6371015) < 0.0022 := by
  have h : (6371000 : ℝ) < Real.sqrt ((6871000 : ℝ) ^ 2 + 0 ^ 2 + 0 ^ 2) := by
    rw [show ((6871000 : ℝ) ^ 2 + 0 ^ 2 + 0 ^ 2) = 6871000 ^ 2 by norm_num,
      Real.sqrt_sq (by norm_num)]
    norm_num
  have hg : norm3 6371000 0 0 = 6371000 := norm3_R00
  have hk : (1 : ℝ) < 6871 / 6371 := by norm_num
  obtain ⟨hn, pa, pb, pc, hch⟩ := overhead_proj hg hk
  have e1 : (6871 / 6371 : ℝ) * 6371000 = 6871000 := by norm_num
  have e0 : (6871 / 6371 : ℝ) * 0 = 0 := by norm_num
  rw [e1, e0] at hn hch
  have hc := (above_sphere_values (show 6371000 < norm3 6871000 0 0 by rw [hn]; norm_num)
    6371000 0 0).1
  rw [hch] at hc
  have hc0 : closureAngle (Dbl.fin 6871000) (Dbl.fin 0) (Dbl.fin 0)
      (Dbl.fin 6371000) (Dbl.fin 0) (Dbl.fin 0) = Dbl.fin 0 := by
    rw [hc]; simp
  have hp : (0 : ℝ) ≤ Real.pi / 2 := by positivity
  exact ⟨⟨h, hc0, hp⟩, deltaAngle_small 6871000 0 0 6371000 0 0 0 h hc0 hp⟩

/-- C18: for every point `p` with `EARTHRAD ≤ |p| ≤ EARTHRAD + 10500`,
`refractiveIndex(p)` is a number in `(1, 1.0002905]`, and it equals `1.0002905`
exactly when `|p| = EARTHRAD`. -/
theorem refractiveIndex_range (q r s : ℝ)
    (hlo : 6371000 ≤ Real.sqrt (q ^ 2 + r ^ 2 + s ^ 2))
    (hhi : Real.sqrt (q ^ 2 + r ^ 2 + s ^ 2) ≤ 6371000 + 10500) :
    ∃ μ : ℝ, refractiveIndex (Dbl.fin q) (Dbl.fin r) (Dbl.fin s) = Dbl.fin μ ∧
      1 < μ ∧ μ ≤ 1.0002905 ∧
      (μ = 1.0002905 ↔ Real.sqrt (q ^ 2 + r ^ 2 + s ^ 2) = 6371000) := by
  have hlo' : 6371000 ≤ norm3 q r s := hlo
  have hhi' : norm3 q r s ≤ 6371000 + 10500 := hhi
  obtain ⟨h4, h5⟩ := Gamma_bounds
  have hGpos : (0 : ℝ) < (28.825 * 9.805) / (8314.3 * 0.0065) - 1 := by linarith
  obtain ⟨t, ht⟩ : ∃ t : ℝ, t = 1 - 0.0065 * (norm3 q r s - 6371000) / 273.15 := ⟨_, rfl⟩
  have ht0 : 0 < t := by
    rw [ht, sub_pos, div_lt_one (by norm_num)]
    nlinarith
  have ht1 : t ≤ 1 := by
    rw [ht, sub_le_self_iff]
    apply div_nonneg _ (by norm_num)
    nlinarith
  have hteq : t = 1 ↔ norm3 q r s = 6371000 := by
    rw [ht]
    constructor
    · intro h
      have h2 : 0.0065 * (norm3 q r s - 6371000) / 273.15 = 0 := by linarith
      have h3 : 0.0065 * (norm3 q r s - 6371000) = 0 := by
        rcases div_eq_zero_iff.mp h2 with h | h
        · exact h
        · norm_num at h
      rcases mul_eq_zero.mp h3 with h | h
      · norm_num at h
      · linarith
    · intro h
      rw [h]; norm_num
  have hval := (refractiveIndex_fin q r s).1 (by rw [← ht]; exact ht0.le)
  rw [← ht] at hval
  have hp0 : 0 < t ^ ((28.825 * 9.805) / (8314.3 * 0.0065) - 1 : ℝ) :=
    Real.rpow_pos_of_pos ht0 _
  have hp1 : t ^ ((28.825 * 9.805) / (8314.3 * 0.0065) - 1 : ℝ) ≤ 1 :=
    Real.rpow_le_one ht0.le ht1 hGpos.le
  refine ⟨_, hval, by linarith, by linarith, ?_⟩
  change _ ↔ norm3 q r s = 6371000
  rw [← hteq]
  constructor
  · intro h
    by_contra hne
    have hlt : t < 1 := lt_of_le_of_ne ht1 hne
    have := Real.rpow_lt_one ht0.le hlt hGpos
    linarith
  · intro h
    rw [h, Real.one_rpow]
    norm_num

/-- Witness of C18 at the sea-level point `(6371000, 0, 0)`. -/
theorem refractiveIndex_range_witness :
    ((6371000 : ℝ) ≤ Real.sqrt ((6371000 : ℝ) ^ 2 + 0 ^ 2 + 0 ^ 2) ∧
      Real.sqrt ((6371000 : ℝ) ^ 2 + 0 ^ 2 + 0 ^ 2) ≤ 6371000 + 10500) ∧
    ∃ μ : ℝ, refractiveIndex (Dbl.fin 6371000) (Dbl.fin 0) (Dbl.fin 0) = Dbl.fin μ ∧
      1 < μ ∧ μ ≤ 1.0002905 ∧
      (μ = 1.0002905 ↔ Real.sqrt ((6371000 : ℝ) ^ 2 + 0 ^ 2 + 0 ^ 2) = 6371000) := by
  have e : Real.sqrt ((6371000 : ℝ) ^ 2 + 0 ^ 2 + 0 ^ 2) = 6371000 := norm3_R00
  have h1 : (6371000 : ℝ) ≤ Real.sqrt ((6371000 : ℝ) ^ 2 + 0 ^ 2 + 0 ^ 2) := by rw [e]
  have h2 : Real.sqrt ((6371000 : ℝ) ^ 2 + 0 ^ 2 + 0 ^ 2) ≤ 6371000 + 10500 := by
    rw [e]; norm_num
  exact ⟨⟨h1, h2⟩, refractiveIndex_range 6371000 0 0 h1 h2⟩

/-- C19: the `static` locals are not cross-call state: for `satProjection`,
`zenithAngle` and `deltaAngle`, the outputs of a call do not depend on the values
that the `static` variables hold on entry (so two calls with equal arguments
return equal outputs, also when the second call starts from the state the first
one left), they are the outputs of the state-free functions, and a call of
`zenithAngle` overwrites every `static` with a value computed from its
arguments. -/
theorem statics_not_cross_call (σ σ' : Statics) (x y z a b c : Dbl) :
    ((Stateful.satProjection σ x y z).1 = (Stateful.satProjection σ' x y z).1 ∧
      (Stateful.zenithAngle σ x y z a b c).1 = (Stateful.zenithAngle σ' x y z a b c).1 ∧
      (Stateful.deltaAngle σ x y z a b c).1 = (Stateful.deltaAngle σ' x y z a b c).1) ∧
    ((Stateful.satProjection (Stateful.satProjection σ x y z).2 x y z).1
        = (Stateful.satProjection σ x y z).1 ∧
      (Stateful.zenithAngle (Stateful.zenithAngle σ x y z a b c).2 x y z a b c).1
        = (Stateful.zenithAngle σ x y z a b c).1 ∧
      (Stateful.deltaAngle (Stateful.deltaAngle σ x y z a b c).2 x y z a b c).1
        = (Stateful.deltaAngle σ x y z a b c).1) ∧
    ((Stateful.satProjection σ x y z).1 = satProjection x y z ∧
      (Stateful.zenithAngle σ x y z a b c).1 = zenithAngle x y z a b c ∧
      (Stateful.deltaAngle σ x y z a b c).1 = deltaAngle x y z a b c) ∧
    (Stateful.zenithAngle σ x y z a b c).2 = (Stateful.zenithAngle σ' x y z a b c).2 :=
  ⟨⟨rfl, rfl, rfl⟩, ⟨rfl, rfl, rfl⟩, ⟨rfl, rfl, rfl⟩, rfl⟩

/-- C20: for every fixture index `j` in `0..87` the chord
`tan(j * PI / 180) * 500000` does not exceed the diameter `2 * 6371000`, the
generator produces a finite spacecraft position, its Euclidean norm is
`1.07848061529 * 6371000`, which is within `1e-4` m of `6371000 + 500000`, and
its surface projection has norm `6371000`. -/
theorem generated_altitude (j : ℕ) (hj : j ≤ 87) :
    genChord j ≤ 2 * 6371000 ∧
    ∃ x y z : ℝ, generate.iter j = some (Dbl.fin x, Dbl.fin y, Dbl.fin z) ∧
      Real.sqrt (x ^ 2 + y ^ 2 + z ^ 2) = 1.07848061529 * 6371000 ∧
      |Real.sqrt (x ^ 2 + y ^ 2 + z ^ 2) - (6371000 + 500000)| ≤ 0.0001 ∧
      ∃ u v w : ℝ,
        satProjection (Dbl.fin x) (Dbl.fin y) (Dbl.fin z)
          = (Dbl.fin u, Dbl.fin v, Dbl.fin w) ∧
        Real.sqrt (u ^ 2 + v ^ 2 + w ^ 2) = 6371000 := by
  obtain ⟨-, -, -, -, hc1, hle⟩ := gen_angle_bounds hj
  refine ⟨by linarith, ?_⟩
  have fin_case : ∀ x y z : ℝ, norm3 x y z = 1.07848061529 * 6371000 →
      Real.sqrt (x ^ 2 + y ^ 2 + z ^ 2) = 1.07848061529 * 6371000 ∧
      |Real.sqrt (x ^ 2 + y ^ 2 + z ^ 2) - (6371000 + 500000)| ≤ 0.0001 ∧
      ∃ u v w : ℝ,
        satProjection (Dbl.fin x) (Dbl.fin y) (Dbl.fin z)
          = (Dbl.fin u, Dbl.fin v, Dbl.fin w) ∧
        Real.sqrt (u ^ 2 + v ^ 2 + w ^ 2) = 6371000 := by
    intro x y z hn
    have h0 : ¬ (x = 0 ∧ y = 0 ∧ z = 0) := by
      intro h0
      rw [(norm3_eq_zero_iff x y z).mpr h0] at hn
      norm_num at hn
    refine ⟨hn, ?_, satProjection_norm h0⟩
    change |norm3 x y z - (6371000 + 500000)| ≤ 0.0001
    rw [hn, abs_le]
    constructor <;> norm_num
  have hk : ∀ n : ℤ, (if n < 0 then (-1.07848061529 : ℝ) else 1.07848061529) = 1.07848061529 ∨
      (if n < 0 then (-1.07848061529 : ℝ) else 1.07848061529) = -1.07848061529 := by
    intro n
    split_ifs
    · exact Or.inr rfl
    · exact Or.inl rfl
  rw [generate_iter_eval hj]
  by_cases h1 : generate.b.getD j 0 = 0 ∧ generate.c.getD j 0 = 0
  · rw [if_pos h1]
    exact ⟨_, _, _, rfl, fin_case _ _ _ (gen_point_norm hle _ (hk _)).1⟩
  · rw [if_neg h1]
    by_cases h2 : generate.a.getD j 0 = 0 ∧ generate.c.getD j 0 = 0
    · rw [if_pos h2]
      exact ⟨_, _, _, rfl, fin_case _ _ _ (gen_point_norm hle _ (Or.inr rfl)).2.1⟩
    · rw [if_neg h2]
      have h3 : generate.a.getD j 0 = 0 ∧ generate.b.getD j 0 = 0 := by
        rcases generate_branch j (by omega) with h | h | h
        · exact absurd h h1
        · exact absurd h h2
        · exact h
      rw [if_pos h3]
      exact ⟨_, _, _, rfl, fin_case _ _ _ (gen_point_norm hle _ (hk _)).2.2⟩

/-- Witness of C20 at the fixture index `45`. -/
theorem generated_altitude_witness :
    (45 : ℕ) ≤ 87 ∧ genChord 45 ≤ 2 * 6371000 ∧
    ∃ x y z : ℝ, generate.iter 45 = some (Dbl.fin x, Dbl.fin y, Dbl.fin z) ∧
      Real.sqrt (x ^ 2 + y ^ 2 + z ^ 2) = 1.07848061529 * 6371000 ∧
      |Real.sqrt (x ^ 2 + y ^ 2 + z ^ 2) - (6371000 + 500000)| ≤ 0.0001 ∧
      ∃ u v w : ℝ,
        satProjection (Dbl.fin x) (Dbl.fin y) (Dbl.fin z)
          = (Dbl.fin u, Dbl.fin v, Dbl.fin w) ∧
        Real.sqrt (u ^ 2 + v ^ 2 + w ^ 2) = 6371000 :=
  ⟨by decide, generated_altitude 45 (by decide)⟩

end Refraction
